import Mathlib

/-! # The miner actor of go-filecoin: shallow embedding

Source: `actor/builtin/miner/miner.go`.

Conventions of the embedding.

* `types.AttoFIL`, `types.BlockHeight`, `types.BytesAmount` and `*big.Int` wrap Go's
  arbitrary-precision signed `big.Int`; they are `Int` here. `big.Int.Div` is
  Euclidean division, which is `/` on `Int`.
* `uint64` values (sector ids) are `Nat`; the actor only stores and compares them.
* Byte slices are lists of numbers.
* A method of the actor is a function of the actor flag, the collaborators it talks
  to (the VM context, the proof verifier) and the persisted state; it returns an
  `Outcome`: exit code, error, persisted state after the call, and the calls it issued
  to its collaborators, in order.
-/

namespace Miner

/-! ## Primitive types -/

/-- Values of `address.Address`: the two well-known addresses the actor names, and
every other address. -/
inductive Address where
  | StorageMarketAddress
  | BurntFundsAddress
  | other (id : Nat)
  deriving DecidableEq, Repr

abbrev Bytes := List Nat
abbrev AttoFIL := Int
abbrev BlockHeight := Int
abbrev BytesAmount := Int
/-- Values of `peer.ID`. -/
abbrev peer_ID := String

/-! ## Constants (miner.go 28-84) -/

def MaximumPublicKeySize : Nat := 100
def LargestSectorSizeProvingPeriodBlocks : Nat := 20000
def LargestSectorGenerationAttackThresholdBlocks : Nat := 100
def PieceInclusionGracePeriodBlocks : Nat := 10000

/-- The value of `types.NewAttoFILFromFILString("0.001")`: a thousandth of a FIL, in
attoFIL (one FIL is 10^18 attoFIL). -/
def MinimumCollateralPerSector : AttoFIL := 1000000000000000

/-- The length `types.CommitmentBytesLen` of a commitment digest. -/
def CommitmentBytesLen : Nat := 32

def ErrPublicKeyTooBig : Nat := 33
def ErrInvalidSector : Nat := 34
def ErrSectorCommitted : Nat := 35
def ErrStoragemarketCallFailed : Nat := 36
def ErrCallerUnauthorized : Nat := 37
def ErrInsufficientPledge : Nat := 38
def ErrInvalidPoSt : Nat := 39
def ErrAskNotFound : Nat := 40
def ErrInvalidSealProof : Nat := 41
def ErrGetProofsModeFailed : Nat := 42
def ErrInsufficientCollateral : Nat := 43

/-! ## Errors and exit codes -/

/-- An error value produced outside the actor: by the VM (`ctx.Charge`, `ctx.Send`,
`ctx.SampleChainRandomness`) or by the proof verifier. It carries the exit code the
VM error package reports for it. -/
structure ExternalError where
  code : Nat
  msg : String
  deriving DecidableEq, Repr

/-- Error values the actor returns. -/
inductive VMError where
  /-- an entry of the `Errors` table: `errors.NewCodedRevertErrorf(code, msg)` -/
  | coded (code : Nat) (msg : String)
  /-- the result of `errors.NewRevertError(msg)` and `errors.NewRevertErrorf` -/
  | revert (msg : String)
  /-- the result of `errors.NewFaultErrorf` -/
  | fault (msg : String)
  /-- the result of `errors.RevertErrorWrap(err, msg)` -/
  | revertWrap (inner : ExternalError) (msg : String)
  /-- an error of a collaborator, returned as it is -/
  | external (e : ExternalError)
  /-- a Go run-time panic (nil pointer dereference); the call is aborted -/
  | runtimePanic
  deriving DecidableEq, Repr

/-- The table `Errors` (miner.go 87-99), as a function of the error code. -/
def Errors (code : Nat) : VMError :=
  VMError.coded code
    (if code = ErrPublicKeyTooBig then "public key must be less than 100 bytes"
     else if code = ErrInvalidSector then "sectorID out of range"
     else if code = ErrSectorCommitted then "sector already committed"
     else if code = ErrStoragemarketCallFailed then "call to StorageMarket failed"
     else if code = ErrCallerUnauthorized then "not authorized to call the method"
     else if code = ErrInsufficientPledge then "not enough pledged"
     else if code = ErrInvalidPoSt then "PoSt proof did not validate"
     else if code = ErrAskNotFound then "no ask was found"
     else if code = ErrInvalidSealProof then "seal proof was invalid"
     else if code = ErrGetProofsModeFailed then "failed to get proofs mode"
     else if code = ErrInsufficientCollateral then "insufficient collateral"
     else "")

/-- Exit codes handed to the VM: a small integer, or the constant
`exec.ErrInsufficientGas`, whose value is declared in the `exec` package. -/
inductive ExitCode where
  | num (n : Nat)
  | ErrInsufficientGas
  /-- no exit code: a Go run-time panic unwound the call -/
  | aborted
  deriving DecidableEq, Repr

/-- Modelled from the spec: `errors.CodeError` belongs to the VM error package, whose
source is not at hand. Errors "report a stable numeric code plus message to the
caller": a coded error reports its code, an error without a code of its own reports
the generic code 1, and no error reports 0. -/
def CodeError : Option VMError → ExitCode
  | none => ExitCode.num 0
  | some (VMError.coded c _) => ExitCode.num c
  | some (VMError.external e) => ExitCode.num e.code
  | some VMError.runtimePanic => ExitCode.aborted
  | some _ => ExitCode.num 1

/-! ## Data model (miner.go 101-177) -/

/-- The miner actor: `Bootstrap` switches proof verification off. -/
structure Actor where
  Bootstrap : Bool
  deriving DecidableEq, Repr

/-- A price advertisement by the miner. -/
structure Ask where
  Price : AttoFIL
  Expiry : BlockHeight
  ID : Int
  deriving DecidableEq, Repr

/-- The three digests `types.Commitments` of a sealed sector. -/
structure Commitments where
  CommD : Bytes
  CommR : Bytes
  CommRStar : Bytes
  deriving DecidableEq, Repr

/-- A Go `map[string]types.Commitments`, as an association list with one entry per key. -/
abbrev CommitmentsMap := List (String × Commitments)

/-- The miner actor's storage. A nil `*types.BlockHeight` is `none`. -/
structure State where
  Owner : Address
  PeerID : peer_ID
  PublicKey : Bytes
  ActiveCollateral : AttoFIL
  Asks : List Ask
  NextAskID : Int
  SectorCommitments : CommitmentsMap
  LastUsedSectorID : Nat
  ProvingPeriodStart : Option BlockHeight
  LastPoSt : Option BlockHeight
  Power : BytesAmount
  SectorSize : BytesAmount
  deriving DecidableEq, Repr

/-- The function `NewState` (miner.go 166-177). -/
def NewState (owner : Address) (key : Bytes) (pid : peer_ID) (sectorSize : BytesAmount) : State :=
  { Owner := owner
    PeerID := pid
    PublicKey := key
    ActiveCollateral := 0
    Asks := []
    NextAskID := 0
    SectorCommitments := []
    LastUsedSectorID := 0
    ProvingPeriodStart := none
    LastPoSt := none
    Power := 0
    SectorSize := sectorSize }

/-- The map read `m[k]` with its presence flag. -/
def mapGet (m : CommitmentsMap) (k : String) : Option Commitments :=
  m.lookup k

/-- The map write `m[k] = v`. -/
def mapSet (m : CommitmentsMap) (k : String) (v : Commitments) : CommitmentsMap :=
  (k, v) :: m.filter (fun e => e.1 ≠ k)

/-- The number of entries `len(m)` of a map. -/
def mapLen (m : CommitmentsMap) : Nat :=
  m.length

/-- The map key of a sector id: `strconv.FormatUint(sectorID, 10)`. -/
def sectorKey (sectorID : Nat) : String :=
  Nat.repr sectorID

/-- The effect of `copy(dst[:], src)` on a zeroed array `dst` of `n` bytes. -/
def copyInto (n : Nat) (src : Bytes) : Bytes :=
  src.take n ++ List.replicate (n - src.length) 0

/-! ## Collaborators -/

/-- The message being executed: `ctx.Message()`. -/
structure Message where
  From : Address
  To : Address
  Value : AttoFIL
  deriving DecidableEq, Repr

/-- The request `proofs.VerifySealRequest`. The prover id and the sector id are
kept as the address and the number they are derived from. -/
structure VerifySealRequest where
  CommD : Bytes
  CommR : Bytes
  CommRStar : Bytes
  Proof : Bytes
  ProverID : Address
  SectorID : Nat
  SectorSize : BytesAmount
  deriving DecidableEq, Repr

/-- The request `proofs.VerifyPoStRequest`. -/
structure VerifyPoStRequest where
  ChallengeSeed : Bytes
  SortedCommRs : List Bytes
  Faults : List Nat
  Proofs : List Bytes
  SectorSize : BytesAmount
  deriving DecidableEq, Repr

/-- The proof oracle `proofs.RustVerifier`: for each request, an error or the
`IsValid` flag of the response. -/
structure Verifier where
  VerifySeal : VerifySealRequest → Except ExternalError Bool
  VerifyPoST : VerifyPoStRequest → Except ExternalError Bool

/-- What `ctx.Send` returns: the exit code of the callee and an error. -/
structure SendResult where
  ret : Nat
  err : Option ExternalError
  deriving DecidableEq, Repr

/-- The VM context `exec.VMContext` of one call. `Charge` is the result of
`ctx.Charge(actor.DefaultGasCost)`; `Send n dest method value params` is the answer to the
`n`-th `ctx.Send` of the call. `MyBalance` is the balance of the actor when the method
starts, the message value included. -/
structure VMContext where
  Charge : Option ExternalError
  Message : Miner.Message
  BlockHeight : Miner.BlockHeight
  MyBalance : AttoFIL
  Send : Nat → Address → String → AttoFIL → List Int → SendResult
  SampleChainRandomness : Option Miner.BlockHeight → Except ExternalError Bytes

/-- A call the actor issues to a collaborator. -/
inductive Event where
  | verifySeal (req : VerifySealRequest)
  | verifyPoST (req : VerifyPoStRequest)
  | sampleChainRandomness (height : Option BlockHeight)
  | send (dest : Address) (method : String) (value : AttoFIL) (params : List Int)
  deriving DecidableEq, Repr

/-- What the closure handed to `actor.WithState` leaves behind: the in-memory state,
the collaborator calls it made, and its return value or error. -/
structure Closure (α : Type) where
  state : State
  events : List Event
  result : Except VMError α

/-- The result of a method call: return value, exit code, error, the state persisted
after the call, and the collaborator calls made. -/
structure Outcome (α : Type) where
  ret : Option α
  code : ExitCode
  err : Option VMError
  state : State
  events : List Event

/-- Modelled from the spec: `actor.WithState` is not among the sources at hand. "State
mutation is expressed as a single all-or-nothing closure per call: either every mutation
inside the call is retained and a new state root is committed, or none are (the call's
failure return discards the whole attempt)". Given the persisted state and what the
closure left, it yields the state persisted afterwards, the events, and the result. -/
def WithState {α : Type} (persisted : State) (c : Closure α) : State × List Event × Except VMError α :=
  match c.result with
  | Except.ok v => (c.state, c.events, Except.ok v)
  | Except.error e => (persisted, c.events, Except.error e)

/-- The common end of the methods that return a value: on an error of `WithState`
the exit code is `errors.CodeError(err)`, otherwise the value is returned with code 0. -/
def finish {α : Type} (r : State × List Event × Except VMError α) : Outcome α :=
  match r.2.2 with
  | Except.ok v => ⟨some v, ExitCode.num 0, none, r.1, r.2.1⟩
  | Except.error e => ⟨none, CodeError (some e), some e, r.1, r.2.1⟩

/-- The early return of every metered method when `ctx.Charge` fails. -/
def insufficientGas {α : Type} (st : State) (e : ExternalError) : Outcome α :=
  ⟨none, ExitCode.ErrInsufficientGas, some (VMError.revertWrap e "Insufficient gas"), st, []⟩

/-! ## Free functions (miner.go 869-913) -/

/-- The function `CollateralForSector` (miner.go 871-875). -/
def CollateralForSector (_sectorSize : BytesAmount) : AttoFIL :=
  MinimumCollateralPerSector

/-- The function `GenerationAttackTime` (miner.go 882-884). -/
def GenerationAttackTime (_sectorSize : BytesAmount) : BlockHeight :=
  (LargestSectorGenerationAttackThresholdBlocks : Int)

/-- The function `ProvingPeriodDuration` (miner.go 891-893). -/
def ProvingPeriodDuration (_sectorSize : BytesAmount) : Nat :=
  LargestSectorSizeProvingPeriodBlocks

/-- The function `LatePoStFee` (miner.go 901-913). -/
def LatePoStFee (pledgeCollateral : AttoFIL) (provingPeriodEnd chainHeight maxRoundsLate : BlockHeight) : AttoFIL :=
  let roundsLate := chainHeight - provingPeriodEnd
  if roundsLate ≥ maxRoundsLate then
    pledgeCollateral
  else if roundsLate > 0 then
    (pledgeCollateral * roundsLate) / maxRoundsLate
  else
    0

/-! ## Exported methods: asks (miner.go 283-400) -/

/-- The test `x.IsUint64()` of `big.Int`. -/
def IsUint64 (x : Int) : Bool :=
  decide (0 ≤ x ∧ x < 2 ^ 64)

/-- The closure of `AddAsk` (miner.go 291-320). The next id is advanced and the expired
asks are dropped in memory before the expiry is checked. -/
def addAskBody (ctx : VMContext) (st : State) (price : AttoFIL) (expiry : Int) : Closure Int :=
  if ctx.Message.From ≠ st.Owner then
    ⟨st, [], Except.error (Errors ErrCallerUnauthorized)⟩
  else
    let id := st.NextAskID
    let st1 := { st with NextAskID := st.NextAskID + 1 }
    let st2 := { st1 with Asks := st1.Asks.filter (fun a => decide (ctx.BlockHeight < a.Expiry)) }
    if ¬ IsUint64 expiry then
      ⟨st2, [], Except.error (VMError.revert "expiry was invalid")⟩
    else
      let expiryBH : BlockHeight := expiry
      let st3 := { st2 with Asks := st2.Asks ++ [{ Price := price, Expiry := ctx.BlockHeight + expiryBH, ID := id }] }
      ⟨st3, [], Except.ok id⟩

/-- The method `AddAsk` (miner.go 284-331). -/
def AddAsk (ctx : VMContext) (st : State) (price : AttoFIL) (expiry : Int) : Outcome Int :=
  match ctx.Charge with
  | some e => insufficientGas st e
  | none => finish (WithState st (addAskBody ctx st price expiry))

/-- The closure of `GetAsks` (miner.go 340-350). -/
def getAsksBody (st : State) : Closure (List Nat) :=
  if st.Asks.all (fun a => IsUint64 a.ID) then
    ⟨st, [], Except.ok (st.Asks.map (fun a => a.ID.toNat))⟩
  else
    ⟨st, [], Except.error (VMError.fault "miner ask has invalid ID (bad invariant)")⟩

/-- The method `GetAsks` (miner.go 335-361). -/
def GetAsks (ctx : VMContext) (st : State) : Outcome (List Nat) :=
  match ctx.Charge with
  | some e => insufficientGas st e
  | none => finish (WithState st (getAsksBody st))

/-- The closure of `GetAsk` (miner.go 370-389). The bytes returned are the CBOR
encoding of the ask found; the model returns the ask itself. -/
def getAskBody (st : State) (askid : Int) : Closure Ask :=
  match st.Asks.find? (fun a => decide (a.ID = askid)) with
  | none => ⟨st, [], Except.error (Errors ErrAskNotFound)⟩
  | some ask => ⟨st, [], Except.ok ask⟩

/-- The method `GetAsk` (miner.go 364-400). -/
def GetAsk (ctx : VMContext) (st : State) (askid : Int) : Outcome Ask :=
  match ctx.Charge with
  | some e => insufficientGas st e
  | none => finish (WithState st (getAskBody st askid))

/-! ## Exported methods: read accessors -/

/-- The shape shared by the accessors that read one field inside `WithState`. -/
def readField {α : Type} (ctx : VMContext) (st : State) (field : State → α) : Outcome α :=
  match ctx.Charge with
  | some e => insufficientGas st e
  | none => finish (WithState st ⟨st, [], Except.ok (field st)⟩)

/-- The method `GetOwner` (miner.go 403-422). -/
def GetOwner (ctx : VMContext) (st : State) : Outcome Address :=
  readField ctx st (fun s => s.Owner)

/-- The method `GetLastUsedSectorID` (miner.go 425-443). -/
def GetLastUsedSectorID (ctx : VMContext) (st : State) : Outcome Nat :=
  readField ctx st (fun s => s.LastUsedSectorID)

/-- The method `IsBootstrapMiner` (miner.go 447-449): it charges no gas and reads no state. -/
def IsBootstrapMiner (ma : Actor) (_ctx : VMContext) (st : State) : Outcome Bool :=
  ⟨some ma.Bootstrap, ExitCode.num 0, none, st, []⟩

/-- The method `GetSectorCommitments` (miner.go 452-471). -/
def GetSectorCommitments (ctx : VMContext) (st : State) : Outcome CommitmentsMap :=
  readField ctx st (fun s => s.SectorCommitments)

/-- The method `GetSectorSize` (miner.go 475-494). -/
def GetSectorSize (ctx : VMContext) (st : State) : Outcome BytesAmount :=
  readField ctx st (fun s => s.SectorSize)

/-- The method `GetKey` (miner.go 636-655). -/
def GetKey (ctx : VMContext) (st : State) : Outcome Bytes :=
  readField ctx st (fun s => s.PublicKey)

/-- The method `GetPower` (miner.go 702-721). -/
def GetPower (ctx : VMContext) (st : State) : Outcome BytesAmount :=
  readField ctx st (fun s => s.Power)

/-- The method `GetPeerID` (miner.go 658-675): it reads the storage without `WithState`. -/
def GetPeerID (ctx : VMContext) (st : State) : Outcome peer_ID :=
  match ctx.Charge with
  | some e => insufficientGas st e
  | none => ⟨some st.PeerID, ExitCode.num 0, none, st, []⟩

/-- The method `GetProvingPeriodStart` (miner.go 825-841): it reads the storage without
`WithState`. -/
def GetProvingPeriodStart (ctx : VMContext) (st : State) : Outcome (Option BlockHeight) :=
  match ctx.Charge with
  | some e => insufficientGas st e
  | none => ⟨some st.ProvingPeriodStart, ExitCode.num 0, none, st, []⟩

/-- The closure of `UpdatePeerID` (miner.go 684-693). -/
def updatePeerIDBody (ctx : VMContext) (st : State) (pid : peer_ID) : Closure Unit :=
  if ctx.Message.From ≠ st.Owner then
    ⟨st, [], Except.error (Errors ErrCallerUnauthorized)⟩
  else
    ⟨{ st with PeerID := pid }, [], Except.ok ()⟩

/-- The method `UpdatePeerID` (miner.go 678-699). -/
def UpdatePeerID (ctx : VMContext) (st : State) (pid : peer_ID) : Outcome Unit :=
  match ctx.Charge with
  | some e => insufficientGas st e
  | none => finish (WithState st (updatePeerIDBody ctx st pid))

/-! ## Exported methods: sector commitment (miner.go 496-588) -/

/-- The request built in `CommitSector` (miner.go 519-526). -/
def sealRequest (ctx : VMContext) (st : State) (sectorID : Nat) (commD commR commRStar proof : Bytes) :
    VerifySealRequest :=
  { CommD := copyInto CommitmentBytesLen commD
    CommR := copyInto CommitmentBytesLen commR
    CommRStar := copyInto CommitmentBytesLen commRStar
    Proof := proof
    ProverID := ctx.Message.To
    SectorID := sectorID
    SectorSize := st.SectorSize }

/-- The seal check at the head of the closure of `CommitSector` (miner.go 518-535):
`none` when the check is skipped or passed, else the error returned. -/
def sealCheck (ma : Actor) (vf : Verifier) (req : VerifySealRequest) : Option VMError :=
  if ma.Bootstrap then none
  else
    match vf.VerifySeal req with
    | Except.error e => some (VMError.revertWrap e "failed to verify seal proof")
    | Except.ok false => some (Errors ErrInvalidSealProof)
    | Except.ok true => none

/-- The in-memory state of `CommitSector` when it calls the storage market
(miner.go 557-573). -/
def commitSectorUpdate (ctx : VMContext) (st : State) (sectorID : Nat) (commD commR commRStar : Bytes) : State :=
  let collateral := CollateralForSector st.SectorSize
  let st1 := { st with ActiveCollateral := st.ActiveCollateral + collateral }
  let st2 := if st1.Power = 0 then { st1 with ProvingPeriodStart := some ctx.BlockHeight } else st1
  let inc := st2.SectorSize
  let st3 := { st2 with Power := st2.Power + inc }
  let comms : Commitments :=
    { CommD := copyInto CommitmentBytesLen commD
      CommR := copyInto CommitmentBytesLen commR
      CommRStar := copyInto CommitmentBytesLen commRStar }
  { st3 with
    LastUsedSectorID := sectorID
    SectorCommitments := mapSet st3.SectorCommitments (sectorKey sectorID) comms }

/-- The closure of `CommitSector` (miner.go 513-582). -/
def commitSectorBody (ma : Actor) (vf : Verifier) (ctx : VMContext) (st : State) (sectorID : Nat)
    (commD commR commRStar proof : Bytes) : Closure Unit :=
  let req := sealRequest ctx st sectorID commD commR commRStar proof
  let evSeal : List Event := if ma.Bootstrap then [] else [Event.verifySeal req]
  match sealCheck ma vf req with
  | some e => ⟨st, evSeal, Except.error e⟩
  | none =>
    if ctx.Message.From ≠ st.Owner then
      ⟨st, evSeal, Except.error (Errors ErrCallerUnauthorized)⟩
    else if (mapGet st.SectorCommitments (sectorKey sectorID)).isSome then
      ⟨st, evSeal, Except.error (Errors ErrSectorCommitted)⟩
    else if CollateralForSector st.SectorSize > ctx.MyBalance - st.ActiveCollateral then
      ⟨st, evSeal, Except.error (Errors ErrInsufficientCollateral)⟩
    else
      let st4 := commitSectorUpdate ctx st sectorID commD commR commRStar
      let inc := st.SectorSize
      let r := ctx.Send 0 Address.StorageMarketAddress "updatePower" 0 [inc]
      let evs := evSeal ++ [Event.send Address.StorageMarketAddress "updatePower" 0 [inc]]
      match r.err with
      | some e => ⟨st4, evs, Except.error (VMError.external e)⟩
      | none =>
        if r.ret ≠ 0 then ⟨st4, evs, Except.error (Errors ErrStoragemarketCallFailed)⟩
        else ⟨st4, evs, Except.ok ()⟩

/-- The method `CommitSector` (miner.go 498-588). -/
def CommitSector (ma : Actor) (vf : Verifier) (ctx : VMContext) (st : State) (sectorID : Nat)
    (commD commR commRStar proof : Bytes) : Outcome Unit :=
  match ctx.Charge with
  | some e => insufficientGas st e
  | none =>
    if commD.length ≠ CommitmentBytesLen then
      ⟨none, ExitCode.num 1, some (VMError.revert "invalid sized commD"), st, []⟩
    else if commR.length ≠ CommitmentBytesLen then
      ⟨none, ExitCode.num 1, some (VMError.revert "invalid sized commR"), st, []⟩
    else if commRStar.length ≠ CommitmentBytesLen then
      ⟨none, ExitCode.num 1, some (VMError.revert "invalid sized commRStar"), st, []⟩
    else
      finish (WithState st (commitSectorBody ma vf ctx st sectorID commD commR commRStar proof))

/-! ## Exported methods: piece inclusion (miner.go 590-633, 931-942) -/

/-- The function `verifyInclusionProof` (miner.go 933-942). -/
def verifyInclusionProof (commP commD proof : Bytes) : Except VMError Bool :=
  if proof.length ≠ 2 * CommitmentBytesLen then
    Except.error (VMError.revert "malformed inclusion proof")
  else
    Except.ok (decide (commP ++ commD = proof))

/-- The closure of `VerifyPieceInclusion` (miner.go 598-630). -/
def verifyPieceInclusionBody (ctx : VMContext) (st : State) (commP : Bytes) (sectorID : Nat)
    (proof : Bytes) : Closure Unit :=
  match mapGet st.SectorCommitments (sectorKey sectorID) with
  | none => ⟨st, [], Except.error (VMError.revert "sector not committed")⟩
  | some commitment =>
    match st.LastPoSt with
    | none => ⟨st, [], Except.error (VMError.revert "proofs out of date")⟩
    | some lastPoSt =>
      let clientProofsTimeout := lastPoSt + (PieceInclusionGracePeriodBlocks : Int)
      if ctx.BlockHeight > clientProofsTimeout then
        ⟨st, [], Except.error (VMError.revert "proofs out of date")⟩
      else
        let typedCommP := copyInto CommitmentBytesLen commP
        match verifyInclusionProof typedCommP commitment.CommD proof with
        | Except.error e => ⟨st, [], Except.error e⟩
        | Except.ok false => ⟨st, [], Except.error (VMError.revert "invalid inclusion proof")⟩
        | Except.ok true => ⟨st, [], Except.ok ()⟩

/-- The method `VerifyPieceInclusion` (miner.go 592-633). -/
def VerifyPieceInclusion (ctx : VMContext) (st : State) (commP : Bytes) (sectorID : Nat)
    (proof : Bytes) : Outcome Unit :=
  match ctx.Charge with
  | some e => insufficientGas st e
  | none => finish (WithState st (verifyPieceInclusionBody ctx st commP sectorID proof))

/-! ## Exported methods: proof of spacetime (miner.go 723-822, 847-850, 919-929) -/

/-- The length of `types.PoStChallengeSeed`. -/
def PoStChallengeSeedBytesLen : Nat := 32

/-- Modelled from the spec: `proofs.NewSortedCommRs` is not among the sources at hand;
the proof is checked against "the sorted set of all currently committed sector digests".
The digests are put in lexicographic byte order. -/
def NewSortedCommRs (commRs : List Bytes) : List Bytes :=
  commRs.insertionSort (fun a b => a ≤ b)

/-- The request built in `SubmitPoSt` (miner.go 787-800). -/
def postRequest (st : State) (seedBytes : Bytes) (poStProofs : List Bytes) : VerifyPoStRequest :=
  { ChallengeSeed := copyInto PoStChallengeSeedBytesLen seedBytes
    SortedCommRs := NewSortedCommRs (st.SectorCommitments.map (fun e => e.2.CommR))
    Faults := []
    Proofs := poStProofs
    SectorSize := st.SectorSize }

/-- The proof check of `SubmitPoSt` (miner.go 781-809): the collaborator calls made and
`none` when the check is skipped or passed, else the error returned. -/
def postCheck (ma : Actor) (vf : Verifier) (ctx : VMContext) (st : State) (poStProofs : List Bytes) :
    List Event × Option VMError :=
  if ma.Bootstrap then ([], none)
  else
    match ctx.SampleChainRandomness st.ProvingPeriodStart with
    | Except.error e =>
      ([Event.sampleChainRandomness st.ProvingPeriodStart],
        some (VMError.revertWrap e "failed to sample chain for challenge seed"))
    | Except.ok seedBytes =>
      let req := postRequest st seedBytes poStProofs
      let evs := [Event.sampleChainRandomness st.ProvingPeriodStart, Event.verifyPoST req]
      match vf.VerifyPoST req with
      | Except.error e => (evs, some (VMError.revertWrap e "failed to verify PoSt"))
      | Except.ok false => (evs, some (Errors ErrInvalidPoSt))
      | Except.ok true => (evs, none)

/-- The closure of `SubmitPoSt` (miner.go 733-816). Adding to a nil proving period start
is a nil dereference in Go. -/
def submitPoStBody (ma : Actor) (vf : Verifier) (ctx : VMContext) (st : State) (poStProofs : List Bytes) :
    Closure Unit :=
  let chainHeight := ctx.BlockHeight
  let sender := ctx.Message.From
  if sender ≠ st.Owner then
    ⟨st, [], Except.error (Errors ErrCallerUnauthorized)⟩
  else
    match st.ProvingPeriodStart with
    | none => ⟨st, [], Except.error VMError.runtimePanic⟩
    | some start =>
      let provingPeriodEnd : BlockHeight := start + (ProvingPeriodDuration st.SectorSize : Int)
      let generationAttackGracePeriod := GenerationAttackTime st.SectorSize
      if chainHeight > provingPeriodEnd + generationAttackGracePeriod then
        ⟨st, [], Except.error
          (VMError.revert "PoSt submitted later than grace period after proving period end")⟩
      else
        let feeRequired := LatePoStFee st.ActiveCollateral provingPeriodEnd chainHeight generationAttackGracePeriod
        let messageValue := ctx.Message.Value
        if messageValue < feeRequired then
          ⟨st, [], Except.error (VMError.revert "PoSt message requires value to cover fees")⟩
        else
          let burn := Event.send Address.BurntFundsAddress "" feeRequired []
          match (ctx.Send 0 Address.BurntFundsAddress "" feeRequired []).err with
          | some e => ⟨st, [burn], Except.error (VMError.revertWrap e "Failed to burn fee")⟩
          | none =>
            let overpayment := messageValue - feeRequired
            let refund : List Event :=
              if messageValue > feeRequired then [Event.send sender "" overpayment []] else []
            if messageValue > feeRequired ∧ (ctx.Send 1 sender "" overpayment []).err.isSome then
              ⟨st, burn :: refund, Except.error (VMError.revert "Failed to refund overpayment")⟩
            else
              let chk := postCheck ma vf ctx st poStProofs
              match chk.2 with
              | some e => ⟨st, burn :: refund ++ chk.1, Except.error e⟩
              | none =>
                ⟨{ st with ProvingPeriodStart := some provingPeriodEnd, LastPoSt := some chainHeight },
                  burn :: refund ++ chk.1, Except.ok ()⟩

/-- The method `SubmitPoSt` (miner.go 725-822). -/
def SubmitPoSt (ma : Actor) (vf : Verifier) (ctx : VMContext) (st : State) (poStProofs : List Bytes) :
    Outcome Unit :=
  match ctx.Charge with
  | some e => insufficientGas st e
  | none => finish (WithState st (submitPoStBody ma vf ctx st poStProofs))

/-! ## The actor as a state machine -/

/-- A call of one of the exported methods (the table `minerExports`, miner.go 207-272),
with its arguments. -/
inductive Call where
  | addAsk (price : AttoFIL) (expiry : Int)
  | getAsks
  | getAsk (askid : Int)
  | getOwner
  | getLastUsedSectorID
  | commitSector (sectorID : Nat) (commD commR commRStar proof : Bytes)
  | getKey
  | getPeerID
  | updatePeerID (pid : peer_ID)
  | getPower
  | submitPoSt (poStProofs : List Bytes)
  | verifyPieceInclusion (commP : Bytes) (sectorID : Nat) (proof : Bytes)
  | getProvingPeriodStart
  | getSectorCommitments
  | isBootstrapMiner
  | getSectorSize
  deriving DecidableEq, Repr

/-- The exit code, the error, the persisted state and the events of a method call,
without its return value. -/
structure Effect where
  code : ExitCode
  err : Option VMError
  state : State
  events : List Event

/-- The return value of an outcome dropped. -/
def Outcome.effect {α : Type} (o : Outcome α) : Effect :=
  ⟨o.code, o.err, o.state, o.events⟩

/-- The dispatch of a call to its method. -/
def dispatch (ma : Actor) (vf : Verifier) (ctx : VMContext) (st : State) : Call → Effect
  | Call.addAsk price expiry => (AddAsk ctx st price expiry).effect
  | Call.getAsks => (GetAsks ctx st).effect
  | Call.getAsk askid => (GetAsk ctx st askid).effect
  | Call.getOwner => (GetOwner ctx st).effect
  | Call.getLastUsedSectorID => (GetLastUsedSectorID ctx st).effect
  | Call.commitSector sectorID commD commR commRStar proof =>
    (CommitSector ma vf ctx st sectorID commD commR commRStar proof).effect
  | Call.getKey => (GetKey ctx st).effect
  | Call.getPeerID => (GetPeerID ctx st).effect
  | Call.updatePeerID pid => (UpdatePeerID ctx st pid).effect
  | Call.getPower => (GetPower ctx st).effect
  | Call.submitPoSt poStProofs => (SubmitPoSt ma vf ctx st poStProofs).effect
  | Call.verifyPieceInclusion commP sectorID proof =>
    (VerifyPieceInclusion ctx st commP sectorID proof).effect
  | Call.getProvingPeriodStart => (GetProvingPeriodStart ctx st).effect
  | Call.getSectorCommitments => (GetSectorCommitments ctx st).effect
  | Call.isBootstrapMiner => (IsBootstrapMiner ma ctx st).effect
  | Call.getSectorSize => (GetSectorSize ctx st).effect

/-- The states an actor reaches from `start` by a sequence of exported calls, each in a
VM context and against a verifier of its own, whether the call succeeds or fails. -/
inductive ReachableFrom (ma : Actor) (start : State) : State → Prop where
  | init : ReachableFrom ma start start
  | step (st : State) (vf : Verifier) (ctx : VMContext) (call : Call) :
      ReachableFrom ma start st → ReachableFrom ma start (dispatch ma vf ctx st call).state

/-- The value the actor sent away with the `ctx.Send` calls of `events`. -/
def sentValue : List Event → AttoFIL
  | [] => 0
  | Event.send _ _ value _ :: rest => value + sentValue rest
  | _ :: rest => sentValue rest

/-- Modelled from the spec: the balance bookkeeping belongs to the VM, whose source is
not at hand. Each call "carries ... a value transfer": the message value is in
`MyBalance` when the method starts, and every `ctx.Send` of the call moves its value out
of the balance of the actor. -/
def balanceAfter (ctx : VMContext) (events : List Event) : AttoFIL :=
  ctx.MyBalance - sentValue events

/-- The value transfers among `events`: destination and amount of every `ctx.Send`, in
order. -/
def transfers : List Event → List (Address × AttoFIL)
  | [] => []
  | Event.send dest _ value _ :: rest => (dest, value) :: transfers rest
  | _ :: rest => transfers rest

/-! ## Predicates used to state the properties -/

/-- The answer of the storage market to the `updatePower` call of `CommitSector`. -/
def updatePowerResult (ctx : VMContext) (st : State) : SendResult :=
  ctx.Send 0 Address.StorageMarketAddress "updatePower" 0 [st.SectorSize]

/-- The checks of `CommitSector` that do not involve the storage market: gas, digest
lengths, seal proof, caller, sector not yet committed, collateral. -/
def commitLocalChecks (ma : Actor) (vf : Verifier) (ctx : VMContext) (st : State) (sectorID : Nat)
    (commD commR commRStar proof : Bytes) : Prop :=
  ctx.Charge = none ∧
  commD.length = CommitmentBytesLen ∧ commR.length = CommitmentBytesLen ∧
  commRStar.length = CommitmentBytesLen ∧
  sealCheck ma vf (sealRequest ctx st sectorID commD commR commRStar proof) = none ∧
  ctx.Message.From = st.Owner ∧
  mapGet st.SectorCommitments (sectorKey sectorID) = none ∧
  ¬ (CollateralForSector st.SectorSize > ctx.MyBalance - st.ActiveCollateral)

/-- Every condition under which `CommitSector` returns without error. -/
def commitAccepted (ma : Actor) (vf : Verifier) (ctx : VMContext) (st : State) (sectorID : Nat)
    (commD commR commRStar proof : Bytes) : Prop :=
  commitLocalChecks ma vf ctx st sectorID commD commR commRStar proof ∧
  (updatePowerResult ctx st).err = none ∧ (updatePowerResult ctx st).ret = 0

/-- The part of the state that only `CommitSector` writes is the same in both states. -/
def sameSectorData (st st2 : State) : Prop :=
  st2.SectorCommitments = st.SectorCommitments ∧ st2.Power = st.Power ∧
  st2.SectorSize = st.SectorSize ∧ st2.ActiveCollateral = st.ActiveCollateral ∧
  st2.LastUsedSectorID = st.LastUsedSectorID ∧ st2.Owner = st.Owner

/-- The fee `feeRequired` that `SubmitPoSt` computes (miner.go 740-751) on a state whose
proving period starts at `start`. -/
def requiredFee (ctx : VMContext) (st : State) (start : BlockHeight) : AttoFIL :=
  LatePoStFee st.ActiveCollateral (start + (ProvingPeriodDuration st.SectorSize : Int))
    ctx.BlockHeight (GenerationAttackTime st.SectorSize)

/-- The two `ctx.Send` calls of `SubmitPoSt` (miner.go 763-775): the fee to the burnt-funds
address, then the overpayment, if there is one, back to the sender. -/
def feeEvents (ctx : VMContext) (st : State) (start : BlockHeight) : List Event :=
  Event.send Address.BurntFundsAddress "" (requiredFee ctx st start) [] ::
    (if ctx.Message.Value > requiredFee ctx st start then
      [Event.send ctx.Message.From "" (ctx.Message.Value - requiredFee ctx st start) []]
    else [])

/-- The state `SubmitPoSt` commits on success (miner.go 811-813). -/
def nextPeriodState (ctx : VMContext) (st : State) (start : BlockHeight) : State :=
  { st with
    ProvingPeriodStart := some (start + (ProvingPeriodDuration st.SectorSize : Int))
    LastPoSt := some ctx.BlockHeight }

/-- Every condition under which an owner's `SubmitPoSt` with gas returns without error,
on a state whose proving period starts at `start`. -/
def postAccepted (ma : Actor) (vf : Verifier) (ctx : VMContext) (st : State) (poStProofs : List Bytes)
    (start : BlockHeight) : Prop :=
  ¬ (ctx.BlockHeight >
      start + (ProvingPeriodDuration st.SectorSize : Int) + GenerationAttackTime st.SectorSize) ∧
  ¬ (ctx.Message.Value < requiredFee ctx st start) ∧
  (ctx.Send 0 Address.BurntFundsAddress "" (requiredFee ctx st start) []).err = none ∧
  (ctx.Message.Value > requiredFee ctx st start →
    (ctx.Send 1 ctx.Message.From "" (ctx.Message.Value - requiredFee ctx st start) []).err = none) ∧
  (postCheck ma vf ctx st poStProofs).2 = none

/-- The state `AddAsk` commits on success (miner.go 296-317): the counter advanced, the
expired asks dropped, the new ask appended. -/
def addAskUpdate (ctx : VMContext) (st : State) (price : AttoFIL) (expiry : Int) : State :=
  { st with
    NextAskID := st.NextAskID + 1
    Asks := st.Asks.filter (fun a => decide (ctx.BlockHeight < a.Expiry)) ++
      [{ Price := price, Expiry := ctx.BlockHeight + expiry, ID := st.NextAskID }] }

/-- One `AddAsk` call of a sequence: its VM context and its arguments. -/
structure AddAskCall where
  ctx : VMContext
  price : AttoFIL
  expiry : Int

/-- A sequence of `AddAsk` calls run one after the other from `st`: the ids returned by
the calls that succeed, in order, and the state at the end. -/
def runAddAsks : State → List AddAskCall → List Int × State
  | st, [] => ([], st)
  | st, c :: rest =>
    match (AddAsk c.ctx st c.price c.expiry).ret with
    | some id =>
      (id :: (runAddAsks (AddAsk c.ctx st c.price c.expiry).state rest).1,
        (runAddAsks (AddAsk c.ctx st c.price c.expiry).state rest).2)
    | none => runAddAsks (AddAsk c.ctx st c.price c.expiry).state rest

/-- The ask list and the ask counter are the same in both states. -/
def sameAsks (st st2 : State) : Prop :=
  st2.Asks = st.Asks ∧ st2.NextAskID = st.NextAskID

/-- The ask ids of a state are strictly increasing in list order and all below the
counter `NextAskID`. -/
def asksOrdered (st : State) : Prop :=
  (st.Asks.map (fun a => a.ID)).Pairwise (fun x y => x < y) ∧ ∀ a ∈ st.Asks, a.ID < st.NextAskID

/-! ## Initialization (miner.go 179-203) -/

/-- The argument `initializerData interface{}` of `InitializeState`: a `*State`, or a
value of another type. -/
inductive InitializerData where
  | minerState (s : State)
  | other
  deriving DecidableEq, Repr

/-- The collaborators of `InitializeState`: the CBOR encoder and the actor storage
`exec.Storage`; for each, the error it answers with, if any. -/
structure Storage where
  DumpObject : State → Option ExternalError
  Put : State → Option ExternalError
  Commit : State → Option ExternalError

/-- The method `InitializeState` (miner.go 180-203): the error returned and the state
stored and committed, if any. The error wrapped by `xerrors.Wrap` keeps the code of the
encoder error, with the message prefixed. -/
def InitializeState (storage : Storage) (initializerData : InitializerData) :
    Option VMError × Option State :=
  match initializerData with
  | InitializerData.other =>
    (some (VMError.fault "Initial state to miner actor is not a miner.State struct"), none)
  | InitializerData.minerState minerState =>
    if minerState.PublicKey.length > MaximumPublicKeySize then
      (some (Errors ErrPublicKeyTooBig), none)
    else
      match storage.DumpObject minerState with
      | some e =>
        (some (VMError.external ⟨e.code, "failed to cbor marshal object: " ++ e.msg⟩), none)
      | none =>
        match storage.Put minerState with
        | some e => (some (VMError.external e), none)
        | none =>
          match storage.Commit minerState with
          | some e => (some (VMError.external e), none)
          | none => (none, some minerState)

/-! ## Example collaborators and states -/

/-- A verifier that accepts every proof. -/
def acceptingVerifier : Verifier :=
  { VerifySeal := fun _ => Except.ok true
    VerifyPoST := fun _ => Except.ok true }

/-- A verifier that rejects every proof. -/
def rejectingVerifier : Verifier :=
  { VerifySeal := fun _ => Except.ok false
    VerifyPoST := fun _ => Except.ok false }

/-- A VM context with gas, in which every `ctx.Send` succeeds with exit code 0. -/
def exampleCtx (sender : Address) (value : AttoFIL) (height : BlockHeight) (balance : AttoFIL) : VMContext :=
  { Charge := none
    Message := { From := sender, To := Address.other 100, Value := value }
    BlockHeight := height
    MyBalance := balance
    Send := fun _ _ _ _ _ => { ret := 0, err := none }
    SampleChainRandomness := fun _ => Except.ok [] }

/-- A VM context like `exampleCtx` whose `ctx.Send` answers with the given result. -/
def exampleCtxSend (sender : Address) (height : BlockHeight) (balance : AttoFIL) (r : SendResult) : VMContext :=
  { Charge := none
    Message := { From := sender, To := Address.other 100, Value := 0 }
    BlockHeight := height
    MyBalance := balance
    Send := fun _ _ _ _ _ => r
    SampleChainRandomness := fun _ => Except.ok [] }

/-- A digest of `CommitmentBytesLen` bytes, each equal to `b`. -/
def exampleDigest (b : Nat) : Bytes :=
  List.replicate CommitmentBytesLen b

/-- A fresh miner owned by address 1, with sectors of 1024 bytes. -/
def exampleState : State :=
  NewState (Address.other 1) [1, 2, 3] "peer" 1024

/-- The state of `exampleState` after sector 7 was committed at height 5. -/
def exampleCommitted : State :=
  commitSectorUpdate (exampleCtx (Address.other 1) 0 5 MinimumCollateralPerSector) exampleState 7
    (exampleDigest 1) (exampleDigest 2) (exampleDigest 3)

/-- A fresh miner owned by address 1 whose sector size is 0. -/
def exampleZeroSize : State :=
  NewState (Address.other 1) [1, 2, 3] "peer" 0

/-- The state of `exampleZeroSize` after sector 7 was committed at height 5. -/
def exampleZeroSizeCommitted : State :=
  commitSectorUpdate (exampleCtx (Address.other 1) 0 5 MinimumCollateralPerSector) exampleZeroSize 7
    (exampleDigest 1) (exampleDigest 2) (exampleDigest 3)

/-- The state of `exampleCommitted` after a proof of spacetime was accepted at height 9. -/
def examplePosted : State :=
  nextPeriodState (exampleCtx (Address.other 1) 0 9 MinimumCollateralPerSector) exampleCommitted 5

/-- A storage and an encoder that never fail. -/
def workingStorage : Storage :=
  { DumpObject := fun _ => none
    Put := fun _ => none
    Commit := fun _ => none }

/-- A VM context without gas: `ctx.Charge` fails. -/
def exampleCtxNoGas (sender : Address) : VMContext :=
  { Charge := some { code := 1, msg := "out of gas" }
    Message := { From := sender, To := Address.other 100, Value := 0 }
    BlockHeight := 5
    MyBalance := 0
    Send := fun _ _ _ _ _ => { ret := 0, err := none }
    SampleChainRandomness := fun _ => Except.ok [] }

end Miner

/-! # The mining worker of go-filecoin: shallow embedding

`DefaultWorker.Mine` and `createProof` of `mining/worker.go`. The tipset, the state tree,
the consensus functions and `Generate` are collaborators defined elsewhere: they are
fields of the structures below and every theorem holds for all of them. Log calls are
left out. -/

namespace Mining

abbrev Bytes := List Nat

/-- A Go `error` value. -/
abbrev Error := String

/-- A `*types.Block`, known here by an identifier only. -/
structure Block where
  id : Nat
  deriving DecidableEq, Repr

/-- The struct `Output` (worker.go 29-32); `none` is Go's nil. -/
structure Output where
  NewBlock : Option Block
  Err : Option Error
  deriving DecidableEq, Repr

/-- The function `NewOutput` (worker.go 35-37). -/
def NewOutput (b : Option Block) (e : Option Error) : Output :=
  { NewBlock := b, Err := e }

/-- A `types.TipSet` as Mine uses it: `Defined` is the result of `base.Defined()`. -/
structure TipSet where
  id : Nat
  Defined : Bool
  deriving DecidableEq, Repr

/-- A `state.Tree`, known here by an identifier only. -/
abbrev StateTree := Nat

/-- The `context.Context` of a mining run as Mine observes it: `Err` tells whether
`ctx.Err()` is non-nil at line 193, `DoneFirst` whether the `select` of line 207 takes
the case `<-ctx.Done()`. -/
structure Context where
  Err : Bool
  DoneFirst : Bool
  deriving DecidableEq, Repr

/-- Length in bytes of a `types.PoStChallengeSeed`. -/
def PoStChallengeSeedBytesLen : Nat := Miner.PoStChallengeSeedBytesLen

/-- The two results `(next, err)` of a call of `Generate`. -/
structure GenerateResult where
  next : Option Block
  err : Option Error
  deriving DecidableEq, Repr

/-- The functions of package `consensus` that Mine calls. -/
structure Consensus where
  CreateChallengeSeed : TipSet → Nat → Except Error Bytes
  CreateTicket : Bytes → Bytes → Except Error Bytes
  IsWinningTicket : StateTree → Bytes → Bytes → Except Error Bool

/-- The fields of `DefaultWorker` (worker.go 76-96) that Mine reads, and its method
`Generate`, called with the base tipset, the ticket, the proof and the null block
count. -/
structure DefaultWorker where
  minerAddr : Bytes
  minerPubKey : Bytes
  getStateTree : TipSet → Except Error StateTree
  Generate : TipSet → Bytes → Bytes → Nat → GenerateResult

/-- A receive-only channel: the values still to be received. A receive on a channel that
holds nothing more yields the zero value with `more = false`. -/
structure Chan where
  pending : List Bytes
  deriving DecidableEq, Repr

/-- The receive `v, more := <-c`. -/
def Chan.recv (c : Chan) : Bytes × Bool :=
  match c.pending with
  | v :: _ => (v, true)
  | [] => (List.replicate PoStChallengeSeedBytesLen 0, false)

/-- The function `createProof` (worker.go 249-258): the goroutine runs `createPoST()` and
sends the challenge seed, unchanged, on the channel it returned. -/
def createProof (challengeSeed : Bytes) : Chan :=
  { pending := [challengeSeed] }

/-- The conversion `uint64(nullBlkCount)` of an `int`. -/
def uint64 (n : Int) : Nat :=
  (n % 2 ^ 64).toNat

/-- A call Mine makes to a collaborator, with its arguments. -/
inductive Event where
  | createTicket (proof signerPubKey : Bytes)
  | isWinningTicket (st : StateTree) (ticket miner : Bytes)
  | generate (base : TipSet) (ticket proof : Bytes) (nullBlkCount : Nat)
  deriving DecidableEq, Repr

/-- What a run of Mine does: the bool it returns, the outputs it sends on `outCh`, in
order, and the calls it makes. -/
structure Run where
  ret : Bool
  outputs : List Output
  events : List Event
  deriving DecidableEq, Repr

/-- The method `DefaultWorker.Mine` (worker.go 175-245). The variable `proof` declared at
line 205 keeps its zero value, the nil slice: line 216 declares with `:=` a second
variable `proof` whose scope is the `case` clause, and that one goes to `CreateTicket`,
whereas `ticket, err =` of line 217 assigns the outer variables. -/
def Mine (cs : Consensus) (w : DefaultWorker) (ctx : Context) (base : TipSet)
    (nullBlkCount : Int) : Run :=
  if !base.Defined then
    ⟨false, [{ NewBlock := none, Err := some "bad input tipset with no blocks sent to Mine()" }], []⟩
  else
    match w.getStateTree base with
    | Except.error err => ⟨false, [{ NewBlock := none, Err := some err }], []⟩
    | Except.ok st =>
      if ctx.Err then ⟨false, [], []⟩
      else
        match cs.CreateChallengeSeed base (uint64 nullBlkCount) with
        | Except.error err => ⟨false, [{ NewBlock := none, Err := some err }], []⟩
        | Except.ok challenge =>
          let prCh := createProof challenge
          let proof : Bytes := []
          if ctx.DoneFirst then ⟨false, [], []⟩
          else
            let (prChRead, more) := prCh.recv
            if !more then ⟨false, [], []⟩
            else
              let caseProof : Bytes := [] ++ prChRead
              let ev1 := [Event.createTicket caseProof w.minerPubKey]
              match cs.CreateTicket caseProof w.minerPubKey with
              | Except.error _ => ⟨false, [], ev1⟩
              | Except.ok ticket =>
                let ev2 := ev1 ++ [Event.isWinningTicket st ticket w.minerAddr]
                match cs.IsWinningTicket st ticket w.minerAddr with
                | Except.error err => ⟨false, [{ NewBlock := none, Err := some err }], ev2⟩
                | Except.ok weHaveAWinner =>
                  if weHaveAWinner then
                    let r := w.Generate base ticket proof (uint64 nullBlkCount)
                    ⟨true, [NewOutput r.next r.err],
                      ev2 ++ [Event.generate base ticket proof (uint64 nullBlkCount)]⟩
                  else ⟨false, [], ev2⟩

/-! ## Statement helpers -/

/-- An output that carries a newly generated block: `NewBlock` set and `Err` nil. -/
def Output.carriesBlock (o : Output) : Bool :=
  o.NewBlock.isSome && o.Err.isNone

/-- The run sent on `outCh` an output that carries a newly generated block. -/
def Run.sentBlock (r : Run) : Bool :=
  r.outputs.any Output.carriesBlock

/-- The proofs handed to `CreateTicket` in a run. -/
def ticketProofs : List Event → List Bytes
  | [] => []
  | Event.createTicket proof _ :: es => proof :: ticketProofs es
  | _ :: es => ticketProofs es

/-- The proofs handed to `Generate` in a run. -/
def generateProofs : List Event → List Bytes
  | [] => []
  | Event.generate _ _ proof _ :: es => proof :: generateProofs es
  | _ :: es => generateProofs es

/-! ## Example collaborators -/

/-- A consensus package whose seed is 32 bytes of 7, whose ticket is the proof itself and
for which every ticket wins. -/
def alwaysWinning : Consensus :=
  { CreateChallengeSeed := fun _ _ => Except.ok (List.replicate 32 7)
    CreateTicket := fun proof _ => Except.ok proof
    IsWinningTicket := fun _ _ _ => Except.ok true }

/-- A worker whose `Generate` fails. -/
def failingWorker : DefaultWorker :=
  { minerAddr := [1]
    minerPubKey := [2]
    getStateTree := fun _ => Except.ok 0
    Generate := fun _ _ _ _ => { next := none, err := some "generate failed" } }

/-- A worker whose `Generate` returns block 9. -/
def workingWorker : DefaultWorker :=
  { minerAddr := [1]
    minerPubKey := [2]
    getStateTree := fun _ => Except.ok 0
    Generate := fun _ _ _ _ => { next := some ⟨9⟩, err := none } }

/-- A context that is not cancelled during the run. -/
def liveContext : Context :=
  { Err := false, DoneFirst := false }

/-- A defined base tipset. -/
def exampleBase : TipSet :=
  { id := 1, Defined := true }

end Mining

/-! # The ancestry functions of the chain package: shallow embedding

Only the tests of `IterAncestors`, `CollectTipSetsOfHeightAtLeast`, `CollectAtMostNTipSets`,
`GetRecentAncestors` and `FindCommonAncestor` are part of the sources at hand
(`chain/get_ancestors_test.go`); the functions themselves are modelled from the
specification. A loop that walks a store whose parent links may form a cycle takes a fuel
argument; the theorems show that fuel above the length of the walk gives the result. -/

namespace Chain

/-- Modelled from the spec: a TipSet, "attributes: parent references, height"; `id` is its
identity and `parents` the identity of its parent tipset, `none` for genesis ("a tipset
with no parents"). -/
structure TipSet where
  id : Nat
  height : Nat
  parents : Option Nat
  deriving DecidableEq, Repr

/-- Modelled from the spec: the chain-store capability that resolves a tipset identity,
`none` standing for NotFound. -/
abbrev Store := Nat → Option TipSet

/-- Modelled from the spec: the failures of the ancestry functions. `OutOfFuel` belongs to
the embedding only. -/
inductive Error where
  | NotFound
  | NoCommonAncestor
  | OutOfFuel
  deriving DecidableEq, Repr

/-- Modelled from the spec: the ancestor iterator, "a lazy, finite sequence of TipSets,
walking from a starting tipset back toward genesis, one step per parent-set resolution";
`value` is the current tipset, `none` once the walk is complete. -/
structure TipsetIterator where
  store : Store
  value : Option TipSet

/-- Modelled from the spec: `IterAncestors(store, start)`, the iterator "starting at
start". -/
def IterAncestors (store : Store) (start : TipSet) : TipsetIterator :=
  { store := store, value := some start }

/-- Modelled from the spec: whether the iterator has passed genesis. -/
def TipsetIterator.Complete (it : TipsetIterator) : Bool :=
  it.value.isNone

/-- Modelled from the spec: one step of the iterator. "Each step resolves the current
tipset's parent identity through the store; fails with a NotFound condition if a
referenced parent is absent", "terminating at genesis (a tipset with no parents)". -/
def TipsetIterator.Next (it : TipsetIterator) : Except Error TipsetIterator :=
  match it.value with
  | none => Except.ok it
  | some ts =>
    match ts.parents with
    | none => Except.ok { it with value := none }
    | some parent =>
      match it.store parent with
      | none => Except.error Error.NotFound
      | some p => Except.ok { it with value := some p }

/-- Modelled from the spec: `CollectAtMostNTipSets(iterator, n)`, "the first min(n, chain
length to genesis) tipsets from the iterator; never errors on early genesis
termination". -/
def CollectAtMostNTipSets : TipsetIterator → Nat → Except Error (List TipSet)
  | _, 0 => Except.ok []
  | it, n + 1 =>
    match it.value with
    | none => Except.ok []
    | some ts =>
      match it.Next with
      | Except.error e => Except.error e
      | Except.ok it1 =>
        match CollectAtMostNTipSets it1 n with
        | Except.error e => Except.error e
        | Except.ok rest => Except.ok (ts :: rest)

/-- Modelled from the spec: `CollectTipSetsOfHeightAtLeast(iterator, minHeight)`, the
"ordered sequence (head-first) of every tipset visited whose height is ≥ minHeight; stops
consuming the iterator as soon as a tipset below minHeight is seen". The second result is
the iterator where the call left it. -/
def CollectTipSetsOfHeightAtLeast :
    Nat → TipsetIterator → Int → Except Error (List TipSet × TipsetIterator)
  | 0, _, _ => Except.error Error.OutOfFuel
  | fuel + 1, it, minHeight =>
    match it.value with
    | none => Except.ok ([], it)
    | some ts =>
      if (ts.height : Int) < minHeight then Except.ok ([], it)
      else
        match it.Next with
        | Except.error e => Except.error e
        | Except.ok it1 =>
          match CollectTipSetsOfHeightAtLeast fuel it1 minHeight with
          | Except.error e => Except.error e
          | Except.ok (rest, it2) => Except.ok (ts :: rest, it2)

/-- Modelled from the spec: `GetRecentAncestors(head, store, currentHeight, lookbackEpochs,
lookbackExtra)`, "a window of ancestors built from two phases: first collect all tipsets
with height ≥ (currentHeight − lookbackEpochs); then extend the window by collecting
exactly lookbackExtra additional tipsets beyond that boundary. If the chain is shorter
than the combined request, return the entire chain to genesis rather than erroring". -/
def GetRecentAncestors (fuel : Nat) (head : TipSet) (store : Store)
    (currentHeight lookbackEpochs : Int) (lookbackExtra : Nat) : Except Error (List TipSet) :=
  match CollectTipSetsOfHeightAtLeast fuel (IterAncestors store head)
      (currentHeight - lookbackEpochs) with
  | Except.error e => Except.error e
  | Except.ok (window, it) =>
    match CollectAtMostNTipSets it lookbackExtra with
    | Except.error e => Except.error e
    | Except.ok extra => Except.ok (window ++ extra)

/-- Modelled from the spec: `FindCommonAncestor(iterA, iterB)`. "Maintain a current tipset
for each side; repeatedly advance whichever side currently sits at the strictly greater
height (tie: advance both) until both sides reference the same tipset identity, or one
side is exhausted." "Fails only if one traversal errors"; an exhausted side leaves no
common ancestor to return. -/
def FindCommonAncestor : Nat → TipsetIterator → TipsetIterator → Except Error TipSet
  | 0, _, _ => Except.error Error.OutOfFuel
  | fuel + 1, iterA, iterB =>
    match iterA.value, iterB.value with
    | some a, some b =>
      if a = b then Except.ok a
      else
        match (if b.height ≤ a.height then iterA.Next else Except.ok iterA) with
        | Except.error e => Except.error e
        | Except.ok nextA =>
          match (if a.height ≤ b.height then iterB.Next else Except.ok iterB) with
          | Except.error e => Except.error e
          | Except.ok nextB => FindCommonAncestor fuel nextA nextB
    | _, _ => Except.error Error.NoCommonAncestor

/-! ## Statement helpers -/

/-- The whole traversal from `start` to genesis, head first: `none` when a parent is
missing from the store or genesis is not reached within `fuel` steps. -/
def walk (store : Store) : Nat → TipSet → Option (List TipSet)
  | 0, _ => none
  | fuel + 1, t =>
    match t.parents with
    | none => some [t]
    | some parent =>
      match store parent with
      | none => none
      | some p =>
        match walk store fuel p with
        | none => none
        | some rest => some (t :: rest)

/-- The list is a walk along the parent links of the store that ends at a genesis. -/
inductive Walks (store : Store) : List TipSet → Prop where
  | nil : Walks store []
  | genesis (t : TipSet) (h : t.parents = none) : Walks store [t]
  | step (t p : TipSet) (parent : Nat) (rest : List TipSet) (h : t.parents = some parent)
      (hs : store parent = some p) (hr : Walks store (p :: rest)) : Walks store (t :: p :: rest)

/-- The iterator that has the tipsets of `l` still to visit. -/
def iterAt (store : Store) (l : List TipSet) : TipsetIterator :=
  { store := store, value := l.head? }

/-- The test of the first phase: the height is at least `minHeight`. -/
def heightAtLeast (minHeight : Int) (t : TipSet) : Bool :=
  decide (minHeight ≤ (t.height : Int))

/-- Heights fall strictly from each tipset of the list to every later one: each tipset is
higher than its ancestors. -/
def Descending (l : List TipSet) : Prop :=
  l.Pairwise (fun x y => y.height < x.height)

instance (l : List TipSet) : Decidable (Descending l) := by
  unfold Descending
  infer_instance

/-- A traversal without null rounds: the height of every tipset is the number of tipsets
after it, down to genesis at height 0. -/
def noNullRounds : List TipSet → Bool
  | [] => true
  | t :: rest => decide (t.height = rest.length) && noNullRounds rest

/-! ## Example stores -/

/-- The tipset of identity and height `i` on a chain without null rounds. -/
def tip (i : Nat) : TipSet :=
  { id := i, height := i, parents := if i = 0 then none else some (i - 1) }

/-- A store holding a chain without null rounds: tipset `i` at height `i`. -/
def linearStore : Store :=
  fun i => some (tip i)

/-- The traversal of `linearStore` from the tipset at height `n - 1`. -/
def linearChain (n : Nat) : List TipSet :=
  ((List.range n).map tip).reverse

/-- A store with a main chain 0, 1, 2, 3 at heights 0 to 3 and two branches off tipset 1:
tipsets 10 and 11 at heights 4 and 5 (null rounds at 2 and 3), and tipset 20 at height 5
(null rounds at 2, 3 and 4). -/
def forkStore : Store :=
  fun i =>
    if i = 0 then some ⟨0, 0, none⟩
    else if i = 1 then some ⟨1, 1, some 0⟩
    else if i = 2 then some ⟨2, 2, some 1⟩
    else if i = 3 then some ⟨3, 3, some 2⟩
    else if i = 10 then some ⟨10, 4, some 1⟩
    else if i = 11 then some ⟨11, 5, some 10⟩
    else if i = 20 then some ⟨20, 5, some 1⟩
    else none

/-- The store of the null-round tests (get_ancestors_test.go 100-152, 232-284): genesis and
30 tipsets at heights 0 to 30, ten null rounds, then 20 tipsets at heights 41 to 60.
Tipset `i` is the `i`-th above genesis. -/
def nullRoundStore : Store :=
  fun i => some
    { id := i
      height := if i ≤ 30 then i else i + 10
      parents := if i = 0 then none else some (i - 1) }

/-- The head of `nullRoundStore`, at height 60. -/
def nullRoundHead : TipSet :=
  { id := 50, height := 60, parents := some 49 }

/-- A store that is not a chain: tipset 2, at height 5, is the parent of tipset 3 at
height 3 and of tipset 4 at height 4, so heights do not fall along the parent links. -/
def skewStore : Store :=
  fun i =>
    if i = 0 then some ⟨0, 0, none⟩
    else if i = 2 then some ⟨2, 5, some 0⟩
    else if i = 3 then some ⟨3, 3, some 2⟩
    else if i = 4 then some ⟨4, 4, some 2⟩
    else none

end Chain

/-! # Theorems -/

namespace Miner

/-! ## Auxiliary facts: byte copies and the commitments map -/

theorem copyInto_of_length (n : Nat) (src : Bytes) (h : src.length = n) : copyInto n src = src := by
  unfold copyInto
  rw [← h, List.take_length, Nat.sub_self]
  simp

theorem mapGet_mapSet_self (m : CommitmentsMap) (k : String) (v : Commitments) :
    mapGet (mapSet m k v) k = some v := by
  simp [mapGet, mapSet, List.lookup]

theorem lookup_filter_ne (m : CommitmentsMap) (k k2 : String) (hne : k2 ≠ k) :
    List.lookup k2 (m.filter (fun e => e.1 ≠ k)) = List.lookup k2 m := by
  induction m with
  | nil => rfl
  | cons e rest ih =>
    obtain ⟨ek, ev⟩ := e
    by_cases hk : ek = k
    · subst hk
      have h2 : (k2 == ek) = false := by simpa using hne
      simp only [ne_eq, decide_not] at ih
      simp [List.filter, List.lookup, h2, ih]
    · by_cases hk2 : k2 = ek
      · subst hk2
        simp [List.filter, List.lookup, hk]
      · have h2 : (k2 == ek) = false := by simpa using hk2
        simp only [ne_eq, decide_not] at ih
        simp [List.filter, List.lookup, hk, h2, ih]

theorem mapGet_mapSet_ne (m : CommitmentsMap) (k k2 : String) (v : Commitments) (hne : k2 ≠ k) :
    mapGet (mapSet m k v) k2 = mapGet m k2 := by
  have h2 : (k2 == k) = false := by simpa using hne
  simp only [mapGet, mapSet, List.lookup, h2]
  exact lookup_filter_ne m k k2 hne

theorem filter_ne_of_lookup_none (m : CommitmentsMap) (k : String) (h : List.lookup k m = none) :
    m.filter (fun e => e.1 ≠ k) = m := by
  induction m with
  | nil => rfl
  | cons e rest ih =>
    obtain ⟨ek, ev⟩ := e
    by_cases hk : k = ek
    · subst hk
      simp [List.lookup] at h
    · have h2 : (k == ek) = false := by simpa using hk
      simp only [List.lookup, h2] at h
      have hk3 : ek ≠ k := fun h3 => hk h3.symm
      have ih2 := ih h
      simp only [ne_eq, decide_not] at ih2
      simp [List.filter, hk3, ih2]

theorem mapLen_mapSet_of_absent (m : CommitmentsMap) (k : String) (v : Commitments)
    (h : mapGet m k = none) : mapLen (mapSet m k v) = mapLen m + 1 := by
  simp only [mapLen, mapSet, List.length_cons]
  rw [filter_ne_of_lookup_none m k h]

/-! ## What `CommitSector` does, case by case -/

theorem CommitSector_cases (ma : Actor) (vf : Verifier) (ctx : VMContext) (st : State) (sectorID : Nat)
    (commD commR commRStar proof : Bytes) :
    (commitAccepted ma vf ctx st sectorID commD commR commRStar proof ∧
      (CommitSector ma vf ctx st sectorID commD commR commRStar proof).err = none ∧
      (CommitSector ma vf ctx st sectorID commD commR commRStar proof).code = ExitCode.num 0 ∧
      (CommitSector ma vf ctx st sectorID commD commR commRStar proof).state =
        commitSectorUpdate ctx st sectorID commD commR commRStar) ∨
    (¬ commitAccepted ma vf ctx st sectorID commD commR commRStar proof ∧
      (CommitSector ma vf ctx st sectorID commD commR commRStar proof).err ≠ none ∧
      (CommitSector ma vf ctx st sectorID commD commR commRStar proof).state = st) := by
  unfold commitAccepted commitLocalChecks updatePowerResult
  cases hc : ctx.Charge with
  | some e => right; simp [CommitSector, hc, insufficientGas]
  | none =>
    by_cases h1 : commD.length = CommitmentBytesLen
    swap; · right; simp [CommitSector, hc, h1]
    by_cases h2 : commR.length = CommitmentBytesLen
    swap; · right; simp [CommitSector, hc, h1, h2]
    by_cases h3 : commRStar.length = CommitmentBytesLen
    swap; · right; simp [CommitSector, hc, h1, h2, h3]
    cases h4 : sealCheck ma vf (sealRequest ctx st sectorID commD commR commRStar proof) with
    | some e => right; simp [CommitSector, commitSectorBody, WithState, finish, hc, h1, h2, h3, h4]
    | none =>
      by_cases h5 : ctx.Message.From = st.Owner
      swap; · right; simp [CommitSector, commitSectorBody, WithState, finish, hc, h1, h2, h3, h4, h5]
      cases h6 : mapGet st.SectorCommitments (sectorKey sectorID) with
      | some c => right; simp [CommitSector, commitSectorBody, WithState, finish, hc, h1, h2, h3, h4, h5, h6]
      | none =>
        by_cases h7 : CollateralForSector st.SectorSize > ctx.MyBalance - st.ActiveCollateral
        · right; simp [CommitSector, commitSectorBody, WithState, finish, hc, h1, h2, h3, h4, h5, h6, h7]
        cases h8 : (ctx.Send 0 Address.StorageMarketAddress "updatePower" 0 [st.SectorSize]).err with
        | some e => right; simp [CommitSector, commitSectorBody, WithState, finish, hc, h1, h2, h3, h4, h5, h6, h7, h8]
        | none =>
          by_cases h9 : (ctx.Send 0 Address.StorageMarketAddress "updatePower" 0 [st.SectorSize]).ret = 0
          · left; simp [CommitSector, commitSectorBody, WithState, finish, hc, h1, h2, h3, h4, h5, h6, h7, h8, h9]
          · right; simp [CommitSector, commitSectorBody, WithState, finish, hc, h1, h2, h3, h4, h5, h6, h7, h8, h9]

/-! ## The late fee -/

/-- C1: for a non-negative pledge collateral `c` and `r = chainHeight - provingPeriodEnd`,
`LatePoStFee` returns `c` when `r ≥ maxRoundsLate`; otherwise, when `r > 0`, it returns
`c * r / maxRoundsLate` with the division truncated toward zero; otherwise it returns 0. -/
theorem LatePoStFee_formula (c provingPeriodEnd chainHeight maxRoundsLate : Int) (hc : 0 ≤ c) :
    (maxRoundsLate ≤ chainHeight - provingPeriodEnd →
      LatePoStFee c provingPeriodEnd chainHeight maxRoundsLate = c) ∧
    (chainHeight - provingPeriodEnd < maxRoundsLate → 0 < chainHeight - provingPeriodEnd →
      LatePoStFee c provingPeriodEnd chainHeight maxRoundsLate =
        Int.tdiv (c * (chainHeight - provingPeriodEnd)) maxRoundsLate) ∧
    (chainHeight - provingPeriodEnd < maxRoundsLate → chainHeight - provingPeriodEnd ≤ 0 →
      LatePoStFee c provingPeriodEnd chainHeight maxRoundsLate = 0) := by
  refine ⟨fun h => ?_, fun h1 h2 => ?_, fun h1 h2 => ?_⟩
  · simp [LatePoStFee, h]
  · have hm : 0 ≤ maxRoundsLate := by omega
    have hn : 0 ≤ c * (chainHeight - provingPeriodEnd) := Int.mul_nonneg hc (by omega)
    have h3 : ¬ (maxRoundsLate ≤ chainHeight - provingPeriodEnd) := by omega
    have h4 : provingPeriodEnd < chainHeight := by omega
    simp only [LatePoStFee, ge_iff_le, gt_iff_lt, h3, if_false, sub_pos, h4, if_true]
    exact (Int.tdiv_eq_ediv hn hm).symm
  · have h3 : ¬ (maxRoundsLate ≤ chainHeight - provingPeriodEnd) := by omega
    have h4 : ¬ (provingPeriodEnd < chainHeight) := by omega
    simp only [LatePoStFee, ge_iff_le, gt_iff_lt, h3, if_false, sub_pos, h4]

/-- C1, at collateral 1000, period end 20000, height 20050 and a grace window of 100. -/
theorem LatePoStFee_formula_witness :
    (0 : Int) ≤ 1000 ∧ LatePoStFee 1000 20000 20050 100 = Int.tdiv (1000 * (20050 - 20000)) 100 :=
  ⟨by decide, (LatePoStFee_formula 1000 20000 20050 100 (by decide)).2.1 (by decide) (by decide)⟩

/-! ## Sector commitment -/

/-- C2: a successful `CommitSector` adds `MinimumCollateralPerSector` to the active
collateral and `SectorSize` to the power, stores the three digests under the key of the
sector id (a key that had no entry; no other key changes and the map grows by one), sets
`LastUsedSectorID` to the sector id, and leaves `Owner`, `PeerID`, `PublicKey`, `Asks`,
`NextAskID`, `LastPoSt` and `SectorSize` as they were. -/
theorem CommitSector_success_effect (ma : Actor) (vf : Verifier) (ctx : VMContext) (st : State)
    (sectorID : Nat) (commD commR commRStar proof : Bytes)
    (hok : (CommitSector ma vf ctx st sectorID commD commR commRStar proof).err = none) :
    (CommitSector ma vf ctx st sectorID commD commR commRStar proof).state.ActiveCollateral =
      st.ActiveCollateral + MinimumCollateralPerSector ∧
    (CommitSector ma vf ctx st sectorID commD commR commRStar proof).state.Power =
      st.Power + st.SectorSize ∧
    mapGet st.SectorCommitments (sectorKey sectorID) = none ∧
    mapGet (CommitSector ma vf ctx st sectorID commD commR commRStar proof).state.SectorCommitments
      (sectorKey sectorID) = some { CommD := commD, CommR := commR, CommRStar := commRStar } ∧
    (∀ k : String, k ≠ sectorKey sectorID →
      mapGet (CommitSector ma vf ctx st sectorID commD commR commRStar proof).state.SectorCommitments k =
        mapGet st.SectorCommitments k) ∧
    mapLen (CommitSector ma vf ctx st sectorID commD commR commRStar proof).state.SectorCommitments =
      mapLen st.SectorCommitments + 1 ∧
    (CommitSector ma vf ctx st sectorID commD commR commRStar proof).state.LastUsedSectorID = sectorID ∧
    (CommitSector ma vf ctx st sectorID commD commR commRStar proof).state.Owner = st.Owner ∧
    (CommitSector ma vf ctx st sectorID commD commR commRStar proof).state.PeerID = st.PeerID ∧
    (CommitSector ma vf ctx st sectorID commD commR commRStar proof).state.PublicKey = st.PublicKey ∧
    (CommitSector ma vf ctx st sectorID commD commR commRStar proof).state.Asks = st.Asks ∧
    (CommitSector ma vf ctx st sectorID commD commR commRStar proof).state.NextAskID = st.NextAskID ∧
    (CommitSector ma vf ctx st sectorID commD commR commRStar proof).state.LastPoSt = st.LastPoSt ∧
    (CommitSector ma vf ctx st sectorID commD commR commRStar proof).state.SectorSize = st.SectorSize := by
  rcases CommitSector_cases ma vf ctx st sectorID commD commR commRStar proof with h | h
  · obtain ⟨⟨⟨_, hD, hR, hS, _, _, habs, _⟩, _, _⟩, _, _, hst⟩ := h
    rw [hst]
    have e1 := copyInto_of_length _ commD hD
    have e2 := copyInto_of_length _ commR hR
    have e3 := copyInto_of_length _ commRStar hS
    refine ⟨?_, ?_, habs, ?_, ?_, ?_, ?_, ?_, ?_, ?_, ?_, ?_, ?_, ?_⟩
    · by_cases hp : st.Power = 0 <;> simp [commitSectorUpdate, CollateralForSector, hp]
    · by_cases hp : st.Power = 0 <;> simp [commitSectorUpdate, hp]
    · by_cases hp : st.Power = 0 <;>
        simp [commitSectorUpdate, hp, mapGet_mapSet_self, e1, e2, e3]
    · intro k hk
      by_cases hp : st.Power = 0 <;>
        simp [commitSectorUpdate, hp, mapGet_mapSet_ne _ _ _ _ hk]
    · by_cases hp : st.Power = 0 <;>
        simp [commitSectorUpdate, hp, mapLen_mapSet_of_absent _ _ _ habs]
    all_goals (by_cases hp : st.Power = 0 <;> simp [commitSectorUpdate, hp])
  · exact absurd hok h.2.1

/-- C2, for the first sector of a fresh miner whose balance is exactly the collateral. -/
theorem CommitSector_success_effect_witness :
    (CommitSector ⟨false⟩ acceptingVerifier (exampleCtx (Address.other 1) 0 5 MinimumCollateralPerSector)
        exampleState 7 (exampleDigest 1) (exampleDigest 2) (exampleDigest 3) [9]).err = none ∧
    (CommitSector ⟨false⟩ acceptingVerifier (exampleCtx (Address.other 1) 0 5 MinimumCollateralPerSector)
        exampleState 7 (exampleDigest 1) (exampleDigest 2) (exampleDigest 3) [9]).state.Power =
      exampleState.Power + exampleState.SectorSize :=
  ⟨by decide,
    (CommitSector_success_effect ⟨false⟩ acceptingVerifier
      (exampleCtx (Address.other 1) 0 5 MinimumCollateralPerSector) exampleState 7
      (exampleDigest 1) (exampleDigest 2) (exampleDigest 3) [9] (by decide)).2.1⟩

/-! ## Frame facts: what the other methods leave alone -/

theorem sameSectorData_refl (st : State) : sameSectorData st st :=
  ⟨rfl, rfl, rfl, rfl, rfl, rfl⟩

theorem readField_state {α : Type} (ctx : VMContext) (st : State) (field : State → α) :
    (readField ctx st field).state = st := by
  unfold readField
  cases ctx.Charge <;> simp [insufficientGas, finish, WithState]

theorem AddAsk_sameSectorData (ctx : VMContext) (st : State) (price : AttoFIL) (expiry : Int) :
    sameSectorData st (AddAsk ctx st price expiry).state := by
  unfold AddAsk
  cases ctx.Charge with
  | some e => exact sameSectorData_refl st
  | none =>
    simp only [addAskBody]
    split_ifs <;> simp [finish, WithState, sameSectorData]

theorem GetAsks_state (ctx : VMContext) (st : State) : (GetAsks ctx st).state = st := by
  unfold GetAsks
  cases ctx.Charge with
  | some e => rfl
  | none =>
    simp only [getAsksBody]
    split_ifs <;> simp [finish, WithState]

theorem GetAsk_state (ctx : VMContext) (st : State) (askid : Int) : (GetAsk ctx st askid).state = st := by
  unfold GetAsk
  cases ctx.Charge with
  | some e => rfl
  | none =>
    simp only [getAskBody]
    split <;> simp [finish, WithState]

theorem GetPeerID_state (ctx : VMContext) (st : State) : (GetPeerID ctx st).state = st := by
  unfold GetPeerID
  cases ctx.Charge <;> rfl

theorem GetProvingPeriodStart_state (ctx : VMContext) (st : State) :
    (GetProvingPeriodStart ctx st).state = st := by
  unfold GetProvingPeriodStart
  cases ctx.Charge <;> rfl

theorem UpdatePeerID_sameSectorData (ctx : VMContext) (st : State) (pid : peer_ID) :
    sameSectorData st (UpdatePeerID ctx st pid).state := by
  unfold UpdatePeerID
  cases ctx.Charge with
  | some e => exact sameSectorData_refl st
  | none =>
    simp only [updatePeerIDBody]
    split_ifs <;> simp [finish, WithState, sameSectorData]

theorem VerifyPieceInclusion_state (ctx : VMContext) (st : State) (commP : Bytes) (sectorID : Nat)
    (proof : Bytes) : (VerifyPieceInclusion ctx st commP sectorID proof).state = st := by
  unfold VerifyPieceInclusion
  cases ctx.Charge with
  | some e => rfl
  | none =>
    simp only [verifyPieceInclusionBody]
    repeat' split
    all_goals simp [finish, WithState]

theorem SubmitPoSt_sameSectorData (ma : Actor) (vf : Verifier) (ctx : VMContext) (st : State)
    (poStProofs : List Bytes) : sameSectorData st (SubmitPoSt ma vf ctx st poStProofs).state := by
  unfold SubmitPoSt
  cases ctx.Charge with
  | some e => exact sameSectorData_refl st
  | none =>
    simp only [submitPoStBody]
    repeat' split
    all_goals simp [finish, WithState, sameSectorData]

theorem dispatch_cases (ma : Actor) (vf : Verifier) (ctx : VMContext) (st : State) (call : Call) :
    (∃ sectorID commD commR commRStar proof,
      call = Call.commitSector sectorID commD commR commRStar proof ∧
      commitAccepted ma vf ctx st sectorID commD commR commRStar proof ∧
      (dispatch ma vf ctx st call).err = none ∧
      (dispatch ma vf ctx st call).state = commitSectorUpdate ctx st sectorID commD commR commRStar) ∨
    sameSectorData st (dispatch ma vf ctx st call).state := by
  cases call with
  | commitSector sectorID commD commR commRStar proof =>
    rcases CommitSector_cases ma vf ctx st sectorID commD commR commRStar proof with h | h
    · left
      exact ⟨sectorID, commD, commR, commRStar, proof, rfl, h.1, h.2.1, h.2.2.2⟩
    · right
      have hst : (dispatch ma vf ctx st
          (Call.commitSector sectorID commD commR commRStar proof)).state = st := h.2.2
      rw [hst]
      exact sameSectorData_refl st
  | addAsk price expiry => right; exact AddAsk_sameSectorData ctx st price expiry
  | updatePeerID pid => right; exact UpdatePeerID_sameSectorData ctx st pid
  | submitPoSt poStProofs => right; exact SubmitPoSt_sameSectorData ma vf ctx st poStProofs
  | getAsks =>
    right
    have hst : (dispatch ma vf ctx st Call.getAsks).state = st := GetAsks_state ctx st
    rw [hst]; exact sameSectorData_refl st
  | getAsk askid =>
    right
    have hst : (dispatch ma vf ctx st (Call.getAsk askid)).state = st := GetAsk_state ctx st askid
    rw [hst]; exact sameSectorData_refl st
  | getOwner =>
    right
    have hst : (dispatch ma vf ctx st Call.getOwner).state = st := readField_state ctx st _
    rw [hst]; exact sameSectorData_refl st
  | getLastUsedSectorID =>
    right
    have hst : (dispatch ma vf ctx st Call.getLastUsedSectorID).state = st := readField_state ctx st _
    rw [hst]; exact sameSectorData_refl st
  | getKey =>
    right
    have hst : (dispatch ma vf ctx st Call.getKey).state = st := readField_state ctx st _
    rw [hst]; exact sameSectorData_refl st
  | getPeerID =>
    right
    have hst : (dispatch ma vf ctx st Call.getPeerID).state = st := GetPeerID_state ctx st
    rw [hst]; exact sameSectorData_refl st
  | getPower =>
    right
    have hst : (dispatch ma vf ctx st Call.getPower).state = st := readField_state ctx st _
    rw [hst]; exact sameSectorData_refl st
  | verifyPieceInclusion commP sectorID proof =>
    right
    have hst : (dispatch ma vf ctx st (Call.verifyPieceInclusion commP sectorID proof)).state = st :=
      VerifyPieceInclusion_state ctx st commP sectorID proof
    rw [hst]; exact sameSectorData_refl st
  | getProvingPeriodStart =>
    right
    have hst : (dispatch ma vf ctx st Call.getProvingPeriodStart).state = st :=
      GetProvingPeriodStart_state ctx st
    rw [hst]; exact sameSectorData_refl st
  | getSectorCommitments =>
    right
    have hst : (dispatch ma vf ctx st Call.getSectorCommitments).state = st := readField_state ctx st _
    rw [hst]; exact sameSectorData_refl st
  | isBootstrapMiner =>
    right
    have hst : (dispatch ma vf ctx st Call.isBootstrapMiner).state = st := rfl
    rw [hst]; exact sameSectorData_refl st
  | getSectorSize =>
    right
    have hst : (dispatch ma vf ctx st Call.getSectorSize).state = st := readField_state ctx st _
    rw [hst]; exact sameSectorData_refl st

theorem commitSectorUpdate_fields (ctx : VMContext) (st : State) (sectorID : Nat)
    (commD commR commRStar : Bytes) :
    (commitSectorUpdate ctx st sectorID commD commR commRStar).Power = st.Power + st.SectorSize ∧
    (commitSectorUpdate ctx st sectorID commD commR commRStar).SectorSize = st.SectorSize ∧
    (commitSectorUpdate ctx st sectorID commD commR commRStar).SectorCommitments =
      mapSet st.SectorCommitments (sectorKey sectorID)
        { CommD := copyInto CommitmentBytesLen commD
          CommR := copyInto CommitmentBytesLen commR
          CommRStar := copyInto CommitmentBytesLen commRStar } ∧
    (commitSectorUpdate ctx st sectorID commD commR commRStar).ActiveCollateral =
      st.ActiveCollateral + MinimumCollateralPerSector ∧
    (commitSectorUpdate ctx st sectorID commD commR commRStar).Owner = st.Owner := by
  by_cases hp : st.Power = 0 <;> simp [commitSectorUpdate, CollateralForSector, hp]

/-! ## Invariants of the reachable states -/

theorem dispatch_preserves_power (ma : Actor) (vf : Verifier) (ctx : VMContext) (st : State) (call : Call)
    (h : st.Power = st.SectorSize * (mapLen st.SectorCommitments : Int)) :
    (dispatch ma vf ctx st call).state.Power =
      (dispatch ma vf ctx st call).state.SectorSize *
        (mapLen (dispatch ma vf ctx st call).state.SectorCommitments : Int) := by
  rcases dispatch_cases ma vf ctx st call with ⟨sectorID, commD, commR, commRStar, proof, _, hacc, _, hst⟩ | hs
  · obtain ⟨hP, hS, hC, _, _⟩ := commitSectorUpdate_fields ctx st sectorID commD commR commRStar
    rw [hst, hP, hS, hC, mapLen_mapSet_of_absent _ _ _ hacc.1.2.2.2.2.2.2.1, h]
    push_cast
    ring
  · obtain ⟨hC, hP, hS, _, _, _⟩ := hs
    rw [hC, hP, hS, h]

/-- C3: in every state reachable from `NewState(owner, key, pid, sectorSize)` by any
sequence of exported calls, successful or failed, `Power` equals `SectorSize` times the
number of entries of `SectorCommitments`. -/
theorem power_eq_sectorSize_mul_count (ma : Actor) (owner : Address) (key : Bytes) (pid : peer_ID)
    (sectorSize : BytesAmount) (st : State)
    (h : ReachableFrom ma (NewState owner key pid sectorSize) st) :
    st.Power = st.SectorSize * (mapLen st.SectorCommitments : Int) := by
  induction h with
  | init => simp [NewState, mapLen]
  | step st vf ctx call _ ih => exact dispatch_preserves_power ma vf ctx st call ih

/-- C3, after a first successful `CommitSector` on a fresh miner. -/
theorem power_eq_sectorSize_mul_count_witness :
    ReachableFrom ⟨false⟩ (NewState (Address.other 1) [1, 2, 3] "peer" 1024)
      (dispatch ⟨false⟩ acceptingVerifier (exampleCtx (Address.other 1) 0 5 MinimumCollateralPerSector)
        (NewState (Address.other 1) [1, 2, 3] "peer" 1024)
        (Call.commitSector 7 (exampleDigest 1) (exampleDigest 2) (exampleDigest 3) [])).state ∧
    (dispatch ⟨false⟩ acceptingVerifier (exampleCtx (Address.other 1) 0 5 MinimumCollateralPerSector)
        (NewState (Address.other 1) [1, 2, 3] "peer" 1024)
        (Call.commitSector 7 (exampleDigest 1) (exampleDigest 2) (exampleDigest 3) [])).state.Power = 1024 :=
  ⟨ReachableFrom.step _ _ _ _ ReachableFrom.init,
    (power_eq_sectorSize_mul_count ⟨false⟩ (Address.other 1) [1, 2, 3] "peer" 1024 _
      (ReachableFrom.step _ acceptingVerifier
        (exampleCtx (Address.other 1) 0 5 MinimumCollateralPerSector)
        (Call.commitSector 7 (exampleDigest 1) (exampleDigest 2) (exampleDigest 3) [])
        ReachableFrom.init)).trans (by decide)⟩

/-! ## Committing a sector twice -/

theorem sealCheck_passed (ma : Actor) (vf : Verifier) (req : VerifySealRequest)
    (h : ma.Bootstrap = true ∨ vf.VerifySeal req = Except.ok true) : sealCheck ma vf req = none := by
  unfold sealCheck
  rcases h with h | h
  · simp [h]
  · simp [h]

theorem CommitSector_of_committed (ma : Actor) (vf : Verifier) (ctx : VMContext) (st : State)
    (sectorID : Nat) (commD commR commRStar proof : Bytes) (c : Commitments)
    (hc : mapGet st.SectorCommitments (sectorKey sectorID) = some c) :
    (CommitSector ma vf ctx st sectorID commD commR commRStar proof).err ≠ none ∧
    (CommitSector ma vf ctx st sectorID commD commR commRStar proof).state = st := by
  rcases CommitSector_cases ma vf ctx st sectorID commD commR commRStar proof with h | h
  · have habs := h.1.1.2.2.2.2.2.2.1
    rw [hc] at habs
    exact absurd habs (by simp)
  · exact h.2

/-- C4: when the sector id already has a commitment, a `CommitSector` for it sent by the
owner with enough gas, three digests of 32 bytes and a seal proof the verifier accepts (or
on a bootstrap actor) fails with `ErrSectorCommitted`, code 35 and message "sector already
committed", and the persisted state is the state before the call. -/
theorem CommitSector_already_committed (ma : Actor) (vf : Verifier) (ctx : VMContext) (st : State)
    (sectorID : Nat) (commD commR commRStar proof : Bytes) (c : Commitments)
    (hgas : ctx.Charge = none)
    (hD : commD.length = 32) (hR : commR.length = 32) (hS : commRStar.length = 32)
    (hseal : ma.Bootstrap = true ∨
      vf.VerifySeal (sealRequest ctx st sectorID commD commR commRStar proof) = Except.ok true)
    (hown : ctx.Message.From = st.Owner)
    (hc : mapGet st.SectorCommitments (sectorKey sectorID) = some c) :
    (CommitSector ma vf ctx st sectorID commD commR commRStar proof).err =
      some (VMError.coded 35 "sector already committed") ∧
    (CommitSector ma vf ctx st sectorID commD commR commRStar proof).err =
      some (Errors ErrSectorCommitted) ∧
    (CommitSector ma vf ctx st sectorID commD commR commRStar proof).code = ExitCode.num 35 ∧
    (CommitSector ma vf ctx st sectorID commD commR commRStar proof).ret = none ∧
    (CommitSector ma vf ctx st sectorID commD commR commRStar proof).state = st := by
  have hs := sealCheck_passed ma vf _ hseal
  simp [CommitSector, commitSectorBody, WithState, finish, hgas, hD, hR, hS, hs, hown, hc,
    CommitmentBytesLen, Errors, ErrSectorCommitted, CodeError, ErrPublicKeyTooBig, ErrInvalidSector]

/-- C4, for a second commitment of sector 7 with other digests. -/
theorem CommitSector_already_committed_witness :
    (CommitSector ⟨false⟩ acceptingVerifier (exampleCtx (Address.other 1) 0 9 (3 * MinimumCollateralPerSector))
      exampleCommitted 7 (exampleDigest 4) (exampleDigest 5) (exampleDigest 6) []).state = exampleCommitted :=
  (CommitSector_already_committed ⟨false⟩ acceptingVerifier
    (exampleCtx (Address.other 1) 0 9 (3 * MinimumCollateralPerSector)) exampleCommitted 7
    (exampleDigest 4) (exampleDigest 5) (exampleDigest 6) []
    { CommD := exampleDigest 1, CommR := exampleDigest 2, CommRStar := exampleDigest 3 }
    rfl (by decide) (by decide) (by decide) (Or.inr rfl) (by decide) (by decide)).2.2.2.2

theorem dispatch_keeps_commitment (ma : Actor) (vf : Verifier) (ctx : VMContext) (st : State)
    (call : Call) (k : String) (c : Commitments) (hc : mapGet st.SectorCommitments k = some c) :
    mapGet (dispatch ma vf ctx st call).state.SectorCommitments k = some c := by
  rcases dispatch_cases ma vf ctx st call with ⟨sectorID, commD, commR, commRStar, proof, _, hacc, _, hst⟩ | hs
  · have habs := hacc.1.2.2.2.2.2.2.1
    have hne : k ≠ sectorKey sectorID := by
      intro hk
      rw [hk, habs] at hc
      exact absurd hc (by simp)
    rw [hst, (commitSectorUpdate_fields ctx st sectorID commD commR commRStar).2.2.1,
      mapGet_mapSet_ne _ _ _ _ hne]
    exact hc
  · rw [hs.1]
    exact hc

theorem reachable_keeps_commitment (ma : Actor) (start st : State) (k : String) (c : Commitments)
    (hc : mapGet start.SectorCommitments k = some c) (h : ReachableFrom ma start st) :
    mapGet st.SectorCommitments k = some c := by
  induction h with
  | init => exact hc
  | step st vf ctx call _ ih => exact dispatch_keeps_commitment ma vf ctx st call k c ih

theorem CommitSector_success_stored (ma : Actor) (vf : Verifier) (ctx : VMContext) (st : State)
    (sectorID : Nat) (commD commR commRStar proof : Bytes)
    (hok : (CommitSector ma vf ctx st sectorID commD commR commRStar proof).err = none) :
    mapGet (CommitSector ma vf ctx st sectorID commD commR commRStar proof).state.SectorCommitments
      (sectorKey sectorID) = some { CommD := commD, CommR := commR, CommRStar := commRStar } := by
  rcases CommitSector_cases ma vf ctx st sectorID commD commR commRStar proof with h | h
  · obtain ⟨⟨⟨_, hD, hR, hS, _⟩, _, _⟩, _, _, hst⟩ := h
    rw [hst, (commitSectorUpdate_fields ctx st sectorID commD commR commRStar).2.2.1,
      mapGet_mapSet_self, copyInto_of_length _ commD hD, copyInto_of_length _ commR hR,
      copyInto_of_length _ commRStar hS]
  · exact absurd hok h.2.1

/-- C5: once a `CommitSector` for a sector id has succeeded, then after any sequence of
exported calls the commitment stored for that id is still the one stored by that call, and
every later `CommitSector` for the id, whatever its actor flag, verifier, context (caller,
gas, height, balance), digests and proof, fails and leaves the state as it was. -/
theorem committed_sector_is_immutable (ma : Actor) (vf : Verifier) (ctx : VMContext) (st : State)
    (sectorID : Nat) (commD commR commRStar proof : Bytes) (later : State)
    (hok : (CommitSector ma vf ctx st sectorID commD commR commRStar proof).err = none)
    (hreach : ReachableFrom ma (CommitSector ma vf ctx st sectorID commD commR commRStar proof).state later) :
    mapGet later.SectorCommitments (sectorKey sectorID) =
      some { CommD := commD, CommR := commR, CommRStar := commRStar } ∧
    ∀ (ma2 : Actor) (vf2 : Verifier) (ctx2 : VMContext) (commD2 commR2 commRStar2 proof2 : Bytes),
      (CommitSector ma2 vf2 ctx2 later sectorID commD2 commR2 commRStar2 proof2).err ≠ none ∧
      (CommitSector ma2 vf2 ctx2 later sectorID commD2 commR2 commRStar2 proof2).state = later := by
  have hstored := CommitSector_success_stored ma vf ctx st sectorID commD commR commRStar proof hok
  have hlater := reachable_keeps_commitment ma _ later _ _ hstored hreach
  exact ⟨hlater, fun ma2 vf2 ctx2 commD2 commR2 commRStar2 proof2 =>
    CommitSector_of_committed ma2 vf2 ctx2 later sectorID commD2 commR2 commRStar2 proof2 _ hlater⟩

/-- C5, for sector 7 of a fresh miner, with an `UpdatePeerID` in between. -/
theorem committed_sector_is_immutable_witness :
    (CommitSector ⟨false⟩ acceptingVerifier (exampleCtx (Address.other 1) 0 5 MinimumCollateralPerSector)
        exampleState 7 (exampleDigest 1) (exampleDigest 2) (exampleDigest 3) []).err = none ∧
    mapGet (dispatch ⟨false⟩ acceptingVerifier (exampleCtx (Address.other 1) 0 6 MinimumCollateralPerSector)
        (CommitSector ⟨false⟩ acceptingVerifier (exampleCtx (Address.other 1) 0 5 MinimumCollateralPerSector)
          exampleState 7 (exampleDigest 1) (exampleDigest 2) (exampleDigest 3) []).state
        (Call.updatePeerID "other")).state.SectorCommitments (sectorKey 7) =
      some { CommD := exampleDigest 1, CommR := exampleDigest 2, CommRStar := exampleDigest 3 } :=
  ⟨by decide,
    (committed_sector_is_immutable ⟨false⟩ acceptingVerifier
      (exampleCtx (Address.other 1) 0 5 MinimumCollateralPerSector) exampleState 7
      (exampleDigest 1) (exampleDigest 2) (exampleDigest 3) [] _ (by decide)
      (ReachableFrom.step _ acceptingVerifier
        (exampleCtx (Address.other 1) 0 6 MinimumCollateralPerSector) (Call.updatePeerID "other")
        ReachableFrom.init)).1⟩

/-! ## The collateral check of `CommitSector` -/

/-- C6: for a `CommitSector` that passes the gas, digest-length, seal-proof, caller and
not-yet-committed checks, the call fails with `ErrInsufficientCollateral` exactly when
`MinimumCollateralPerSector` is strictly greater than the balance of the actor minus
`ActiveCollateral`, and then with code 43 and no state change; when the required collateral
equals the available balance the call is not rejected for collateral, and it succeeds
once the storage market accepts the power update. -/
theorem CommitSector_insufficient_collateral_iff (ma : Actor) (vf : Verifier) (ctx : VMContext)
    (st : State) (sectorID : Nat) (commD commR commRStar proof : Bytes)
    (hgas : ctx.Charge = none)
    (hD : commD.length = 32) (hR : commR.length = 32) (hS : commRStar.length = 32)
    (hseal : ma.Bootstrap = true ∨
      vf.VerifySeal (sealRequest ctx st sectorID commD commR commRStar proof) = Except.ok true)
    (hown : ctx.Message.From = st.Owner)
    (habs : mapGet st.SectorCommitments (sectorKey sectorID) = none) :
    ((CommitSector ma vf ctx st sectorID commD commR commRStar proof).err =
        some (Errors ErrInsufficientCollateral) ↔
      MinimumCollateralPerSector > ctx.MyBalance - st.ActiveCollateral) ∧
    (MinimumCollateralPerSector > ctx.MyBalance - st.ActiveCollateral →
      (CommitSector ma vf ctx st sectorID commD commR commRStar proof).code = ExitCode.num 43 ∧
      (CommitSector ma vf ctx st sectorID commD commR commRStar proof).state = st) ∧
    (MinimumCollateralPerSector = ctx.MyBalance - st.ActiveCollateral →
      (CommitSector ma vf ctx st sectorID commD commR commRStar proof).err ≠
        some (Errors ErrInsufficientCollateral) ∧
      ((updatePowerResult ctx st).err = none → (updatePowerResult ctx st).ret = 0 →
        (CommitSector ma vf ctx st sectorID commD commR commRStar proof).err = none)) := by
  have hs := sealCheck_passed ma vf _ hseal
  have key : ¬ (MinimumCollateralPerSector > ctx.MyBalance - st.ActiveCollateral) →
      (CommitSector ma vf ctx st sectorID commD commR commRStar proof).err ≠
        some (Errors ErrInsufficientCollateral) ∧
      ((updatePowerResult ctx st).err = none → (updatePowerResult ctx st).ret = 0 →
        (CommitSector ma vf ctx st sectorID commD commR commRStar proof).err = none) := by
    intro hcol
    have hcol2 : ¬ (CollateralForSector st.SectorSize > ctx.MyBalance - st.ActiveCollateral) := hcol
    unfold updatePowerResult
    cases h8 : (ctx.Send 0 Address.StorageMarketAddress "updatePower" 0 [st.SectorSize]).err with
    | some e =>
      simp [CommitSector, commitSectorBody, WithState, finish, hgas, hD, hR, hS, hs, hown, habs,
        hcol2, h8, CommitmentBytesLen, Errors]
    | none =>
      by_cases h9 : (ctx.Send 0 Address.StorageMarketAddress "updatePower" 0 [st.SectorSize]).ret = 0
      · simp [CommitSector, commitSectorBody, WithState, finish, hgas, hD, hR, hS, hs, hown, habs,
          hcol2, h8, h9, CommitmentBytesLen]
      · simp [CommitSector, commitSectorBody, WithState, finish, hgas, hD, hR, hS, hs, hown, habs,
          hcol2, h8, h9, CommitmentBytesLen, Errors, ErrStoragemarketCallFailed,
          ErrInsufficientCollateral]
  have fails : MinimumCollateralPerSector > ctx.MyBalance - st.ActiveCollateral →
      (CommitSector ma vf ctx st sectorID commD commR commRStar proof).err =
        some (Errors ErrInsufficientCollateral) ∧
      (CommitSector ma vf ctx st sectorID commD commR commRStar proof).code = ExitCode.num 43 ∧
      (CommitSector ma vf ctx st sectorID commD commR commRStar proof).state = st := by
    intro hcol
    have hcol2 : CollateralForSector st.SectorSize > ctx.MyBalance - st.ActiveCollateral := hcol
    simp [CommitSector, commitSectorBody, WithState, finish, hgas, hD, hR, hS, hs, hown, habs,
      hcol2, CommitmentBytesLen, Errors, CodeError, ErrInsufficientCollateral]
  refine ⟨⟨fun herr => ?_, fun hcol => (fails hcol).1⟩, fun hcol => (fails hcol).2, fun heq => ?_⟩
  · by_contra hcol
    exact (key hcol).1 herr
  · exact key (by rw [heq]; exact lt_irrefl _)

/-- C6, with a balance that is exactly the collateral of one sector. -/
theorem CommitSector_insufficient_collateral_iff_witness :
    (CommitSector ⟨false⟩ acceptingVerifier (exampleCtx (Address.other 1) 0 5 MinimumCollateralPerSector)
      exampleState 7 (exampleDigest 1) (exampleDigest 2) (exampleDigest 3) [1]).err ≠
        some (Errors ErrInsufficientCollateral) :=
  ((CommitSector_insufficient_collateral_iff ⟨false⟩ acceptingVerifier
    (exampleCtx (Address.other 1) 0 5 MinimumCollateralPerSector) exampleState 7
    (exampleDigest 1) (exampleDigest 2) (exampleDigest 3) [1]
    rfl (by decide) (by decide) (by decide) (Or.inr rfl) (by decide) (by decide)).2.2 (by decide)).1

/-! ## The power update at the storage market -/

/-- C8: when a `CommitSector` passes all its local checks and the `updatePower` call to
the storage market returns an error or a non-zero exit code, `CommitSector` fails and the
persisted state is the state before the call. An error of the sub-call is returned as it
is; a non-zero exit code without error gives `ErrStoragemarketCallFailed`, code 36. -/
theorem CommitSector_storagemarket_failure (ma : Actor) (vf : Verifier) (ctx : VMContext)
    (st : State) (sectorID : Nat) (commD commR commRStar proof : Bytes)
    (hlocal : commitLocalChecks ma vf ctx st sectorID commD commR commRStar proof)
    (hfail : (updatePowerResult ctx st).err ≠ none ∨ (updatePowerResult ctx st).ret ≠ 0) :
    (CommitSector ma vf ctx st sectorID commD commR commRStar proof).err ≠ none ∧
    (CommitSector ma vf ctx st sectorID commD commR commRStar proof).state = st ∧
    (∀ e, (updatePowerResult ctx st).err = some e →
      (CommitSector ma vf ctx st sectorID commD commR commRStar proof).err = some (VMError.external e)) ∧
    ((updatePowerResult ctx st).err = none →
      (CommitSector ma vf ctx st sectorID commD commR commRStar proof).err =
        some (Errors ErrStoragemarketCallFailed) ∧
      (CommitSector ma vf ctx st sectorID commD commR commRStar proof).code = ExitCode.num 36) := by
  obtain ⟨hgas, hD, hR, hS, hs, hown, habs, hcol⟩ := hlocal
  unfold updatePowerResult at hfail ⊢
  cases h8 : (ctx.Send 0 Address.StorageMarketAddress "updatePower" 0 [st.SectorSize]).err with
  | some e =>
    simp [CommitSector, commitSectorBody, WithState, finish, hgas, hD, hR, hS, hs, hown, habs,
      hcol, h8]
  | none =>
    have h9 : (ctx.Send 0 Address.StorageMarketAddress "updatePower" 0 [st.SectorSize]).ret ≠ 0 := by
      rcases hfail with h | h
      · exact absurd h8 h
      · exact h
    simp [CommitSector, commitSectorBody, WithState, finish, hgas, hD, hR, hS, hs, hown, habs,
      hcol, h8, h9, Errors, CodeError, ErrStoragemarketCallFailed]

/-- C8, with a storage market that answers exit code 3 without error. -/
theorem CommitSector_storagemarket_failure_witness :
    (CommitSector ⟨true⟩ rejectingVerifier
      (exampleCtxSend (Address.other 1) 5 MinimumCollateralPerSector { ret := 3, err := none })
      exampleState 7 (exampleDigest 1) (exampleDigest 2) (exampleDigest 3) []).state = exampleState :=
  (CommitSector_storagemarket_failure ⟨true⟩ rejectingVerifier
    (exampleCtxSend (Address.other 1) 5 MinimumCollateralPerSector { ret := 3, err := none })
    exampleState 7 (exampleDigest 1) (exampleDigest 2) (exampleDigest 3) []
    ⟨rfl, by decide, by decide, by decide, by decide, by decide, by decide, by decide⟩
    (Or.inr (by decide))).2.1

/-! ## Malformed digests and unauthorized callers -/

/-- C9: a `CommitSector` with enough gas in which `commD`, `commR` or `commRStar` is not
32 bytes long is rejected with exit code 1 and a revert error; the state is unchanged, no
collaborator (proof verifier, storage market) is called, and the outcome is the same for
every actor flag, verifier and VM context with gas, so for every caller. -/
theorem CommitSector_bad_digest_length (ma : Actor) (vf : Verifier) (ctx : VMContext) (st : State)
    (sectorID : Nat) (commD commR commRStar proof : Bytes)
    (hgas : ctx.Charge = none)
    (hlen : commD.length ≠ 32 ∨ commR.length ≠ 32 ∨ commRStar.length ≠ 32) :
    (CommitSector ma vf ctx st sectorID commD commR commRStar proof).code = ExitCode.num 1 ∧
    (∃ msg, (CommitSector ma vf ctx st sectorID commD commR commRStar proof).err =
      some (VMError.revert msg)) ∧
    (CommitSector ma vf ctx st sectorID commD commR commRStar proof).state = st ∧
    (CommitSector ma vf ctx st sectorID commD commR commRStar proof).events = [] ∧
    (∀ (ma2 : Actor) (vf2 : Verifier) (ctx2 : VMContext), ctx2.Charge = none →
      CommitSector ma2 vf2 ctx2 st sectorID commD commR commRStar proof =
        CommitSector ma vf ctx st sectorID commD commR commRStar proof) := by
  by_cases h1 : commD.length = 32
  · by_cases h2 : commR.length = 32
    · have h3 : commRStar.length ≠ 32 := by
        rcases hlen with h | h | h
        · exact absurd h1 h
        · exact absurd h2 h
        · exact h
      refine ⟨?_, ⟨"invalid sized commRStar", ?_⟩, ?_, ?_, ?_⟩
      all_goals first
        | (intro ma2 vf2 ctx2 hgas2
           simp [CommitSector, hgas, hgas2, h1, h2, h3, CommitmentBytesLen])
        | simp [CommitSector, hgas, h1, h2, h3, CommitmentBytesLen]
    · refine ⟨?_, ⟨"invalid sized commR", ?_⟩, ?_, ?_, ?_⟩
      all_goals first
        | (intro ma2 vf2 ctx2 hgas2
           simp [CommitSector, hgas, hgas2, h1, h2, CommitmentBytesLen])
        | simp [CommitSector, hgas, h1, h2, CommitmentBytesLen]
  · refine ⟨?_, ⟨"invalid sized commD", ?_⟩, ?_, ?_, ?_⟩
    all_goals first
      | (intro ma2 vf2 ctx2 hgas2
         simp [CommitSector, hgas, hgas2, h1, CommitmentBytesLen])
      | simp [CommitSector, hgas, h1, CommitmentBytesLen]

/-- C9, for a `commR` of three bytes sent by a stranger to a non-bootstrap actor. -/
theorem CommitSector_bad_digest_length_witness :
    (CommitSector ⟨false⟩ rejectingVerifier (exampleCtx (Address.other 2) 0 5 0)
      exampleState 7 (exampleDigest 1) [1, 2, 3] (exampleDigest 3) []).code = ExitCode.num 1 :=
  (CommitSector_bad_digest_length ⟨false⟩ rejectingVerifier (exampleCtx (Address.other 2) 0 5 0)
    exampleState 7 (exampleDigest 1) [1, 2, 3] (exampleDigest 3) [] rfl
    (Or.inr (Or.inl (by decide)))).1

/-- C10 as stated fails: on a non-bootstrap actor the seal proof is verified before the
caller is checked, so a stranger whose proof the verifier rejects gets `ErrInvalidSealProof`
and not `ErrCallerUnauthorized`. -/
theorem CommitSector_unauthorized_counterexample :
    ¬ (∀ (ma : Actor) (vf : Verifier) (ctx : VMContext) (st : State) (sectorID : Nat)
        (commD commR commRStar proof : Bytes),
        ctx.Charge = none → commD.length = 32 → commR.length = 32 → commRStar.length = 32 →
        ctx.Message.From ≠ st.Owner →
        (CommitSector ma vf ctx st sectorID commD commR commRStar proof).err =
          some (Errors ErrCallerUnauthorized)) := by
  intro h
  have h2 := h ⟨false⟩ rejectingVerifier (exampleCtx (Address.other 2) 0 5 MinimumCollateralPerSector)
    exampleState 7 (exampleDigest 1) (exampleDigest 2) (exampleDigest 3) []
    rfl (by decide) (by decide) (by decide) (by decide)
  revert h2
  decide

/-- C10, amended: a `CommitSector` with enough gas and three digests of 32 bytes whose
caller is not the owner always fails and leaves the state unchanged. The error is
`ErrCallerUnauthorized`, code 37, when the actor is a bootstrap actor or the verifier
accepts the seal proof; on a non-bootstrap actor the error is `ErrInvalidSealProof`,
code 41, when the verifier rejects the proof, and the wrapped verifier error when the
verifier itself fails. -/
theorem CommitSector_unauthorized (ma : Actor) (vf : Verifier) (ctx : VMContext) (st : State)
    (sectorID : Nat) (commD commR commRStar proof : Bytes)
    (hgas : ctx.Charge = none)
    (hD : commD.length = 32) (hR : commR.length = 32) (hS : commRStar.length = 32)
    (hne : ctx.Message.From ≠ st.Owner) :
    (CommitSector ma vf ctx st sectorID commD commR commRStar proof).err ≠ none ∧
    (CommitSector ma vf ctx st sectorID commD commR commRStar proof).state = st ∧
    ((ma.Bootstrap = true ∨
        vf.VerifySeal (sealRequest ctx st sectorID commD commR commRStar proof) = Except.ok true) →
      (CommitSector ma vf ctx st sectorID commD commR commRStar proof).err =
        some (Errors ErrCallerUnauthorized) ∧
      (CommitSector ma vf ctx st sectorID commD commR commRStar proof).code = ExitCode.num 37) ∧
    (ma.Bootstrap = false →
      vf.VerifySeal (sealRequest ctx st sectorID commD commR commRStar proof) = Except.ok false →
      (CommitSector ma vf ctx st sectorID commD commR commRStar proof).err =
        some (Errors ErrInvalidSealProof) ∧
      (CommitSector ma vf ctx st sectorID commD commR commRStar proof).code = ExitCode.num 41) ∧
    (ma.Bootstrap = false → ∀ e,
      vf.VerifySeal (sealRequest ctx st sectorID commD commR commRStar proof) = Except.error e →
      (CommitSector ma vf ctx st sectorID commD commR commRStar proof).err =
        some (VMError.revertWrap e "failed to verify seal proof")) := by
  have hacc : ¬ commitAccepted ma vf ctx st sectorID commD commR commRStar proof :=
    fun h => hne h.1.2.2.2.2.2.1
  have hfail : (CommitSector ma vf ctx st sectorID commD commR commRStar proof).err ≠ none ∧
      (CommitSector ma vf ctx st sectorID commD commR commRStar proof).state = st := by
    rcases CommitSector_cases ma vf ctx st sectorID commD commR commRStar proof with h | h
    · exact absurd h.1 hacc
    · exact h.2
  refine ⟨hfail.1, hfail.2, fun hseal => ?_, fun hb hv => ?_, fun hb e hv => ?_⟩
  · have hs := sealCheck_passed ma vf _ hseal
    simp [CommitSector, commitSectorBody, WithState, finish, hgas, hD, hR, hS, hs, hne,
      CommitmentBytesLen, Errors, CodeError, ErrCallerUnauthorized]
  · simp [CommitSector, commitSectorBody, WithState, finish, hgas, hD, hR, hS, sealCheck, hb, hv,
      CommitmentBytesLen, Errors, CodeError, ErrInvalidSealProof]
  · simp [CommitSector, commitSectorBody, WithState, finish, hgas, hD, hR, hS, sealCheck, hb, hv,
      CommitmentBytesLen]

/-- C10 amended, for a stranger whose seal proof the verifier accepts. -/
theorem CommitSector_unauthorized_witness :
    (CommitSector ⟨false⟩ acceptingVerifier (exampleCtx (Address.other 2) 0 5 MinimumCollateralPerSector)
      exampleState 7 (exampleDigest 1) (exampleDigest 2) (exampleDigest 3) []).err =
        some (Errors ErrCallerUnauthorized) :=
  ((CommitSector_unauthorized ⟨false⟩ acceptingVerifier
    (exampleCtx (Address.other 2) 0 5 MinimumCollateralPerSector) exampleState 7
    (exampleDigest 1) (exampleDigest 2) (exampleDigest 3) []
    rfl (by decide) (by decide) (by decide) (by decide)).2.2.1 (Or.inr rfl)).1

/-! ## The balance of the actor -/

theorem sentValue_append (xs ys : List Event) : sentValue (xs ++ ys) = sentValue xs + sentValue ys := by
  induction xs with
  | nil => simp [sentValue]
  | cons e rest ih =>
    cases e <;> simp [sentValue, ih]
    ring

theorem postCheck_sentValue (ma : Actor) (vf : Verifier) (ctx : VMContext) (st : State)
    (poStProofs : List Bytes) : sentValue (postCheck ma vf ctx st poStProofs).1 = 0 := by
  unfold postCheck
  split
  · simp [sentValue]
  · split
    · simp [sentValue]
    · dsimp only
      split <;> simp [sentValue]

theorem CommitSector_sentValue (ma : Actor) (vf : Verifier) (ctx : VMContext) (st : State)
    (sectorID : Nat) (commD commR commRStar proof : Bytes) :
    sentValue (CommitSector ma vf ctx st sectorID commD commR commRStar proof).events = 0 := by
  unfold CommitSector
  cases ctx.Charge with
  | some e => simp [insufficientGas, sentValue]
  | none =>
    simp only [commitSectorBody]
    repeat' split
    all_goals simp [finish, WithState, sentValue, sentValue_append]

/-- What a `SubmitPoSt` that returns no error did: the proving period start was set, the
message value covers the fee, the state moves to the next proving period, and the value
sent away (fee burnt plus overpayment refunded) is the message value. -/
theorem SubmitPoSt_success (ma : Actor) (vf : Verifier) (ctx : VMContext) (st : State)
    (poStProofs : List Bytes) (hok : (SubmitPoSt ma vf ctx st poStProofs).err = none) :
    ∃ start : BlockHeight, st.ProvingPeriodStart = some start ∧
      LatePoStFee st.ActiveCollateral (start + (ProvingPeriodDuration st.SectorSize : Int))
        ctx.BlockHeight (GenerationAttackTime st.SectorSize) ≤ ctx.Message.Value ∧
      (SubmitPoSt ma vf ctx st poStProofs).state =
        { st with
          ProvingPeriodStart := some (start + (ProvingPeriodDuration st.SectorSize : Int))
          LastPoSt := some ctx.BlockHeight } ∧
      sentValue (SubmitPoSt ma vf ctx st poStProofs).events = ctx.Message.Value := by
  cases hc : ctx.Charge with
  | some e => simp [SubmitPoSt, hc, insufficientGas] at hok
  | none =>
    by_cases h1 : ctx.Message.From = st.Owner
    swap; · simp [SubmitPoSt, submitPoStBody, WithState, finish, hc, h1] at hok
    cases h2 : st.ProvingPeriodStart with
    | none => simp [SubmitPoSt, submitPoStBody, WithState, finish, hc, h1, h2] at hok
    | some start =>
      refine ⟨start, rfl, ?_⟩
      by_cases h3 : ctx.BlockHeight >
          start + (ProvingPeriodDuration st.SectorSize : Int) + GenerationAttackTime st.SectorSize
      · simp [SubmitPoSt, submitPoStBody, WithState, finish, hc, h1, h2, h3] at hok
      by_cases h4 : ctx.Message.Value <
          LatePoStFee st.ActiveCollateral (start + (ProvingPeriodDuration st.SectorSize : Int))
            ctx.BlockHeight (GenerationAttackTime st.SectorSize)
      · simp [SubmitPoSt, submitPoStBody, WithState, finish, hc, h1, h2, h3, h4] at hok
      cases h5 : (ctx.Send 0 Address.BurntFundsAddress ""
          (LatePoStFee st.ActiveCollateral (start + (ProvingPeriodDuration st.SectorSize : Int))
            ctx.BlockHeight (GenerationAttackTime st.SectorSize)) []).err with
      | some e => simp [SubmitPoSt, submitPoStBody, WithState, finish, hc, h1, h2, h3, h4, h5] at hok
      | none =>
        have hchk := postCheck_sentValue ma vf ctx st poStProofs
        by_cases h8 : ctx.Message.Value >
            LatePoStFee st.ActiveCollateral (start + (ProvingPeriodDuration st.SectorSize : Int))
              ctx.BlockHeight (GenerationAttackTime st.SectorSize)
        · cases h6 : (ctx.Send 1 st.Owner ""
              (ctx.Message.Value -
                LatePoStFee st.ActiveCollateral (start + (ProvingPeriodDuration st.SectorSize : Int))
                  ctx.BlockHeight (GenerationAttackTime st.SectorSize)) []).err with
          | some e =>
            simp [SubmitPoSt, submitPoStBody, WithState, finish, hc, h1, h2, h3, h4, h5, h6, h8] at hok
          | none =>
            cases h7 : (postCheck ma vf ctx st poStProofs).2 with
            | some e =>
              simp [SubmitPoSt, submitPoStBody, WithState, finish, hc, h1, h2, h3, h4, h5, h6, h7, h8] at hok
            | none =>
              refine ⟨le_of_not_lt h4, ?_, ?_⟩
              · simp [SubmitPoSt, submitPoStBody, WithState, finish, hc, h1, h2, h3, h4, h5, h6, h7, h8]
              · simp [SubmitPoSt, submitPoStBody, WithState, finish, hc, h1, h2, h3, h4, h5, h6, h7, h8,
                  sentValue, sentValue_append, hchk]
        · cases h7 : (postCheck ma vf ctx st poStProofs).2 with
          | some e =>
            simp [SubmitPoSt, submitPoStBody, WithState, finish, hc, h1, h2, h3, h4, h5, h7, h8] at hok
          | none =>
            have h9 : ctx.Message.Value =
                LatePoStFee st.ActiveCollateral (start + (ProvingPeriodDuration st.SectorSize : Int))
                  ctx.BlockHeight (GenerationAttackTime st.SectorSize) :=
              le_antisymm (le_of_not_lt h8) (le_of_not_lt h4)
            refine ⟨le_of_not_lt h4, ?_, ?_⟩
            · simp [SubmitPoSt, submitPoStBody, WithState, finish, hc, h1, h2, h3, h4, h5, h7, h8]
            · simp [SubmitPoSt, submitPoStBody, WithState, finish, hc, h1, h2, h3, h4, h5, h7, h8,
                sentValue, sentValue_append, hchk]
              exact h9.symm

theorem readField_events {α : Type} (ctx : VMContext) (st : State) (field : State → α) :
    (readField ctx st field).events = [] := by
  unfold readField
  cases ctx.Charge <;> simp [insufficientGas, finish, WithState]

theorem AddAsk_events (ctx : VMContext) (st : State) (price : AttoFIL) (expiry : Int) :
    (AddAsk ctx st price expiry).events = [] := by
  unfold AddAsk
  cases ctx.Charge with
  | some e => rfl
  | none =>
    simp only [addAskBody]
    split_ifs <;> simp [finish, WithState]

theorem GetAsks_events (ctx : VMContext) (st : State) : (GetAsks ctx st).events = [] := by
  unfold GetAsks
  cases ctx.Charge with
  | some e => rfl
  | none =>
    simp only [getAsksBody]
    split_ifs <;> simp [finish, WithState]

theorem GetAsk_events (ctx : VMContext) (st : State) (askid : Int) : (GetAsk ctx st askid).events = [] := by
  unfold GetAsk
  cases ctx.Charge with
  | some e => rfl
  | none =>
    simp only [getAskBody]
    split <;> simp [finish, WithState]

theorem UpdatePeerID_events (ctx : VMContext) (st : State) (pid : peer_ID) :
    (UpdatePeerID ctx st pid).events = [] := by
  unfold UpdatePeerID
  cases ctx.Charge with
  | some e => rfl
  | none =>
    simp only [updatePeerIDBody]
    split_ifs <;> simp [finish, WithState]

theorem VerifyPieceInclusion_events (ctx : VMContext) (st : State) (commP : Bytes) (sectorID : Nat)
    (proof : Bytes) : (VerifyPieceInclusion ctx st commP sectorID proof).events = [] := by
  unfold VerifyPieceInclusion
  cases ctx.Charge with
  | some e => rfl
  | none =>
    simp only [verifyPieceInclusionBody]
    repeat' split
    all_goals simp [finish, WithState]

theorem dispatch_sentValue (ma : Actor) (vf : Verifier) (ctx : VMContext) (st : State) (call : Call)
    (h : ∀ p, call ≠ Call.submitPoSt p) : sentValue (dispatch ma vf ctx st call).events = 0 := by
  cases call with
  | submitPoSt p => exact absurd rfl (h p)
  | commitSector sectorID commD commR commRStar proof =>
    exact CommitSector_sentValue ma vf ctx st sectorID commD commR commRStar proof
  | addAsk price expiry =>
    have he : (dispatch ma vf ctx st (Call.addAsk price expiry)).events = [] := AddAsk_events ctx st price expiry
    rw [he]; rfl
  | getAsks =>
    have he : (dispatch ma vf ctx st Call.getAsks).events = [] := GetAsks_events ctx st
    rw [he]; rfl
  | getAsk askid =>
    have he : (dispatch ma vf ctx st (Call.getAsk askid)).events = [] := GetAsk_events ctx st askid
    rw [he]; rfl
  | getOwner =>
    have he : (dispatch ma vf ctx st Call.getOwner).events = [] := readField_events ctx st _
    rw [he]; rfl
  | getLastUsedSectorID =>
    have he : (dispatch ma vf ctx st Call.getLastUsedSectorID).events = [] := readField_events ctx st _
    rw [he]; rfl
  | getKey =>
    have he : (dispatch ma vf ctx st Call.getKey).events = [] := readField_events ctx st _
    rw [he]; rfl
  | getPeerID =>
    have he : (dispatch ma vf ctx st Call.getPeerID).events = [] := by
      show (GetPeerID ctx st).events = []
      unfold GetPeerID
      cases ctx.Charge <;> rfl
    rw [he]; rfl
  | updatePeerID pid =>
    have he : (dispatch ma vf ctx st (Call.updatePeerID pid)).events = [] := UpdatePeerID_events ctx st pid
    rw [he]; rfl
  | getPower =>
    have he : (dispatch ma vf ctx st Call.getPower).events = [] := readField_events ctx st _
    rw [he]; rfl
  | verifyPieceInclusion commP sectorID proof =>
    have he : (dispatch ma vf ctx st (Call.verifyPieceInclusion commP sectorID proof)).events = [] :=
      VerifyPieceInclusion_events ctx st commP sectorID proof
    rw [he]; rfl
  | getProvingPeriodStart =>
    have he : (dispatch ma vf ctx st Call.getProvingPeriodStart).events = [] := by
      show (GetProvingPeriodStart ctx st).events = []
      unfold GetProvingPeriodStart
      cases ctx.Charge <;> rfl
    rw [he]; rfl
  | getSectorCommitments =>
    have he : (dispatch ma vf ctx st Call.getSectorCommitments).events = [] := readField_events ctx st _
    rw [he]; rfl
  | isBootstrapMiner => rfl
  | getSectorSize =>
    have he : (dispatch ma vf ctx st Call.getSectorSize).events = [] := readField_events ctx st _
    rw [he]; rfl

/-- C7: let `ActiveCollateral` be at most the balance of the actor before an exported call.
If the call succeeds, `ActiveCollateral` is still at most the balance after it. For
`SubmitPoSt` the balance before is `MyBalance` without the message value, and after the
call (value credited, fee burnt, overpayment refunded) it is the same amount; for every
other call, `CommitSector` included, the balance is `MyBalance` before and after. -/
theorem activeCollateral_le_balance (ma : Actor) (vf : Verifier) (ctx : VMContext) (st : State)
    (call : Call) (hok : (dispatch ma vf ctx st call).err = none) :
    ((∀ p, call ≠ Call.submitPoSt p) → st.ActiveCollateral ≤ ctx.MyBalance →
      (dispatch ma vf ctx st call).state.ActiveCollateral ≤
        balanceAfter ctx (dispatch ma vf ctx st call).events ∧
      balanceAfter ctx (dispatch ma vf ctx st call).events = ctx.MyBalance) ∧
    (∀ p, call = Call.submitPoSt p → st.ActiveCollateral ≤ ctx.MyBalance - ctx.Message.Value →
      (dispatch ma vf ctx st call).state.ActiveCollateral ≤
        balanceAfter ctx (dispatch ma vf ctx st call).events ∧
      balanceAfter ctx (dispatch ma vf ctx st call).events = ctx.MyBalance - ctx.Message.Value) := by
  constructor
  · intro hns hinv
    have hsent := dispatch_sentValue ma vf ctx st call hns
    have hbal : balanceAfter ctx (dispatch ma vf ctx st call).events = ctx.MyBalance := by
      simp [balanceAfter, hsent]
    refine ⟨?_, hbal⟩
    rw [hbal]
    rcases dispatch_cases ma vf ctx st call with ⟨sectorID, commD, commR, commRStar, proof, _, hacc, _, hst⟩ | hs
    · rw [hst, (commitSectorUpdate_fields ctx st sectorID commD commR commRStar).2.2.2.1]
      have hcol := hacc.1.2.2.2.2.2.2.2
      simp only [CollateralForSector, gt_iff_lt, not_lt] at hcol
      linarith
    · rw [hs.2.2.2.1]
      exact hinv
  · intro p hp hinv
    subst hp
    obtain ⟨start, _, _, hst, hsent⟩ := SubmitPoSt_success ma vf ctx st p hok
    have hst2 : (dispatch ma vf ctx st (Call.submitPoSt p)).state = _ := hst
    have hsent2 : sentValue (dispatch ma vf ctx st (Call.submitPoSt p)).events = _ := hsent
    have hbal : balanceAfter ctx (dispatch ma vf ctx st (Call.submitPoSt p)).events =
        ctx.MyBalance - ctx.Message.Value := by
      simp [balanceAfter, hsent2]
    refine ⟨?_, hbal⟩
    rw [hbal, hst2]
    exact hinv

/-- C7, for an on-time `SubmitPoSt` that overpays by 5 attoFIL. -/
theorem activeCollateral_le_balance_witness :
    (dispatch ⟨false⟩ acceptingVerifier
        (exampleCtx (Address.other 1) 5 9 (MinimumCollateralPerSector + 5)) exampleCommitted
        (Call.submitPoSt [[1]])).err = none ∧
    (dispatch ⟨false⟩ acceptingVerifier
        (exampleCtx (Address.other 1) 5 9 (MinimumCollateralPerSector + 5)) exampleCommitted
        (Call.submitPoSt [[1]])).state.ActiveCollateral ≤
      balanceAfter (exampleCtx (Address.other 1) 5 9 (MinimumCollateralPerSector + 5))
        (dispatch ⟨false⟩ acceptingVerifier
          (exampleCtx (Address.other 1) 5 9 (MinimumCollateralPerSector + 5)) exampleCommitted
          (Call.submitPoSt [[1]])).events :=
  ⟨by decide,
    ((activeCollateral_le_balance ⟨false⟩ acceptingVerifier
      (exampleCtx (Address.other 1) 5 9 (MinimumCollateralPerSector + 5)) exampleCommitted
      (Call.submitPoSt [[1]]) (by decide)).2 [[1]] rfl (by decide)).1⟩

/-! ## Callers other than the owner -/

/-- C11: for each of `AddAsk`, `UpdatePeerID` and `SubmitPoSt`, a call with enough gas
whose caller is not the owner of the state fails with `ErrCallerUnauthorized`, code 37,
and the persisted state is the state before the call. -/
theorem unauthorized_caller_rejected (ma : Actor) (vf : Verifier) (ctx : VMContext) (st : State)
    (price : AttoFIL) (expiry : Int) (pid : peer_ID) (poStProofs : List Bytes)
    (hgas : ctx.Charge = none) (hne : ctx.Message.From ≠ st.Owner) :
    ((AddAsk ctx st price expiry).err = some (Errors ErrCallerUnauthorized) ∧
      (AddAsk ctx st price expiry).code = ExitCode.num 37 ∧
      (AddAsk ctx st price expiry).state = st) ∧
    ((UpdatePeerID ctx st pid).err = some (Errors ErrCallerUnauthorized) ∧
      (UpdatePeerID ctx st pid).code = ExitCode.num 37 ∧
      (UpdatePeerID ctx st pid).state = st) ∧
    ((SubmitPoSt ma vf ctx st poStProofs).err = some (Errors ErrCallerUnauthorized) ∧
      (SubmitPoSt ma vf ctx st poStProofs).code = ExitCode.num 37 ∧
      (SubmitPoSt ma vf ctx st poStProofs).state = st) := by
  refine ⟨?_, ?_, ?_⟩
  · simp [AddAsk, addAskBody, WithState, finish, hgas, hne, Errors, CodeError, ErrCallerUnauthorized]
  · simp [UpdatePeerID, updatePeerIDBody, WithState, finish, hgas, hne, Errors, CodeError,
      ErrCallerUnauthorized]
  · simp [SubmitPoSt, submitPoStBody, WithState, finish, hgas, hne, Errors, CodeError,
      ErrCallerUnauthorized]

/-- C11, for address 2 calling the miner of address 1. -/
theorem unauthorized_caller_rejected_witness :
    (SubmitPoSt ⟨true⟩ acceptingVerifier (exampleCtx (Address.other 2) 0 9 MinimumCollateralPerSector)
      exampleCommitted [[1]]).state = exampleCommitted ∧
    (AddAsk (exampleCtx (Address.other 2) 0 9 MinimumCollateralPerSector) exampleCommitted 10 20).err =
      some (Errors ErrCallerUnauthorized) :=
  ⟨(unauthorized_caller_rejected ⟨true⟩ acceptingVerifier
      (exampleCtx (Address.other 2) 0 9 MinimumCollateralPerSector) exampleCommitted 10 20 "p" [[1]]
      rfl (by decide)).2.2.2.2,
    (unauthorized_caller_rejected ⟨true⟩ acceptingVerifier
      (exampleCtx (Address.other 2) 0 9 MinimumCollateralPerSector) exampleCommitted 10 20 "p" [[1]]
      rfl (by decide)).1.1⟩

/-! ## Bootstrap actors -/

/-- C12: on an actor whose `Bootstrap` flag is true, the whole outcome of `CommitSector`
and of `SubmitPoSt` (return value, exit code, error, persisted state, collaborator calls)
is the same for every proof supplied and for every verifier. -/
theorem bootstrap_ignores_proofs (ma : Actor) (vf vf2 : Verifier) (ctx : VMContext) (st : State)
    (sectorID : Nat) (commD commR commRStar proof proof2 : Bytes) (poStProofs poStProofs2 : List Bytes)
    (hb : ma.Bootstrap = true) :
    CommitSector ma vf ctx st sectorID commD commR commRStar proof =
      CommitSector ma vf2 ctx st sectorID commD commR commRStar proof2 ∧
    SubmitPoSt ma vf ctx st poStProofs = SubmitPoSt ma vf2 ctx st poStProofs2 := by
  constructor
  · simp [CommitSector, commitSectorBody, sealCheck, hb]
  · simp [SubmitPoSt, submitPoStBody, postCheck, hb]

/-- C12, for a bootstrap actor with a verifier that accepts and one that rejects. -/
theorem bootstrap_ignores_proofs_witness :
    CommitSector ⟨true⟩ acceptingVerifier (exampleCtx (Address.other 1) 0 5 MinimumCollateralPerSector)
        exampleState 7 (exampleDigest 1) (exampleDigest 2) (exampleDigest 3) [1] =
      CommitSector ⟨true⟩ rejectingVerifier (exampleCtx (Address.other 1) 0 5 MinimumCollateralPerSector)
        exampleState 7 (exampleDigest 1) (exampleDigest 2) (exampleDigest 3) [2, 3] :=
  (bootstrap_ignores_proofs ⟨true⟩ acceptingVerifier rejectingVerifier
    (exampleCtx (Address.other 1) 0 5 MinimumCollateralPerSector) exampleState 7
    (exampleDigest 1) (exampleDigest 2) (exampleDigest 3) [1] [2, 3] [[1]] [[2]] rfl).1

/-! ## The start of the proving period at a commitment -/

theorem commitSectorUpdate_more_fields (ctx : VMContext) (st : State) (sectorID : Nat)
    (commD commR commRStar : Bytes) :
    (commitSectorUpdate ctx st sectorID commD commR commRStar).ProvingPeriodStart =
      (if st.Power = 0 then some ctx.BlockHeight else st.ProvingPeriodStart) ∧
    (commitSectorUpdate ctx st sectorID commD commR commRStar).LastUsedSectorID = sectorID := by
  by_cases hp : st.Power = 0 <;> simp [commitSectorUpdate, hp]

/-- C13 as stated fails: with a sector size of 0 the power stays 0, the state still
satisfies `Power = SectorSize × count`, and a second commitment resets the start of the
proving period. -/
theorem CommitSector_provingPeriodStart_counterexample :
    ¬ (∀ (ma : Actor) (vf : Verifier) (ctx : VMContext) (st : State) (sectorID : Nat)
        (commD commR commRStar proof : Bytes),
        st.Power = st.SectorSize * (mapLen st.SectorCommitments : Int) →
        (CommitSector ma vf ctx st sectorID commD commR commRStar proof).err = none →
        (mapLen st.SectorCommitments = 0 →
          (CommitSector ma vf ctx st sectorID commD commR commRStar proof).state.ProvingPeriodStart =
            some ctx.BlockHeight) ∧
        (1 ≤ mapLen st.SectorCommitments →
          (CommitSector ma vf ctx st sectorID commD commR commRStar proof).state.ProvingPeriodStart =
            st.ProvingPeriodStart)) := by
  intro h
  have h2 := (h ⟨false⟩ acceptingVerifier
    (exampleCtx (Address.other 1) 0 9 (2 * MinimumCollateralPerSector)) exampleZeroSizeCommitted 8
    (exampleDigest 1) (exampleDigest 2) (exampleDigest 3) [] (by decide) (by decide)).2 (by decide)
  revert h2
  decide

/-- C13, amended: for every state with `Power = SectorSize × count(SectorCommitments)` and
a sector size other than 0, and every successful `CommitSector` at height `h`: if no
sector was committed before the call, `ProvingPeriodStart` becomes `h`; if at least one
sector was committed, `ProvingPeriodStart` is left unchanged. -/
theorem CommitSector_provingPeriodStart (ma : Actor) (vf : Verifier) (ctx : VMContext) (st : State)
    (sectorID : Nat) (commD commR commRStar proof : Bytes)
    (hinv : st.Power = st.SectorSize * (mapLen st.SectorCommitments : Int))
    (hsize : st.SectorSize ≠ 0)
    (hok : (CommitSector ma vf ctx st sectorID commD commR commRStar proof).err = none) :
    (mapLen st.SectorCommitments = 0 →
      (CommitSector ma vf ctx st sectorID commD commR commRStar proof).state.ProvingPeriodStart =
        some ctx.BlockHeight) ∧
    (1 ≤ mapLen st.SectorCommitments →
      (CommitSector ma vf ctx st sectorID commD commR commRStar proof).state.ProvingPeriodStart =
        st.ProvingPeriodStart) := by
  rcases CommitSector_cases ma vf ctx st sectorID commD commR commRStar proof with h | h
  · rw [h.2.2.2, (commitSectorUpdate_more_fields ctx st sectorID commD commR commRStar).1]
    constructor
    · intro h0
      have hp : st.Power = 0 := by rw [hinv, h0]; simp
      simp [hp]
    · intro h1
      have hp : st.Power ≠ 0 := by
        rw [hinv]
        have hc : (mapLen st.SectorCommitments : Int) ≠ 0 := by
          have : mapLen st.SectorCommitments ≠ 0 := by omega
          exact_mod_cast this
        exact mul_ne_zero hsize hc
      simp [hp]
  · exact absurd hok h.2.1

/-- C13 amended, for a second sector of 1024 bytes committed at height 9. -/
theorem CommitSector_provingPeriodStart_witness :
    (CommitSector ⟨false⟩ acceptingVerifier
      (exampleCtx (Address.other 1) 0 9 (2 * MinimumCollateralPerSector)) exampleCommitted 8
      (exampleDigest 1) (exampleDigest 2) (exampleDigest 3) []).state.ProvingPeriodStart =
        exampleCommitted.ProvingPeriodStart :=
  (CommitSector_provingPeriodStart ⟨false⟩ acceptingVerifier
    (exampleCtx (Address.other 1) 0 9 (2 * MinimumCollateralPerSector)) exampleCommitted 8
    (exampleDigest 1) (exampleDigest 2) (exampleDigest 3) []
    (by decide) (by decide) (by decide)).2 (by decide)

/-! ## The last used sector id -/

/-- C14 as stated fails: `CommitSector` stores the sector id of the call, also when it is
smaller than the one stored before; after sector 7 and then sector 3 were committed on a
fresh miner, `LastUsedSectorID` is 3 while sector 7 is committed. -/
theorem lastUsedSectorID_counterexample :
    (¬ (∀ (ma : Actor) (vf : Verifier) (ctx : VMContext) (st : State) (sectorID : Nat)
        (commD commR commRStar proof : Bytes),
        (CommitSector ma vf ctx st sectorID commD commR commRStar proof).err = none →
        st.LastUsedSectorID ≤
          (CommitSector ma vf ctx st sectorID commD commR commRStar proof).state.LastUsedSectorID)) ∧
    (∃ st : State, ReachableFrom ⟨false⟩ (NewState (Address.other 1) [1, 2, 3] "peer" 1024) st ∧
      (mapGet st.SectorCommitments (sectorKey 7)).isSome = true ∧ st.LastUsedSectorID < 7) := by
  constructor
  · intro h
    have h2 := h ⟨false⟩ acceptingVerifier
      (exampleCtx (Address.other 1) 0 9 (2 * MinimumCollateralPerSector)) exampleCommitted 3
      (exampleDigest 1) (exampleDigest 2) (exampleDigest 3) [] (by decide)
    revert h2
    decide
  · refine ⟨(dispatch ⟨false⟩ acceptingVerifier
        (exampleCtx (Address.other 1) 0 9 (2 * MinimumCollateralPerSector))
        (dispatch ⟨false⟩ acceptingVerifier
          (exampleCtx (Address.other 1) 0 5 (2 * MinimumCollateralPerSector))
          (NewState (Address.other 1) [1, 2, 3] "peer" 1024)
          (Call.commitSector 7 (exampleDigest 1) (exampleDigest 2) (exampleDigest 3) [])).state
        (Call.commitSector 3 (exampleDigest 4) (exampleDigest 5) (exampleDigest 6) [])).state,
      ReachableFrom.step _ _ _ _ (ReachableFrom.step _ _ _ _ ReachableFrom.init), ?_, ?_⟩
    · decide
    · decide

theorem dispatch_keeps_lastUsed_committed (ma : Actor) (vf : Verifier) (ctx : VMContext) (st : State)
    (call : Call)
    (h : (mapLen st.SectorCommitments = 0 ∧ st.LastUsedSectorID = 0) ∨
      (mapGet st.SectorCommitments (sectorKey st.LastUsedSectorID)).isSome = true) :
    (mapLen (dispatch ma vf ctx st call).state.SectorCommitments = 0 ∧
        (dispatch ma vf ctx st call).state.LastUsedSectorID = 0) ∨
      (mapGet (dispatch ma vf ctx st call).state.SectorCommitments
        (sectorKey (dispatch ma vf ctx st call).state.LastUsedSectorID)).isSome = true := by
  rcases dispatch_cases ma vf ctx st call with ⟨sectorID, commD, commR, commRStar, proof, _, _, _, hst⟩ | hs
  · right
    rw [hst, (commitSectorUpdate_more_fields ctx st sectorID commD commR commRStar).2,
      (commitSectorUpdate_fields ctx st sectorID commD commR commRStar).2.2.1, mapGet_mapSet_self]
    rfl
  · rw [hs.1, hs.2.2.2.2.1]
    exact h

/-- C14, amended: `LastUsedSectorID` is the id of the sector committed last, not a
maximum. After every successful `CommitSector`, on any state, it equals the sector id of
the call; every exported call other than `CommitSector` leaves it unchanged; so in every
state reachable from `NewState` it is 0 with no sector committed, or else the id of a
committed sector. -/
theorem lastUsedSectorID_is_last_committed (ma : Actor) (owner : Address) (key : Bytes) (pid : peer_ID)
    (sectorSize : BytesAmount) (st : State)
    (hreach : ReachableFrom ma (NewState owner key pid sectorSize) st) :
    ((mapLen st.SectorCommitments = 0 ∧ st.LastUsedSectorID = 0) ∨
      (mapGet st.SectorCommitments (sectorKey st.LastUsedSectorID)).isSome = true) ∧
    (∀ (st2 : State) (vf : Verifier) (ctx : VMContext) (sectorID : Nat)
        (commD commR commRStar proof : Bytes),
      (CommitSector ma vf ctx st2 sectorID commD commR commRStar proof).err = none →
      (CommitSector ma vf ctx st2 sectorID commD commR commRStar proof).state.LastUsedSectorID =
        sectorID) ∧
    (∀ (st2 : State) (vf : Verifier) (ctx : VMContext) (call : Call),
      (∀ sectorID commD commR commRStar proof,
        call ≠ Call.commitSector sectorID commD commR commRStar proof) →
      (dispatch ma vf ctx st2 call).state.LastUsedSectorID = st2.LastUsedSectorID) := by
  refine ⟨?_, ?_, ?_⟩
  · induction hreach with
    | init => left; simp [NewState, mapLen]
    | step st vf ctx call _ ih => exact dispatch_keeps_lastUsed_committed ma vf ctx st call ih
  · intro st2 vf ctx sectorID commD commR commRStar proof hok
    rcases CommitSector_cases ma vf ctx st2 sectorID commD commR commRStar proof with h | h
    · rw [h.2.2.2]
      exact (commitSectorUpdate_more_fields ctx st2 sectorID commD commR commRStar).2
    · exact absurd hok h.2.1
  · intro st2 vf ctx call hcall
    rcases dispatch_cases ma vf ctx st2 call with ⟨sectorID, commD, commR, commRStar, proof, hc, _⟩ | hs
    · exact absurd hc (hcall sectorID commD commR commRStar proof)
    · exact hs.2.2.2.2.1

/-- C14 amended, after sector 7 and then sector 3 were committed on a fresh miner. -/
theorem lastUsedSectorID_is_last_committed_witness :
    ReachableFrom ⟨false⟩ (NewState (Address.other 1) [1, 2, 3] "peer" 1024)
      (dispatch ⟨false⟩ acceptingVerifier
        (exampleCtx (Address.other 1) 0 9 (2 * MinimumCollateralPerSector))
        (dispatch ⟨false⟩ acceptingVerifier
          (exampleCtx (Address.other 1) 0 5 (2 * MinimumCollateralPerSector))
          (NewState (Address.other 1) [1, 2, 3] "peer" 1024)
          (Call.commitSector 7 (exampleDigest 1) (exampleDigest 2) (exampleDigest 3) [])).state
        (Call.commitSector 3 (exampleDigest 4) (exampleDigest 5) (exampleDigest 6) [])).state ∧
    (CommitSector ⟨false⟩ acceptingVerifier
      (exampleCtx (Address.other 1) 0 9 (2 * MinimumCollateralPerSector)) exampleCommitted 3
      (exampleDigest 1) (exampleDigest 2) (exampleDigest 3) []).state.LastUsedSectorID = 3 :=
  ⟨ReachableFrom.step _ _ _ _ (ReachableFrom.step _ _ _ _ ReachableFrom.init),
    (lastUsedSectorID_is_last_committed ⟨false⟩ (Address.other 1) [1, 2, 3] "peer" 1024 _
      (ReachableFrom.step _ acceptingVerifier
        (exampleCtx (Address.other 1) 0 9 (2 * MinimumCollateralPerSector))
        (Call.commitSector 3 (exampleDigest 4) (exampleDigest 5) (exampleDigest 6) [])
        (ReachableFrom.step _ acceptingVerifier
          (exampleCtx (Address.other 1) 0 5 (2 * MinimumCollateralPerSector))
          (Call.commitSector 7 (exampleDigest 1) (exampleDigest 2) (exampleDigest 3) [])
          ReachableFrom.init))).2.1 exampleCommitted acceptingVerifier
      (exampleCtx (Address.other 1) 0 9 (2 * MinimumCollateralPerSector)) 3
      (exampleDigest 1) (exampleDigest 2) (exampleDigest 3) [] (by decide)⟩

/-! ## What `SubmitPoSt` does, case by case -/

theorem transfers_append (xs ys : List Event) : transfers (xs ++ ys) = transfers xs ++ transfers ys := by
  induction xs with
  | nil => simp [transfers]
  | cons e rest ih => cases e <;> simp [transfers, ih]

theorem postCheck_transfers (ma : Actor) (vf : Verifier) (ctx : VMContext) (st : State)
    (poStProofs : List Bytes) : transfers (postCheck ma vf ctx st poStProofs).1 = [] := by
  unfold postCheck
  split
  · simp [transfers]
  · split
    · simp [transfers]
    · dsimp only
      split <;> simp [transfers]

/-- An owner's `SubmitPoSt` with gas, within the grace deadline and with the fee covered,
when both transfers go through: the outcome is decided by the proof check. -/
theorem SubmitPoSt_paid (ma : Actor) (vf : Verifier) (ctx : VMContext) (st : State)
    (poStProofs : List Bytes) (start : BlockHeight)
    (hgas : ctx.Charge = none) (hown : ctx.Message.From = st.Owner)
    (hp : st.ProvingPeriodStart = some start)
    (h3 : ¬ (ctx.BlockHeight >
      start + (ProvingPeriodDuration st.SectorSize : Int) + GenerationAttackTime st.SectorSize))
    (h4 : ¬ (ctx.Message.Value < requiredFee ctx st start))
    (h5 : (ctx.Send 0 Address.BurntFundsAddress "" (requiredFee ctx st start) []).err = none)
    (h6 : ctx.Message.Value > requiredFee ctx st start →
      (ctx.Send 1 ctx.Message.From "" (ctx.Message.Value - requiredFee ctx st start) []).err = none) :
    ((postCheck ma vf ctx st poStProofs).2 = none →
      (SubmitPoSt ma vf ctx st poStProofs).err = none ∧
      (SubmitPoSt ma vf ctx st poStProofs).code = ExitCode.num 0 ∧
      (SubmitPoSt ma vf ctx st poStProofs).state = nextPeriodState ctx st start ∧
      (SubmitPoSt ma vf ctx st poStProofs).events =
        feeEvents ctx st start ++ (postCheck ma vf ctx st poStProofs).1) ∧
    (∀ e, (postCheck ma vf ctx st poStProofs).2 = some e →
      (SubmitPoSt ma vf ctx st poStProofs).err = some e ∧
      (SubmitPoSt ma vf ctx st poStProofs).state = st ∧
      (SubmitPoSt ma vf ctx st poStProofs).events =
        feeEvents ctx st start ++ (postCheck ma vf ctx st poStProofs).1) := by
  unfold requiredFee at h4 h5 h6
  rw [hown] at h6
  by_cases h8 : ctx.Message.Value >
      LatePoStFee st.ActiveCollateral (start + (ProvingPeriodDuration st.SectorSize : Int))
        ctx.BlockHeight (GenerationAttackTime st.SectorSize)
  · have h7 := h6 h8
    constructor
    · intro hchk
      simp [SubmitPoSt, submitPoStBody, WithState, finish, hgas, hown, hp, h3, h4, h5, h7, h8, hchk,
        nextPeriodState, feeEvents, requiredFee]
    · intro e hchk
      simp [SubmitPoSt, submitPoStBody, WithState, finish, hgas, hown, hp, h3, h4, h5, h7, h8, hchk,
        feeEvents, requiredFee]
  · constructor
    · intro hchk
      simp [SubmitPoSt, submitPoStBody, WithState, finish, hgas, hown, hp, h3, h4, h5, h8, hchk,
        nextPeriodState, feeEvents, requiredFee]
    · intro e hchk
      simp [SubmitPoSt, submitPoStBody, WithState, finish, hgas, hown, hp, h3, h4, h5, h8, hchk,
        feeEvents, requiredFee]

/-- A `SubmitPoSt` that returns no error passed every check. -/
theorem SubmitPoSt_success_inv (ma : Actor) (vf : Verifier) (ctx : VMContext) (st : State)
    (poStProofs : List Bytes) (hok : (SubmitPoSt ma vf ctx st poStProofs).err = none) :
    ctx.Charge = none ∧ ctx.Message.From = st.Owner ∧
    ∃ start : BlockHeight, st.ProvingPeriodStart = some start ∧
      postAccepted ma vf ctx st poStProofs start := by
  cases hc : ctx.Charge with
  | some e => simp [SubmitPoSt, hc, insufficientGas] at hok
  | none =>
    by_cases h1 : ctx.Message.From = st.Owner
    swap; · simp [SubmitPoSt, submitPoStBody, WithState, finish, hc, h1] at hok
    cases h2 : st.ProvingPeriodStart with
    | none => simp [SubmitPoSt, submitPoStBody, WithState, finish, hc, h1, h2] at hok
    | some start =>
      refine ⟨rfl, h1, start, rfl, ?_⟩
      unfold postAccepted requiredFee
      by_cases h3 : ctx.BlockHeight >
          start + (ProvingPeriodDuration st.SectorSize : Int) + GenerationAttackTime st.SectorSize
      · simp [SubmitPoSt, submitPoStBody, WithState, finish, hc, h1, h2, h3] at hok
      by_cases h4 : ctx.Message.Value <
          LatePoStFee st.ActiveCollateral (start + (ProvingPeriodDuration st.SectorSize : Int))
            ctx.BlockHeight (GenerationAttackTime st.SectorSize)
      · simp [SubmitPoSt, submitPoStBody, WithState, finish, hc, h1, h2, h3, h4] at hok
      cases h5 : (ctx.Send 0 Address.BurntFundsAddress ""
          (LatePoStFee st.ActiveCollateral (start + (ProvingPeriodDuration st.SectorSize : Int))
            ctx.BlockHeight (GenerationAttackTime st.SectorSize)) []).err with
      | some e => simp [SubmitPoSt, submitPoStBody, WithState, finish, hc, h1, h2, h3, h4, h5] at hok
      | none =>
        refine ⟨h3, h4, rfl, ?_, ?_⟩
        · intro h8
          rw [h1]
          cases h6 : (ctx.Send 1 st.Owner ""
              (ctx.Message.Value -
                LatePoStFee st.ActiveCollateral (start + (ProvingPeriodDuration st.SectorSize : Int))
                  ctx.BlockHeight (GenerationAttackTime st.SectorSize)) []).err with
          | some e =>
            simp [SubmitPoSt, submitPoStBody, WithState, finish, hc, h1, h2, h3, h4, h5, h6, h8] at hok
          | none => rfl
        · by_cases h8 : ctx.Message.Value >
              LatePoStFee st.ActiveCollateral (start + (ProvingPeriodDuration st.SectorSize : Int))
                ctx.BlockHeight (GenerationAttackTime st.SectorSize)
          · cases h6 : (ctx.Send 1 st.Owner ""
                (ctx.Message.Value -
                  LatePoStFee st.ActiveCollateral (start + (ProvingPeriodDuration st.SectorSize : Int))
                    ctx.BlockHeight (GenerationAttackTime st.SectorSize)) []).err with
            | some e =>
              simp [SubmitPoSt, submitPoStBody, WithState, finish, hc, h1, h2, h3, h4, h5, h6, h8] at hok
            | none =>
              cases h7 : (postCheck ma vf ctx st poStProofs).2 with
              | some e =>
                simp [SubmitPoSt, submitPoStBody, WithState, finish, hc, h1, h2, h3, h4, h5, h6, h7, h8]
                  at hok
              | none => rfl
          · cases h7 : (postCheck ma vf ctx st poStProofs).2 with
            | some e =>
              simp [SubmitPoSt, submitPoStBody, WithState, finish, hc, h1, h2, h3, h4, h5, h7, h8] at hok
            | none => rfl

/-- A `SubmitPoSt` that returns no error: the state it commits and the collaborator calls
it made. -/
theorem SubmitPoSt_success_run (ma : Actor) (vf : Verifier) (ctx : VMContext) (st : State)
    (poStProofs : List Bytes) (start : BlockHeight)
    (hok : (SubmitPoSt ma vf ctx st poStProofs).err = none)
    (hp : st.ProvingPeriodStart = some start) :
    ¬ (ctx.Message.Value < requiredFee ctx st start) ∧
    (SubmitPoSt ma vf ctx st poStProofs).state = nextPeriodState ctx st start ∧
    (SubmitPoSt ma vf ctx st poStProofs).events =
      feeEvents ctx st start ++ (postCheck ma vf ctx st poStProofs).1 := by
  obtain ⟨hgas, hown, start2, hp2, hacc⟩ := SubmitPoSt_success_inv ma vf ctx st poStProofs hok
  have hs : start2 = start := by
    rw [hp] at hp2
    exact (Option.some.inj hp2).symm
  subst hs
  obtain ⟨h3, h4, h5, h6, h7⟩ := hacc
  have hrun := (SubmitPoSt_paid ma vf ctx st poStProofs start2 hgas hown hp h3 h4 h5 h6).1 h7
  exact ⟨h4, hrun.2.2.1, hrun.2.2.2⟩

theorem requiredFee_eq (ctx : VMContext) (st : State) (start : BlockHeight) :
    requiredFee ctx st start = LatePoStFee st.ActiveCollateral (start + 20000) ctx.BlockHeight 100 := by
  rfl

/-! ## Submitting a proof of spacetime -/

/-- C15: a successful `SubmitPoSt` at height `h` on a state whose proving period starts at
`p` sets `ProvingPeriodStart` to `p + ProvingPeriodDuration(SectorSize)`, which is
`p + 20000`, sets `LastPoSt` to `h`, and leaves every other field as it was, the active
collateral included, whatever fee was charged. -/
theorem SubmitPoSt_success_effect (ma : Actor) (vf : Verifier) (ctx : VMContext) (st : State)
    (poStProofs : List Bytes) (p : BlockHeight)
    (hok : (SubmitPoSt ma vf ctx st poStProofs).err = none)
    (hp : st.ProvingPeriodStart = some p) :
    (SubmitPoSt ma vf ctx st poStProofs).state.ProvingPeriodStart = some (p + 20000) ∧
    p + (ProvingPeriodDuration st.SectorSize : Int) = p + 20000 ∧
    (SubmitPoSt ma vf ctx st poStProofs).state.LastPoSt = some ctx.BlockHeight ∧
    (SubmitPoSt ma vf ctx st poStProofs).state.Owner = st.Owner ∧
    (SubmitPoSt ma vf ctx st poStProofs).state.PeerID = st.PeerID ∧
    (SubmitPoSt ma vf ctx st poStProofs).state.PublicKey = st.PublicKey ∧
    (SubmitPoSt ma vf ctx st poStProofs).state.ActiveCollateral = st.ActiveCollateral ∧
    (SubmitPoSt ma vf ctx st poStProofs).state.Asks = st.Asks ∧
    (SubmitPoSt ma vf ctx st poStProofs).state.NextAskID = st.NextAskID ∧
    (SubmitPoSt ma vf ctx st poStProofs).state.SectorCommitments = st.SectorCommitments ∧
    (SubmitPoSt ma vf ctx st poStProofs).state.LastUsedSectorID = st.LastUsedSectorID ∧
    (SubmitPoSt ma vf ctx st poStProofs).state.Power = st.Power ∧
    (SubmitPoSt ma vf ctx st poStProofs).state.SectorSize = st.SectorSize := by
  have hst := (SubmitPoSt_success_run ma vf ctx st poStProofs p hok hp).2.1
  rw [hst]
  refine ⟨rfl, rfl, rfl, rfl, rfl, rfl, rfl, rfl, rfl, rfl, rfl, rfl, rfl⟩

/-- C15, for a proof submitted 50 rounds late with half the collateral as fee. -/
theorem SubmitPoSt_success_effect_witness :
    (SubmitPoSt ⟨false⟩ acceptingVerifier
        (exampleCtx (Address.other 1) 500000000000000 20055 (2 * MinimumCollateralPerSector))
        exampleCommitted [[1]]).err = none ∧
    (SubmitPoSt ⟨false⟩ acceptingVerifier
        (exampleCtx (Address.other 1) 500000000000000 20055 (2 * MinimumCollateralPerSector))
        exampleCommitted [[1]]).state.ActiveCollateral = exampleCommitted.ActiveCollateral :=
  ⟨by decide,
    (SubmitPoSt_success_effect ⟨false⟩ acceptingVerifier
      (exampleCtx (Address.other 1) 500000000000000 20055 (2 * MinimumCollateralPerSector))
      exampleCommitted [[1]] 5 (by decide) (by decide)).2.2.2.2.2.2.1⟩

/-- C16: on a state whose proving period starts at `p`, every `SubmitPoSt` at a height
above `p + ProvingPeriodDuration + GenerationAttackTime`, which is `p + 20100`, is
rejected, for every proof, message value, caller, gas and bootstrap flag; no transfer is
made and the state is unchanged. -/
theorem SubmitPoSt_after_grace (ma : Actor) (vf : Verifier) (ctx : VMContext) (st : State)
    (poStProofs : List Bytes) (p : BlockHeight)
    (hp : st.ProvingPeriodStart = some p)
    (hlate : ctx.BlockHeight > p + 20100) :
    (SubmitPoSt ma vf ctx st poStProofs).err ≠ none ∧
    (SubmitPoSt ma vf ctx st poStProofs).state = st ∧
    (SubmitPoSt ma vf ctx st poStProofs).events = [] ∧
    p + (ProvingPeriodDuration st.SectorSize : Int) + GenerationAttackTime st.SectorSize = p + 20100 ∧
    (ctx.Charge = none → ctx.Message.From = st.Owner →
      (SubmitPoSt ma vf ctx st poStProofs).err =
        some (VMError.revert "PoSt submitted later than grace period after proving period end")) := by
  have hconst : p + (ProvingPeriodDuration st.SectorSize : Int) + GenerationAttackTime st.SectorSize =
      p + 20100 := by
    simp only [ProvingPeriodDuration, GenerationAttackTime, LargestSectorSizeProvingPeriodBlocks,
      LargestSectorGenerationAttackThresholdBlocks]
    push_cast
    ring
  have h3 : ctx.BlockHeight >
      p + (ProvingPeriodDuration st.SectorSize : Int) + GenerationAttackTime st.SectorSize := by
    rw [hconst]
    exact hlate
  cases hc : ctx.Charge with
  | some e => simp [SubmitPoSt, hc, insufficientGas, hconst]
  | none =>
    by_cases h1 : ctx.Message.From = st.Owner
    · refine ⟨?_, ?_, ?_, hconst, fun _ _ => ?_⟩
      all_goals simp [SubmitPoSt, submitPoStBody, WithState, finish, hc, h1, hp, h3]
    · refine ⟨?_, ?_, ?_, hconst, fun _ h => absurd h h1⟩
      all_goals simp [SubmitPoSt, submitPoStBody, WithState, finish, hc, h1]

/-- C16, one round after the grace deadline, on a bootstrap actor. -/
theorem SubmitPoSt_after_grace_witness :
    (SubmitPoSt ⟨true⟩ acceptingVerifier
      (exampleCtx (Address.other 1) MinimumCollateralPerSector 20106 (2 * MinimumCollateralPerSector))
      exampleCommitted [[1]]).state = exampleCommitted :=
  (SubmitPoSt_after_grace ⟨true⟩ acceptingVerifier
    (exampleCtx (Address.other 1) MinimumCollateralPerSector 20106 (2 * MinimumCollateralPerSector))
    exampleCommitted [[1]] 5 (by decide) (by decide)).2.1

/-- C17: for an owner's `SubmitPoSt` with gas within the grace deadline, with
`fee = LatePoStFee(ActiveCollateral, p + 20000, height, 100)`: a message value strictly
below the fee is rejected with a revert error, no transfer (no burn, no refund) and no
state change; and a `SubmitPoSt` that succeeds has a message value of at least the fee. -/
theorem SubmitPoSt_fee_not_covered (ma : Actor) (vf : Verifier) (ctx : VMContext) (st : State)
    (poStProofs : List Bytes) (p : BlockHeight)
    (hgas : ctx.Charge = none) (hown : ctx.Message.From = st.Owner)
    (hp : st.ProvingPeriodStart = some p)
    (hwithin : ctx.BlockHeight ≤ p + 20100) :
    (ctx.Message.Value < LatePoStFee st.ActiveCollateral (p + 20000) ctx.BlockHeight 100 →
      (SubmitPoSt ma vf ctx st poStProofs).err =
        some (VMError.revert "PoSt message requires value to cover fees") ∧
      (SubmitPoSt ma vf ctx st poStProofs).code = ExitCode.num 1 ∧
      (SubmitPoSt ma vf ctx st poStProofs).state = st ∧
      (SubmitPoSt ma vf ctx st poStProofs).events = []) ∧
    ((SubmitPoSt ma vf ctx st poStProofs).err = none →
      LatePoStFee st.ActiveCollateral (p + 20000) ctx.BlockHeight 100 ≤ ctx.Message.Value) := by
  constructor
  · intro hlow
    have h3 : ¬ (ctx.BlockHeight >
        p + (ProvingPeriodDuration st.SectorSize : Int) + GenerationAttackTime st.SectorSize) := by
      have hconst : p + (ProvingPeriodDuration st.SectorSize : Int) +
          GenerationAttackTime st.SectorSize = p + 20100 := by
        simp only [ProvingPeriodDuration, GenerationAttackTime, LargestSectorSizeProvingPeriodBlocks,
          LargestSectorGenerationAttackThresholdBlocks]
        push_cast
        ring
      rw [hconst]
      exact not_lt.mpr hwithin
    have h4 : ctx.Message.Value <
        LatePoStFee st.ActiveCollateral (p + (ProvingPeriodDuration st.SectorSize : Int))
          ctx.BlockHeight (GenerationAttackTime st.SectorSize) := hlow
    simp [SubmitPoSt, submitPoStBody, WithState, finish, hgas, hown, hp, h3, h4, CodeError]
  · intro hok
    have h := (SubmitPoSt_success_run ma vf ctx st poStProofs p hok hp).1
    rw [requiredFee_eq] at h
    exact not_lt.mp h

/-- C17, for a proof 50 rounds late that comes with one attoFIL less than the fee. -/
theorem SubmitPoSt_fee_not_covered_witness :
    (SubmitPoSt ⟨false⟩ acceptingVerifier
      (exampleCtx (Address.other 1) 499999999999999 20055 (2 * MinimumCollateralPerSector))
      exampleCommitted [[1]]).events = [] :=
  ((SubmitPoSt_fee_not_covered ⟨false⟩ acceptingVerifier
    (exampleCtx (Address.other 1) 499999999999999 20055 (2 * MinimumCollateralPerSector))
    exampleCommitted [[1]] 5 rfl (by decide) (by decide) (by decide)).1 (by decide)).2.2.2

/-- C18: a successful `SubmitPoSt` with message value `v` and required fee `f` makes these
transfers and no other: `f` to the burnt-funds address, then `v - f` to the caller when
`v > f`, and no refund when `v = f`. The amounts sent add up to `v`, so the balance after
the call is the balance before the message value was credited. -/
theorem SubmitPoSt_burn_and_refund (ma : Actor) (vf : Verifier) (ctx : VMContext) (st : State)
    (poStProofs : List Bytes) (p : BlockHeight)
    (hok : (SubmitPoSt ma vf ctx st poStProofs).err = none)
    (hp : st.ProvingPeriodStart = some p) :
    LatePoStFee st.ActiveCollateral (p + 20000) ctx.BlockHeight 100 ≤ ctx.Message.Value ∧
    (ctx.Message.Value > LatePoStFee st.ActiveCollateral (p + 20000) ctx.BlockHeight 100 →
      transfers (SubmitPoSt ma vf ctx st poStProofs).events =
        [(Address.BurntFundsAddress, LatePoStFee st.ActiveCollateral (p + 20000) ctx.BlockHeight 100),
         (ctx.Message.From,
           ctx.Message.Value - LatePoStFee st.ActiveCollateral (p + 20000) ctx.BlockHeight 100)]) ∧
    (ctx.Message.Value = LatePoStFee st.ActiveCollateral (p + 20000) ctx.BlockHeight 100 →
      transfers (SubmitPoSt ma vf ctx st poStProofs).events =
        [(Address.BurntFundsAddress, LatePoStFee st.ActiveCollateral (p + 20000) ctx.BlockHeight 100)]) ∧
    sentValue (SubmitPoSt ma vf ctx st poStProofs).events = ctx.Message.Value ∧
    balanceAfter ctx (SubmitPoSt ma vf ctx st poStProofs).events =
      ctx.MyBalance - ctx.Message.Value ∧
    ctx.MyBalance - ctx.Message.Value ≤ balanceAfter ctx (SubmitPoSt ma vf ctx st poStProofs).events := by
  obtain ⟨hfee, _, hev⟩ := SubmitPoSt_success_run ma vf ctx st poStProofs p hok hp
  have htr : transfers (SubmitPoSt ma vf ctx st poStProofs).events =
      transfers (feeEvents ctx st p) := by
    rw [hev, transfers_append, postCheck_transfers, List.append_nil]
  obtain ⟨_, _, _, _, hsent⟩ := SubmitPoSt_success ma vf ctx st poStProofs hok
  rw [requiredFee_eq] at hfee
  have hbal : balanceAfter ctx (SubmitPoSt ma vf ctx st poStProofs).events =
      ctx.MyBalance - ctx.Message.Value := by
    simp [balanceAfter, hsent]
  refine ⟨not_lt.mp hfee, fun hgt => ?_, fun heq => ?_, hsent, hbal, le_of_eq hbal.symm⟩
  · rw [htr]
    simp [feeEvents, requiredFee_eq, hgt, transfers]
  · have hngt : ¬ (ctx.Message.Value >
        LatePoStFee st.ActiveCollateral (p + 20000) ctx.BlockHeight 100) := by
      rw [heq]
      exact lt_irrefl _
    rw [htr]
    simp [feeEvents, requiredFee_eq, hngt, transfers]

/-- C18, for a proof 50 rounds late that overpays the fee by 7 attoFIL. -/
theorem SubmitPoSt_burn_and_refund_witness :
    (SubmitPoSt ⟨false⟩ acceptingVerifier
        (exampleCtx (Address.other 1) 500000000000007 20055 (2 * MinimumCollateralPerSector))
        exampleCommitted [[1]]).err = none ∧
    transfers (SubmitPoSt ⟨false⟩ acceptingVerifier
        (exampleCtx (Address.other 1) 500000000000007 20055 (2 * MinimumCollateralPerSector))
        exampleCommitted [[1]]).events =
      [(Address.BurntFundsAddress, 500000000000000), (Address.other 1, 7)] :=
  ⟨by decide,
    ((SubmitPoSt_burn_and_refund ⟨false⟩ acceptingVerifier
      (exampleCtx (Address.other 1) 500000000000007 20055 (2 * MinimumCollateralPerSector))
      exampleCommitted [[1]] 5 (by decide) (by decide)).2.1 (by decide)).trans (by decide)⟩

theorem postCheck_passed (ma : Actor) (vf : Verifier) (ctx : VMContext) (st : State)
    (poStProofs : List Bytes)
    (h : ma.Bootstrap = true ∨
      ∃ seed, ctx.SampleChainRandomness st.ProvingPeriodStart = Except.ok seed ∧
        vf.VerifyPoST (postRequest st seed poStProofs) = Except.ok true) :
    (postCheck ma vf ctx st poStProofs).2 = none := by
  unfold postCheck
  rcases h with h | ⟨seed, hs, hv⟩
  · simp [h]
  · by_cases hb : ma.Bootstrap = true
    · simp [hb]
    · simp [hb, hs, hv]

/-- C19: for an owner's `SubmitPoSt` with gas at a height `h ≤ p + 20000`, where `p` is the
start of the proving period (so zero or fewer rounds late, in particular exactly at the
end of the period), the required fee is zero. With a proof the verifier accepts, or on a
bootstrap actor, and with transfers that go through, the call succeeds for every message
value from zero up; the amount sent to the burnt-funds address is 0 and the whole message
value is sent back. -/
theorem SubmitPoSt_on_time (ma : Actor) (vf : Verifier) (ctx : VMContext) (st : State)
    (poStProofs : List Bytes) (p : BlockHeight)
    (hgas : ctx.Charge = none) (hown : ctx.Message.From = st.Owner)
    (hp : st.ProvingPeriodStart = some p)
    (hh : ctx.BlockHeight ≤ p + 20000)
    (hv : 0 ≤ ctx.Message.Value)
    (hburn : (ctx.Send 0 Address.BurntFundsAddress "" 0 []).err = none)
    (hrefund : 0 < ctx.Message.Value →
      (ctx.Send 1 ctx.Message.From "" ctx.Message.Value []).err = none)
    (hproof : ma.Bootstrap = true ∨
      ∃ seed, ctx.SampleChainRandomness (some p) = Except.ok seed ∧
        vf.VerifyPoST (postRequest st seed poStProofs) = Except.ok true) :
    LatePoStFee st.ActiveCollateral (p + 20000) ctx.BlockHeight 100 = 0 ∧
    (SubmitPoSt ma vf ctx st poStProofs).err = none ∧
    (SubmitPoSt ma vf ctx st poStProofs).code = ExitCode.num 0 ∧
    (SubmitPoSt ma vf ctx st poStProofs).state = nextPeriodState ctx st p ∧
    transfers (SubmitPoSt ma vf ctx st poStProofs).events =
      (Address.BurntFundsAddress, 0) ::
        (if 0 < ctx.Message.Value then [(ctx.Message.From, ctx.Message.Value)] else []) := by
  have hfee0 : LatePoStFee st.ActiveCollateral (p + 20000) ctx.BlockHeight 100 = 0 := by
    have h1 : ¬ (ctx.BlockHeight - (p + 20000) ≥ 100) := by
      intro h
      linarith
    have h2 : ¬ (ctx.BlockHeight - (p + 20000) > 0) := by
      intro h
      linarith
    unfold LatePoStFee
    simp only [h1, h2, if_false]
  have hfee : requiredFee ctx st p = 0 := by
    rw [requiredFee_eq]
    exact hfee0
  have h3 : ¬ (ctx.BlockHeight >
      p + (ProvingPeriodDuration st.SectorSize : Int) + GenerationAttackTime st.SectorSize) := by
    have hconst : p + (ProvingPeriodDuration st.SectorSize : Int) +
        GenerationAttackTime st.SectorSize = p + 20100 := by
      simp only [ProvingPeriodDuration, GenerationAttackTime, LargestSectorSizeProvingPeriodBlocks,
        LargestSectorGenerationAttackThresholdBlocks]
      push_cast
      ring
    rw [hconst]
    intro h
    linarith
  have h4 : ¬ (ctx.Message.Value < requiredFee ctx st p) := by
    rw [hfee]
    exact not_lt.mpr hv
  have h5 : (ctx.Send 0 Address.BurntFundsAddress "" (requiredFee ctx st p) []).err = none := by
    rw [hfee]
    exact hburn
  have h6 : ctx.Message.Value > requiredFee ctx st p →
      (ctx.Send 1 ctx.Message.From "" (ctx.Message.Value - requiredFee ctx st p) []).err = none := by
    rw [hfee, sub_zero]
    exact hrefund
  have hchk : (postCheck ma vf ctx st poStProofs).2 = none := by
    apply postCheck_passed
    rw [hp]
    exact hproof
  obtain ⟨herr, hcode, hst, hev⟩ :=
    (SubmitPoSt_paid ma vf ctx st poStProofs p hgas hown hp h3 h4 h5 h6).1 hchk
  refine ⟨hfee0, herr, hcode, hst, ?_⟩
  rw [hev, transfers_append, postCheck_transfers, List.append_nil]
  by_cases hpos : 0 < ctx.Message.Value
  · simp [feeEvents, hfee, hpos, transfers]
  · simp [feeEvents, hfee, hpos, transfers]

/-- C19, for a proof sent exactly at the end of the proving period with message value 0
to an actor that verifies it. -/
theorem SubmitPoSt_on_time_witness :
    (SubmitPoSt ⟨false⟩ acceptingVerifier
      (exampleCtx (Address.other 1) 0 20005 MinimumCollateralPerSector)
      exampleCommitted [[1]]).err = none ∧
    transfers (SubmitPoSt ⟨false⟩ acceptingVerifier
      (exampleCtx (Address.other 1) 0 20005 MinimumCollateralPerSector)
      exampleCommitted [[1]]).events = [(Address.BurntFundsAddress, 0)] :=
  ⟨(SubmitPoSt_on_time ⟨false⟩ acceptingVerifier
      (exampleCtx (Address.other 1) 0 20005 MinimumCollateralPerSector) exampleCommitted [[1]] 5
      rfl (by decide) (by decide) (by decide) (by decide) rfl (fun _ => rfl)
      (Or.inr ⟨[], rfl, rfl⟩)).2.1,
    (SubmitPoSt_on_time ⟨false⟩ acceptingVerifier
      (exampleCtx (Address.other 1) 0 20005 MinimumCollateralPerSector) exampleCommitted [[1]] 5
      rfl (by decide) (by decide) (by decide) (by decide) rfl (fun _ => rfl)
      (Or.inr ⟨[], rfl, rfl⟩)).2.2.2.2.trans (by decide)⟩

/-! ## The late fee of an on-time submission -/

/-- C20: the fee of an on-time submission (`chainHeight ≤ provingPeriodEnd`) against the
docstring of `LatePoStFee`, "If the submission is on-time, the fee is zero". For every
pledge collateral and proving period end the fee is zero whenever `maxRoundsLate` is
greater than `chainHeight - provingPeriodEnd`, and so for every positive `maxRoundsLate`.
For `maxRoundsLate ≤ chainHeight - provingPeriodEnd` the test `roundsLate ≥ maxRoundsLate`,
which comes first, returns the whole pledge: an on-time submission with
`maxRoundsLate = 0` is charged everything. -/
theorem LatePoStFee_on_time (pledgeCollateral provingPeriodEnd chainHeight maxRoundsLate : Int)
    (hh : chainHeight ≤ provingPeriodEnd) :
    (chainHeight - provingPeriodEnd < maxRoundsLate →
      LatePoStFee pledgeCollateral provingPeriodEnd chainHeight maxRoundsLate = 0) ∧
    (0 < maxRoundsLate →
      LatePoStFee pledgeCollateral provingPeriodEnd chainHeight maxRoundsLate = 0) ∧
    (maxRoundsLate ≤ chainHeight - provingPeriodEnd →
      LatePoStFee pledgeCollateral provingPeriodEnd chainHeight maxRoundsLate =
        pledgeCollateral) ∧
    LatePoStFee pledgeCollateral provingPeriodEnd provingPeriodEnd 0 = pledgeCollateral := by
  have key : chainHeight - provingPeriodEnd < maxRoundsLate →
      LatePoStFee pledgeCollateral provingPeriodEnd chainHeight maxRoundsLate = 0 := by
    intro hm
    have h1 : ¬ (chainHeight - provingPeriodEnd ≥ maxRoundsLate) := not_le.mpr hm
    have h2 : ¬ (chainHeight - provingPeriodEnd > 0) := by
      intro h
      linarith
    unfold LatePoStFee
    simp only [h1, h2, if_false]
  refine ⟨key, fun hpos => key ?_, ?_, ?_⟩
  · linarith
  · intro hm
    have h1 : chainHeight - provingPeriodEnd ≥ maxRoundsLate := hm
    unfold LatePoStFee
    simp only [h1, if_true]
  · have h1 : provingPeriodEnd - provingPeriodEnd ≥ (0 : Int) := by
      rw [sub_self]
    unfold LatePoStFee
    simp only [h1, if_true]

/-- C20, for a submission 10 rounds early with a grace window of 100, which pays nothing,
and for a submission exactly at the end of the proving period with `maxRoundsLate = 0`,
which pays the whole pledge of 1000. -/
theorem LatePoStFee_on_time_witness :
    LatePoStFee 1000 50 40 100 = 0 ∧ LatePoStFee 1000 50 50 0 = 1000 :=
  ⟨(LatePoStFee_on_time 1000 50 40 100 (by decide)).2.1 (by decide),
    (LatePoStFee_on_time 1000 50 50 0 (by decide)).2.2.1 (by decide)⟩

/-- C21: `LatePoStFee` is monotonically non-decreasing in the chain height: for every
non-negative pledge collateral, every proving period end and `maxRoundsLate`, and all
heights `h1 ≤ h2`, the fee at `h1` is at most the fee at `h2`. -/
theorem LatePoStFee_monotone (c provingPeriodEnd h1 h2 maxRoundsLate : Int)
    (hc : 0 ≤ c) (hh : h1 ≤ h2) :
    LatePoStFee c provingPeriodEnd h1 maxRoundsLate ≤
      LatePoStFee c provingPeriodEnd h2 maxRoundsLate := by
  unfold LatePoStFee
  simp only []
  by_cases a2 : h2 - provingPeriodEnd ≥ maxRoundsLate
  · rw [if_pos a2]
    by_cases a1 : h1 - provingPeriodEnd ≥ maxRoundsLate
    · rw [if_pos a1]
    · rw [if_neg a1]
      by_cases b1 : h1 - provingPeriodEnd > 0
      · rw [if_pos b1]
        have hm : 0 < maxRoundsLate := by linarith
        apply Int.ediv_le_of_le_mul hm
        have : h1 - provingPeriodEnd ≤ maxRoundsLate := by linarith
        exact mul_le_mul_of_nonneg_left this hc
      · rw [if_neg b1]
        exact hc
  · rw [if_neg a2]
    have a1 : ¬ (h1 - provingPeriodEnd ≥ maxRoundsLate) := by
      intro h
      apply a2
      linarith
    rw [if_neg a1]
    by_cases b2 : h2 - provingPeriodEnd > 0
    · rw [if_pos b2]
      have hm : 0 < maxRoundsLate := by linarith
      by_cases b1 : h1 - provingPeriodEnd > 0
      · rw [if_pos b1]
        apply Int.ediv_le_ediv hm
        have : h1 - provingPeriodEnd ≤ h2 - provingPeriodEnd := by linarith
        exact mul_le_mul_of_nonneg_left this hc
      · rw [if_neg b1]
        exact Int.ediv_nonneg (mul_nonneg hc (le_of_lt b2)) (le_of_lt hm)
    · rw [if_neg b2]
      have b1 : ¬ (h1 - provingPeriodEnd > 0) := by
        intro h
        apply b2
        linarith
      rw [if_neg b1]

/-- C21, between 30 and 60 rounds late with a collateral of 1000. -/
theorem LatePoStFee_monotone_witness :
    LatePoStFee 1000 20000 20030 100 ≤ LatePoStFee 1000 20000 20060 100 :=
  LatePoStFee_monotone 1000 20000 20030 20060 100 (by decide) (by decide)

/-! ## Asks -/

theorem AddAsk_cases (ctx : VMContext) (st : State) (price : AttoFIL) (expiry : Int) :
    (ctx.Charge = none ∧ ctx.Message.From = st.Owner ∧ IsUint64 expiry = true ∧
      (AddAsk ctx st price expiry).err = none ∧
      (AddAsk ctx st price expiry).code = ExitCode.num 0 ∧
      (AddAsk ctx st price expiry).ret = some st.NextAskID ∧
      (AddAsk ctx st price expiry).state = addAskUpdate ctx st price expiry) ∨
    (¬ (ctx.Charge = none ∧ ctx.Message.From = st.Owner ∧ IsUint64 expiry = true) ∧
      (AddAsk ctx st price expiry).err ≠ none ∧
      (AddAsk ctx st price expiry).ret = none ∧
      (AddAsk ctx st price expiry).state = st) := by
  cases hc : ctx.Charge with
  | some e => right; simp [AddAsk, hc, insufficientGas]
  | none =>
    by_cases h1 : ctx.Message.From = st.Owner
    swap; · right; simp [AddAsk, addAskBody, WithState, finish, hc, h1]
    by_cases h2 : IsUint64 expiry = true
    · left; simp [AddAsk, addAskBody, WithState, finish, hc, h1, h2, addAskUpdate]
    · right; simp [AddAsk, addAskBody, WithState, finish, hc, h1, h2]

theorem runAddAsks_ids (calls : List AddAskCall) (st : State) :
    (runAddAsks st calls).1 =
      (List.range (runAddAsks st calls).1.length).map (fun (i : Nat) => st.NextAskID + (i : Int)) ∧
    (runAddAsks st calls).2.NextAskID = st.NextAskID + ((runAddAsks st calls).1.length : Int) := by
  induction calls generalizing st with
  | nil => simp [runAddAsks]
  | cons c rest ih =>
    rcases AddAsk_cases c.ctx st c.price c.expiry with h | h
    · obtain ⟨_, _, _, _, _, hret, hst⟩ := h
      have ih2 := ih (AddAsk c.ctx st c.price c.expiry).state
      have hn : (AddAsk c.ctx st c.price c.expiry).state.NextAskID = st.NextAskID + 1 := by
        rw [hst]; rfl
      rw [hn] at ih2
      simp only [runAddAsks, hret]
      constructor
      · rw [List.length_cons, List.range_succ_eq_map, List.map_cons, List.map_map]
        congr 1
        · simp
        · conv_lhs => rw [ih2.1]
          apply List.map_congr_left
          intro i _
          simp only [Function.comp, Nat.succ_eq_add_one]
          push_cast
          ring
      · rw [ih2.2, List.length_cons]
        push_cast
        ring
    · obtain ⟨_, _, hret, hst⟩ := h
      simp only [runAddAsks, hret, hst]
      exact ih st

/-- C22: for every sequence of `AddAsk` calls run from a state created by `NewState`,
the ids returned by the successful calls are 0, 1, 2, ... in order, and the counter ends
at their number. A successful `AddAsk` returns the counter and advances it by one; a
failed one (no gas, caller not the owner, invalid expiry) returns no id and leaves
`NextAskID`, and the whole state, unchanged. -/
theorem AddAsk_ids_sequential (owner : Address) (key : Bytes) (pid : peer_ID)
    (sectorSize : BytesAmount) (calls : List AddAskCall) :
    (runAddAsks (NewState owner key pid sectorSize) calls).1 =
      (List.range (runAddAsks (NewState owner key pid sectorSize) calls).1.length).map
        (fun (i : Nat) => (i : Int)) ∧
    (runAddAsks (NewState owner key pid sectorSize) calls).2.NextAskID =
      ((runAddAsks (NewState owner key pid sectorSize) calls).1.length : Int) ∧
    (∀ (ctx : VMContext) (st : State) (price : AttoFIL) (expiry : Int),
      (AddAsk ctx st price expiry).err = none →
      (AddAsk ctx st price expiry).ret = some st.NextAskID ∧
      (AddAsk ctx st price expiry).state.NextAskID = st.NextAskID + 1) ∧
    (∀ (ctx : VMContext) (st : State) (price : AttoFIL) (expiry : Int),
      (AddAsk ctx st price expiry).err ≠ none →
      (AddAsk ctx st price expiry).ret = none ∧
      (AddAsk ctx st price expiry).state.NextAskID = st.NextAskID ∧
      (AddAsk ctx st price expiry).state = st) := by
  have h := runAddAsks_ids calls (NewState owner key pid sectorSize)
  have h0 : (NewState owner key pid sectorSize).NextAskID = 0 := rfl
  rw [h0] at h
  refine ⟨?_, ?_, ?_, ?_⟩
  · conv_lhs => rw [h.1]
    apply List.map_congr_left
    intro i _
    simp
  · rw [h.2]
    simp
  · intro ctx st price expiry hok
    rcases AddAsk_cases ctx st price expiry with hc | hc
    · refine ⟨hc.2.2.2.2.2.1, ?_⟩
      rw [hc.2.2.2.2.2.2]
      rfl
    · exact absurd hok hc.2.1
  · intro ctx st price expiry hfail
    rcases AddAsk_cases ctx st price expiry with hc | hc
    · exact absurd hc.2.2.2.1 hfail
    · exact ⟨hc.2.2.1, by rw [hc.2.2.2], hc.2.2.2⟩

/-- C23 as stated fails: an expiry offset of 0 is valid, and the ask it adds expires at
the height of the call, not after it. -/
theorem AddAsk_expiry_counterexample :
    ¬ (∀ (ctx : VMContext) (st : State) (price : AttoFIL) (expiry : Int),
        (AddAsk ctx st price expiry).err = none →
        ∀ a ∈ (AddAsk ctx st price expiry).state.Asks, ctx.BlockHeight < a.Expiry) := by
  intro h
  have h2 := h (exampleCtx (Address.other 1) 0 5 0) exampleState 10 0 (by decide)
    { Price := 10, Expiry := 5, ID := 0 } (by decide)
  revert h2
  decide

/-- C23, amended: after a successful `AddAsk` at height `h`, every ask kept from the list
before the call has an expiry strictly greater than `h`, and the new ask has expiry
`h + offset`; so with an expiry offset of at least 1 every ask in the list has an expiry
strictly greater than `h`. -/
theorem AddAsk_expiry (ctx : VMContext) (st : State) (price : AttoFIL) (expiry : Int)
    (hok : (AddAsk ctx st price expiry).err = none) :
    (∀ a ∈ (AddAsk ctx st price expiry).state.Asks,
      ctx.BlockHeight < a.Expiry ∨
        a = { Price := price, Expiry := ctx.BlockHeight + expiry, ID := st.NextAskID }) ∧
    (1 ≤ expiry → ∀ a ∈ (AddAsk ctx st price expiry).state.Asks, ctx.BlockHeight < a.Expiry) := by
  rcases AddAsk_cases ctx st price expiry with hc | hc
  swap; · exact absurd hok hc.2.1
  have hst := hc.2.2.2.2.2.2
  have key : ∀ a ∈ (AddAsk ctx st price expiry).state.Asks,
      ctx.BlockHeight < a.Expiry ∨
        a = { Price := price, Expiry := ctx.BlockHeight + expiry, ID := st.NextAskID } := by
    intro a ha
    rw [hst] at ha
    simp only [addAskUpdate, List.mem_append, List.mem_filter, List.mem_singleton,
      decide_eq_true_eq] at ha
    rcases ha with ha | ha
    · exact Or.inl ha.2
    · exact Or.inr ha
  refine ⟨key, fun h1 a ha => ?_⟩
  rcases key a ha with h | h
  · exact h
  · rw [h]
    show ctx.BlockHeight < ctx.BlockHeight + expiry
    linarith

/-- C23 amended, for an ask with offset 20 added at height 5. -/
theorem AddAsk_expiry_witness :
    ({ Price := 10, Expiry := 25, ID := 0 } : Ask) ∈
        (AddAsk (exampleCtx (Address.other 1) 0 5 0) exampleState 10 20).state.Asks ∧
      (exampleCtx (Address.other 1) 0 5 0).BlockHeight <
        ({ Price := 10, Expiry := 25, ID := 0 } : Ask).Expiry :=
  ⟨by decide,
    (AddAsk_expiry (exampleCtx (Address.other 1) 0 5 0) exampleState 10 20 (by decide)).2
      (by decide) { Price := 10, Expiry := 25, ID := 0 } (by decide)⟩

/-- C24: a successful `AddAsk(price, offset)` at height `h` on a state with ask list `L`
and counter `n` returns `n`; the new ask list is the asks of `L` with expiry above `h`, in
their order, followed by the new ask with the given price, expiry `h + offset` and id `n`;
`NextAskID` becomes `n + 1`; every other field of the state is unchanged. -/
theorem AddAsk_success_effect (ctx : VMContext) (st : State) (price : AttoFIL) (expiry : Int)
    (hok : (AddAsk ctx st price expiry).err = none) :
    (AddAsk ctx st price expiry).ret = some st.NextAskID ∧
    (AddAsk ctx st price expiry).state.Asks =
      st.Asks.filter (fun a => decide (ctx.BlockHeight < a.Expiry)) ++
        [{ Price := price, Expiry := ctx.BlockHeight + expiry, ID := st.NextAskID }] ∧
    (AddAsk ctx st price expiry).state.NextAskID = st.NextAskID + 1 ∧
    (AddAsk ctx st price expiry).state.Owner = st.Owner ∧
    (AddAsk ctx st price expiry).state.PeerID = st.PeerID ∧
    (AddAsk ctx st price expiry).state.PublicKey = st.PublicKey ∧
    (AddAsk ctx st price expiry).state.ActiveCollateral = st.ActiveCollateral ∧
    (AddAsk ctx st price expiry).state.SectorCommitments = st.SectorCommitments ∧
    (AddAsk ctx st price expiry).state.LastUsedSectorID = st.LastUsedSectorID ∧
    (AddAsk ctx st price expiry).state.ProvingPeriodStart = st.ProvingPeriodStart ∧
    (AddAsk ctx st price expiry).state.LastPoSt = st.LastPoSt ∧
    (AddAsk ctx st price expiry).state.Power = st.Power ∧
    (AddAsk ctx st price expiry).state.SectorSize = st.SectorSize := by
  rcases AddAsk_cases ctx st price expiry with hc | hc
  · rw [hc.2.2.2.2.2.2]
    exact ⟨hc.2.2.2.2.2.1, rfl, rfl, rfl, rfl, rfl, rfl, rfl, rfl, rfl, rfl, rfl, rfl⟩
  · exact absurd hok hc.2.1

/-- C24, for a first ask with price 10 and offset 20 added at height 5. -/
theorem AddAsk_success_effect_witness :
    (AddAsk (exampleCtx (Address.other 1) 0 5 0) exampleState 10 20).state.Asks =
      [{ Price := 10, Expiry := 25, ID := 0 }] :=
  (AddAsk_success_effect (exampleCtx (Address.other 1) 0 5 0) exampleState 10 20
    (by decide)).2.1.trans (by decide)

/-- C25: an owner's `AddAsk` with gas whose expiry offset is not an unsigned 64-bit
integer (negative, or at least 2^64) fails with a revert error and code 1, returns no id,
and the persisted state is the state before the call: the counter is not advanced and no
ask is pruned. -/
theorem AddAsk_invalid_expiry (ctx : VMContext) (st : State) (price : AttoFIL) (expiry : Int)
    (hgas : ctx.Charge = none) (hown : ctx.Message.From = st.Owner)
    (hbad : expiry < 0 ∨ 2 ^ 64 ≤ expiry) :
    (AddAsk ctx st price expiry).err = some (VMError.revert "expiry was invalid") ∧
    (AddAsk ctx st price expiry).code = ExitCode.num 1 ∧
    (AddAsk ctx st price expiry).ret = none ∧
    (AddAsk ctx st price expiry).state = st ∧
    (AddAsk ctx st price expiry).state.NextAskID = st.NextAskID ∧
    (AddAsk ctx st price expiry).state.Asks = st.Asks := by
  have h2 : ¬ (0 ≤ expiry ∧ expiry < 2 ^ 64) := by
    rintro ⟨ha, hb⟩
    rcases hbad with h | h
    · linarith
    · linarith
  have h3 : IsUint64 expiry = false := by
    unfold IsUint64
    exact decide_eq_false h2
  simp [AddAsk, addAskBody, WithState, finish, hgas, hown, h3, CodeError]

/-- C25, for an offset of -1 on a state with one ask that has expired. -/
theorem AddAsk_invalid_expiry_witness :
    (AddAsk (exampleCtx (Address.other 1) 0 30 0)
      (AddAsk (exampleCtx (Address.other 1) 0 5 0) exampleState 10 20).state 10 (-1)).state =
      (AddAsk (exampleCtx (Address.other 1) 0 5 0) exampleState 10 20).state :=
  (AddAsk_invalid_expiry (exampleCtx (Address.other 1) 0 30 0)
    (AddAsk (exampleCtx (Address.other 1) 0 5 0) exampleState 10 20).state 10 (-1)
    rfl (by decide) (Or.inl (by decide))).2.2.2.1

/-! ## The ask list in reachable states -/

theorem sameAsks_refl (st : State) : sameAsks st st :=
  ⟨rfl, rfl⟩

theorem UpdatePeerID_sameAsks (ctx : VMContext) (st : State) (pid : peer_ID) :
    sameAsks st (UpdatePeerID ctx st pid).state := by
  unfold UpdatePeerID
  cases ctx.Charge with
  | some e => exact sameAsks_refl st
  | none =>
    simp only [updatePeerIDBody]
    split_ifs <;> simp [finish, WithState, sameAsks]

theorem SubmitPoSt_sameAsks (ma : Actor) (vf : Verifier) (ctx : VMContext) (st : State)
    (poStProofs : List Bytes) : sameAsks st (SubmitPoSt ma vf ctx st poStProofs).state := by
  unfold SubmitPoSt
  cases ctx.Charge with
  | some e => exact sameAsks_refl st
  | none =>
    simp only [submitPoStBody]
    repeat' split
    all_goals simp [finish, WithState, sameAsks]

theorem CommitSector_sameAsks (ma : Actor) (vf : Verifier) (ctx : VMContext) (st : State)
    (sectorID : Nat) (commD commR commRStar proof : Bytes) :
    sameAsks st (CommitSector ma vf ctx st sectorID commD commR commRStar proof).state := by
  rcases CommitSector_cases ma vf ctx st sectorID commD commR commRStar proof with h | h
  · rw [h.2.2.2]
    by_cases hp : st.Power = 0 <;> simp [commitSectorUpdate, sameAsks, hp]
  · rw [h.2.2]
    exact sameAsks_refl st

theorem dispatch_asks_cases (ma : Actor) (vf : Verifier) (ctx : VMContext) (st : State) (call : Call) :
    (∃ price expiry, call = Call.addAsk price expiry ∧
      (dispatch ma vf ctx st call).state = addAskUpdate ctx st price expiry) ∨
    sameAsks st (dispatch ma vf ctx st call).state := by
  cases call with
  | addAsk price expiry =>
    rcases AddAsk_cases ctx st price expiry with h | h
    · left
      exact ⟨price, expiry, rfl, h.2.2.2.2.2.2⟩
    · right
      have hst : (dispatch ma vf ctx st (Call.addAsk price expiry)).state = st := h.2.2.2
      rw [hst]
      exact sameAsks_refl st
  | commitSector sectorID commD commR commRStar proof =>
    right
    exact CommitSector_sameAsks ma vf ctx st sectorID commD commR commRStar proof
  | updatePeerID pid => right; exact UpdatePeerID_sameAsks ctx st pid
  | submitPoSt poStProofs => right; exact SubmitPoSt_sameAsks ma vf ctx st poStProofs
  | getAsks =>
    right
    have hst : (dispatch ma vf ctx st Call.getAsks).state = st := GetAsks_state ctx st
    rw [hst]; exact sameAsks_refl st
  | getAsk askid =>
    right
    have hst : (dispatch ma vf ctx st (Call.getAsk askid)).state = st := GetAsk_state ctx st askid
    rw [hst]; exact sameAsks_refl st
  | getOwner =>
    right
    have hst : (dispatch ma vf ctx st Call.getOwner).state = st := readField_state ctx st _
    rw [hst]; exact sameAsks_refl st
  | getLastUsedSectorID =>
    right
    have hst : (dispatch ma vf ctx st Call.getLastUsedSectorID).state = st := readField_state ctx st _
    rw [hst]; exact sameAsks_refl st
  | getKey =>
    right
    have hst : (dispatch ma vf ctx st Call.getKey).state = st := readField_state ctx st _
    rw [hst]; exact sameAsks_refl st
  | getPeerID =>
    right
    have hst : (dispatch ma vf ctx st Call.getPeerID).state = st := GetPeerID_state ctx st
    rw [hst]; exact sameAsks_refl st
  | getPower =>
    right
    have hst : (dispatch ma vf ctx st Call.getPower).state = st := readField_state ctx st _
    rw [hst]; exact sameAsks_refl st
  | verifyPieceInclusion commP sectorID proof =>
    right
    have hst : (dispatch ma vf ctx st (Call.verifyPieceInclusion commP sectorID proof)).state = st :=
      VerifyPieceInclusion_state ctx st commP sectorID proof
    rw [hst]; exact sameAsks_refl st
  | getProvingPeriodStart =>
    right
    have hst : (dispatch ma vf ctx st Call.getProvingPeriodStart).state = st :=
      GetProvingPeriodStart_state ctx st
    rw [hst]; exact sameAsks_refl st
  | getSectorCommitments =>
    right
    have hst : (dispatch ma vf ctx st Call.getSectorCommitments).state = st := readField_state ctx st _
    rw [hst]; exact sameAsks_refl st
  | isBootstrapMiner =>
    right
    have hst : (dispatch ma vf ctx st Call.isBootstrapMiner).state = st := rfl
    rw [hst]; exact sameAsks_refl st
  | getSectorSize =>
    right
    have hst : (dispatch ma vf ctx st Call.getSectorSize).state = st := readField_state ctx st _
    rw [hst]; exact sameAsks_refl st

theorem addAskUpdate_asksOrdered (ctx : VMContext) (st : State) (price : AttoFIL) (expiry : Int)
    (h : asksOrdered st) : asksOrdered (addAskUpdate ctx st price expiry) := by
  obtain ⟨hp, hlt⟩ := h
  constructor
  · simp only [addAskUpdate, List.map_append, List.map_cons, List.map_nil]
    rw [List.pairwise_append]
    refine ⟨?_, List.pairwise_singleton _ _, ?_⟩
    · exact hp.sublist ((List.filter_sublist st.Asks).map _)
    · intro x hx y hy
      rw [List.mem_singleton] at hy
      rw [hy]
      rw [List.mem_map] at hx
      obtain ⟨a, ha, rfl⟩ := hx
      exact hlt a (List.mem_of_mem_filter ha)
  · intro a ha
    simp only [addAskUpdate, List.mem_append, List.mem_singleton] at ha
    show a.ID < st.NextAskID + 1
    rcases ha with ha | ha
    · have := hlt a (List.mem_of_mem_filter ha)
      linarith
    · rw [ha]
      show st.NextAskID < st.NextAskID + 1
      linarith

theorem dispatch_asksOrdered (ma : Actor) (vf : Verifier) (ctx : VMContext) (st : State) (call : Call)
    (h : asksOrdered st) : asksOrdered (dispatch ma vf ctx st call).state := by
  rcases dispatch_asks_cases ma vf ctx st call with ⟨price, expiry, _, hst⟩ | hs
  · rw [hst]
    exact addAskUpdate_asksOrdered ctx st price expiry h
  · unfold asksOrdered
    rw [hs.1, hs.2]
    exact h

theorem reachable_asksOrdered (ma : Actor) (start st : State) (h0 : asksOrdered start)
    (h : ReachableFrom ma start st) : asksOrdered st := by
  induction h with
  | init => exact h0
  | step st vf ctx call _ ih => exact dispatch_asksOrdered ma vf ctx st call ih

/-- C26: in every state reachable from `NewState` by any sequence of exported calls, the
ids of the asks are strictly increasing in list order, hence pairwise distinct, and each
is strictly less than `NextAskID`. -/
theorem ask_ids_increasing (ma : Actor) (owner : Address) (key : Bytes) (pid : peer_ID)
    (sectorSize : BytesAmount) (st : State)
    (h : ReachableFrom ma (NewState owner key pid sectorSize) st) :
    (st.Asks.map (fun a => a.ID)).Pairwise (fun x y => x < y) ∧
    (st.Asks.map (fun a => a.ID)).Nodup ∧
    ∀ a ∈ st.Asks, a.ID < st.NextAskID := by
  have h0 : asksOrdered (NewState owner key pid sectorSize) := by
    constructor
    · simp [NewState]
    · intro a ha
      simp [NewState] at ha
  obtain ⟨hp, hlt⟩ := reachable_asksOrdered ma _ st h0 h
  exact ⟨hp, hp.imp (fun hxy => ne_of_lt hxy), hlt⟩

/-- C26, after two asks were added to a fresh miner. -/
theorem ask_ids_increasing_witness :
    ReachableFrom ⟨false⟩ (NewState (Address.other 1) [1, 2, 3] "peer" 1024)
      (dispatch ⟨false⟩ acceptingVerifier (exampleCtx (Address.other 1) 0 6 0)
        (dispatch ⟨false⟩ acceptingVerifier (exampleCtx (Address.other 1) 0 5 0)
          (NewState (Address.other 1) [1, 2, 3] "peer" 1024) (Call.addAsk 10 20)).state
        (Call.addAsk 11 30)).state ∧
    ((dispatch ⟨false⟩ acceptingVerifier (exampleCtx (Address.other 1) 0 6 0)
        (dispatch ⟨false⟩ acceptingVerifier (exampleCtx (Address.other 1) 0 5 0)
          (NewState (Address.other 1) [1, 2, 3] "peer" 1024) (Call.addAsk 10 20)).state
        (Call.addAsk 11 30)).state.Asks.map (fun a => a.ID)).Nodup :=
  ⟨ReachableFrom.step _ _ _ _ (ReachableFrom.step _ _ _ _ ReachableFrom.init),
    (ask_ids_increasing ⟨false⟩ (Address.other 1) [1, 2, 3] "peer" 1024 _
      (ReachableFrom.step _ acceptingVerifier (exampleCtx (Address.other 1) 0 6 0)
        (Call.addAsk 11 30)
        (ReachableFrom.step _ acceptingVerifier (exampleCtx (Address.other 1) 0 5 0)
          (Call.addAsk 10 20) ReachableFrom.init))).2.1⟩

/-! ## Looking up an ask -/

theorem GetAsk_of_find (ctx : VMContext) (st : State) (askid : Int) (hgas : ctx.Charge = none) :
    (∀ a, st.Asks.find? (fun a => decide (a.ID = askid)) = some a →
      (GetAsk ctx st askid).ret = some a ∧ (GetAsk ctx st askid).err = none ∧
      (GetAsk ctx st askid).code = ExitCode.num 0) ∧
    (st.Asks.find? (fun a => decide (a.ID = askid)) = none →
      (GetAsk ctx st askid).ret = none ∧
      (GetAsk ctx st askid).err = some (Errors ErrAskNotFound) ∧
      (GetAsk ctx st askid).code = ExitCode.num 40) := by
  constructor
  · intro a ha
    simp [GetAsk, getAskBody, WithState, finish, hgas, ha]
  · intro hn
    simp [GetAsk, getAskBody, WithState, finish, hgas, hn, Errors, CodeError, ErrAskNotFound]

/-- The lookup of `GetAsk` stops at the first ask with the id (miner.go 372-377). On a state
that holds an ask whose id is `NextAskID`, which no sequence of exported calls reaches
from `NewState`, the ask found after a successful `AddAsk` is therefore the old one. -/
theorem GetAsk_first_match :
    (GetAsk (exampleCtx (Address.other 2) 0 6 0)
      (AddAsk (exampleCtx (Address.other 1) 0 5 0)
        { exampleState with Asks := [{ Price := 1, Expiry := 100, ID := 0 }] } 9 10).state 0).ret =
      some { Price := 1, Expiry := 100, ID := 0 } := by
  decide

/-- After a successful `AddAsk` on a state none of whose asks has the id `NextAskID`,
`GetAsk` with gas finds the new ask under the id `AddAsk` returned. -/
theorem GetAsk_after_AddAsk (ctx ctx0 : VMContext) (st0 : State) (price : AttoFIL) (expiry : Int)
    (hgas : ctx.Charge = none) (hfresh : ∀ a ∈ st0.Asks, a.ID ≠ st0.NextAskID)
    (hok : (AddAsk ctx0 st0 price expiry).err = none) :
    (AddAsk ctx0 st0 price expiry).ret = some st0.NextAskID ∧
    (GetAsk ctx (AddAsk ctx0 st0 price expiry).state st0.NextAskID).ret =
      some { Price := price, Expiry := ctx0.BlockHeight + expiry, ID := st0.NextAskID } ∧
    (GetAsk ctx (AddAsk ctx0 st0 price expiry).state st0.NextAskID).err = none := by
  rcases AddAsk_cases ctx0 st0 price expiry with hc | hc
  swap; · exact absurd hok hc.2.1
  have hf : (AddAsk ctx0 st0 price expiry).state.Asks.find?
      (fun a => decide (a.ID = st0.NextAskID)) =
      some { Price := price, Expiry := ctx0.BlockHeight + expiry, ID := st0.NextAskID } := by
    rw [hc.2.2.2.2.2.2]
    simp only [addAskUpdate, List.find?_append]
    have hn : (st0.Asks.filter (fun a => decide (ctx0.BlockHeight < a.Expiry))).find?
        (fun a => decide (a.ID = st0.NextAskID)) = none := by
      rw [List.find?_eq_none]
      intro a ha
      simpa using hfresh a (List.mem_of_mem_filter ha)
    rw [hn]
    simp
  have hg := (GetAsk_of_find ctx (AddAsk ctx0 st0 price expiry).state st0.NextAskID hgas).1 _ hf
  exact ⟨hc.2.2.2.2.2.1, hg.1, hg.2.1⟩

/-- C27: for every state and ask id, `GetAsk(id)` with gas succeeds and returns an ask of
the list whose `ID` equals `id` (the first one) when there is one, and fails with
`ErrAskNotFound`, code 40, exactly when no ask of the list has that id; the state is
unchanged. In every state reachable from `NewState` by exported calls no two asks share
an id, so the ask returned is the ask with that id, and immediately after a successful
`AddAsk(price, offset)` at height `h`, which returns `NextAskID`, `GetAsk` of that id
yields the ask with that price, expiry `h + offset` and that id. -/
theorem GetAsk_spec (ctx : VMContext) (st : State) (askid : Int) (hgas : ctx.Charge = none) :
    ((∃ a ∈ st.Asks, a.ID = askid) →
      ∃ a, a ∈ st.Asks ∧ a.ID = askid ∧
        st.Asks.find? (fun a => decide (a.ID = askid)) = some a ∧
        (GetAsk ctx st askid).ret = some a ∧ (GetAsk ctx st askid).err = none ∧
        (GetAsk ctx st askid).code = ExitCode.num 0) ∧
    ((GetAsk ctx st askid).err = some (Errors ErrAskNotFound) ↔ ∀ a ∈ st.Asks, a.ID ≠ askid) ∧
    ((∀ a ∈ st.Asks, a.ID ≠ askid) →
      (GetAsk ctx st askid).code = ExitCode.num 40 ∧ (GetAsk ctx st askid).ret = none) ∧
    (GetAsk ctx st askid).state = st ∧
    (∀ (ctx0 : VMContext) (st0 : State) (price : AttoFIL) (expiry : Int),
      (∀ a ∈ st0.Asks, a.ID ≠ st0.NextAskID) →
      (AddAsk ctx0 st0 price expiry).err = none →
      (GetAsk ctx (AddAsk ctx0 st0 price expiry).state st0.NextAskID).ret =
        some { Price := price, Expiry := ctx0.BlockHeight + expiry, ID := st0.NextAskID }) ∧
    (∀ (ma : Actor) (owner : Address) (key : Bytes) (pid : peer_ID) (sectorSize : BytesAmount),
      ReachableFrom ma (NewState owner key pid sectorSize) st →
      (∀ a ∈ st.Asks, ∀ b ∈ st.Asks, a.ID = b.ID → a = b) ∧
      (∀ a ∈ st.Asks, a.ID = askid → (GetAsk ctx st askid).ret = some a) ∧
      ∀ (ctx0 : VMContext) (price : AttoFIL) (expiry : Int),
        (AddAsk ctx0 st price expiry).err = none →
        (AddAsk ctx0 st price expiry).ret = some st.NextAskID ∧
        (GetAsk ctx (AddAsk ctx0 st price expiry).state st.NextAskID).ret =
          some { Price := price, Expiry := ctx0.BlockHeight + expiry, ID := st.NextAskID } ∧
        (GetAsk ctx (AddAsk ctx0 st price expiry).state st.NextAskID).err = none) := by
  have hfind := GetAsk_of_find ctx st askid hgas
  have hnone : st.Asks.find? (fun a => decide (a.ID = askid)) = none ↔ ∀ a ∈ st.Asks, a.ID ≠ askid := by
    rw [List.find?_eq_none]
    constructor
    · intro h a ha
      simpa using h a ha
    · intro h a ha
      simpa using h a ha
  have hsome : (∃ a ∈ st.Asks, a.ID = askid) →
      ∃ a, a ∈ st.Asks ∧ a.ID = askid ∧
        st.Asks.find? (fun a => decide (a.ID = askid)) = some a ∧
        (GetAsk ctx st askid).ret = some a ∧ (GetAsk ctx st askid).err = none ∧
        (GetAsk ctx st askid).code = ExitCode.num 0 := by
    rintro ⟨b, hb, hbid⟩
    cases hf : st.Asks.find? (fun a => decide (a.ID = askid)) with
    | none => exact absurd hbid (hnone.mp hf b hb)
    | some a =>
      have hp := List.find?_some hf
      exact ⟨a, List.mem_of_find?_eq_some hf, by simpa using hp, rfl, hfind.1 a hf⟩
  refine ⟨hsome, ?_, ?_, GetAsk_state ctx st askid, ?_, ?_⟩
  · constructor
    · intro herr
      cases hf : st.Asks.find? (fun a => decide (a.ID = askid)) with
      | none => exact hnone.mp hf
      | some a =>
        rw [(hfind.1 a hf).2.1] at herr
        exact absurd herr (by simp)
    · intro h
      exact (hfind.2 (hnone.mpr h)).2.1
  · intro h
    exact ⟨(hfind.2 (hnone.mpr h)).2.2, (hfind.2 (hnone.mpr h)).1⟩
  · intro ctx0 st0 price expiry hfresh hok
    exact (GetAsk_after_AddAsk ctx ctx0 st0 price expiry hgas hfresh hok).2.1
  · intro ma owner key pid sectorSize hreach
    have h0 : asksOrdered (NewState owner key pid sectorSize) := by
      constructor
      · simp [NewState]
      · intro a ha
        simp [NewState] at ha
    obtain ⟨hp, hlt⟩ := reachable_asksOrdered ma _ st h0 hreach
    have hnodup : (st.Asks.map (fun a => a.ID)).Nodup := hp.imp (fun hxy => ne_of_lt hxy)
    have hinj : ∀ a ∈ st.Asks, ∀ b ∈ st.Asks, a.ID = b.ID → a = b := by
      intro a ha b hb hab
      exact List.inj_on_of_nodup_map hnodup ha hb hab
    refine ⟨hinj, ?_, ?_⟩
    · intro a ha haid
      obtain ⟨b, hb, hbid, _, hret, _⟩ := hsome ⟨a, ha, haid⟩
      rw [hret, hinj a ha b hb (haid.trans hbid.symm)]
    · intro ctx0 price expiry hok
      have hfresh : ∀ a ∈ st.Asks, a.ID ≠ st.NextAskID := fun a ha => ne_of_lt (hlt a ha)
      exact GetAsk_after_AddAsk ctx ctx0 st price expiry hgas hfresh hok

/-- C27, on a fresh miner: the owner adds an ask at height 5 and a stranger looks it up
under the id returned. -/
theorem GetAsk_spec_witness :
    (AddAsk (exampleCtx (Address.other 1) 0 5 0) exampleState 10 20).ret = some 0 ∧
    (GetAsk (exampleCtx (Address.other 2) 0 6 0)
      (AddAsk (exampleCtx (Address.other 1) 0 5 0) exampleState 10 20).state 0).ret =
      some { Price := 10, Expiry := 25, ID := 0 } :=
  ⟨(((GetAsk_spec (exampleCtx (Address.other 2) 0 6 0) exampleState 0 rfl).2.2.2.2.2
      ⟨false⟩ (Address.other 1) [1, 2, 3] "peer" 1024 ReachableFrom.init).2.2
      (exampleCtx (Address.other 1) 0 5 0) 10 20 (by decide)).1,
    ((((GetAsk_spec (exampleCtx (Address.other 2) 0 6 0) exampleState 0 rfl).2.2.2.2.2
      ⟨false⟩ (Address.other 1) [1, 2, 3] "peer" 1024 ReachableFrom.init).2.2
      (exampleCtx (Address.other 1) 0 5 0) 10 20 (by decide)).2.1).trans (by decide)⟩

/-! ## Piece inclusion -/

theorem finish_code_of_ok {α : Type} (r : State × List Event × Except VMError α)
    (h : (finish r).err = none) : (finish r).code = ExitCode.num 0 := by
  unfold finish at h ⊢
  split <;> simp_all

/-- C28: `VerifyPieceInclusion(commP, sectorID, proof)` with gas succeeds exactly when the
sector id has a stored commitment, `LastPoSt` is set and the height is at most
`LastPoSt + 10000`, the proof is 64 bytes long, and the proof is the 32-byte `commP` (its
first 32 bytes, padded with zeros when shorter) followed by the stored `CommD`. The state
is unchanged in every case, with or without gas. -/
theorem VerifyPieceInclusion_iff (ctx : VMContext) (st : State) (commP : Bytes) (sectorID : Nat)
    (proof : Bytes) (hgas : ctx.Charge = none) :
    ((VerifyPieceInclusion ctx st commP sectorID proof).err = none ↔
      ∃ c l, mapGet st.SectorCommitments (sectorKey sectorID) = some c ∧
        st.LastPoSt = some l ∧ ctx.BlockHeight ≤ l + 10000 ∧
        proof.length = 64 ∧ proof = copyInto 32 commP ++ c.CommD) ∧
    ((VerifyPieceInclusion ctx st commP sectorID proof).err = none →
      (VerifyPieceInclusion ctx st commP sectorID proof).code = ExitCode.num 0) ∧
    (VerifyPieceInclusion ctx st commP sectorID proof).state = st ∧
    (∀ ctx2 : VMContext, (VerifyPieceInclusion ctx2 st commP sectorID proof).state = st) := by
  refine ⟨?_, ?_, VerifyPieceInclusion_state ctx st commP sectorID proof,
    fun ctx2 => VerifyPieceInclusion_state ctx2 st commP sectorID proof⟩
  · cases hm : mapGet st.SectorCommitments (sectorKey sectorID) with
    | none =>
      simp [VerifyPieceInclusion, verifyPieceInclusionBody, WithState, finish, hgas, hm]
    | some c =>
      cases hl : st.LastPoSt with
      | none =>
        simp [VerifyPieceInclusion, verifyPieceInclusionBody, WithState, finish, hgas, hm, hl]
      | some l =>
        by_cases hh : ctx.BlockHeight > l + (PieceInclusionGracePeriodBlocks : Int)
        · have hh2 : ¬ (ctx.BlockHeight ≤ l + 10000) := by
            simp only [PieceInclusionGracePeriodBlocks] at hh
            push_cast at hh
            exact not_le.mpr hh
          simp [VerifyPieceInclusion, verifyPieceInclusionBody, WithState, finish, hgas, hm, hl, hh,
            hh2]
        · have hh2 : ctx.BlockHeight ≤ l + 10000 := by
            simp only [PieceInclusionGracePeriodBlocks] at hh
            push_cast at hh
            exact not_lt.mp hh
          by_cases hlen : proof.length = 64
          · by_cases heq : copyInto 32 commP ++ c.CommD = proof
            · have heq2 : proof = copyInto 32 commP ++ c.CommD := heq.symm
              simp [VerifyPieceInclusion, verifyPieceInclusionBody, verifyInclusionProof, WithState,
                finish, hgas, hm, hl, hh, hh2, hlen, CommitmentBytesLen, heq]
            · have heq2 : ¬ (proof = copyInto 32 commP ++ c.CommD) := fun h => heq h.symm
              simp [VerifyPieceInclusion, verifyPieceInclusionBody, verifyInclusionProof, WithState,
                finish, hgas, hm, hl, hh, hh2, hlen, CommitmentBytesLen, heq, heq2]
          · simp [VerifyPieceInclusion, verifyPieceInclusionBody, verifyInclusionProof, WithState,
              finish, hgas, hm, hl, hh, hh2, hlen, CommitmentBytesLen]
  · intro herr
    unfold VerifyPieceInclusion at herr ⊢
    simp only [hgas] at herr ⊢
    exact finish_code_of_ok _ herr

/-- C28, for sector 7 at height 100 with the proof made of the piece digest and the
stored `CommD`. -/
theorem VerifyPieceInclusion_iff_witness :
    (VerifyPieceInclusion (exampleCtx (Address.other 2) 0 100 0) examplePosted (exampleDigest 9) 7
      (exampleDigest 9 ++ exampleDigest 1)).err = none :=
  (VerifyPieceInclusion_iff (exampleCtx (Address.other 2) 0 100 0) examplePosted (exampleDigest 9) 7
    (exampleDigest 9 ++ exampleDigest 1) rfl).1.mpr
    ⟨{ CommD := exampleDigest 1, CommR := exampleDigest 2, CommRStar := exampleDigest 3 }, 9,
      by decide, by decide, by decide, by decide, by decide⟩

/-! ## The size of the public key at initialization -/

/-- C29, on the code: `InitializeState` rejects a public key of more than 100 bytes with
`ErrPublicKeyTooBig`, code 33, whose message is "public key must be less than 100 bytes",
and stores nothing; it does not fail with that error for a key of at most 100 bytes; and
a key of exactly 100 bytes is accepted: with a working storage the state is stored. -/
theorem InitializeState_publicKey_limit (storage : Storage) (s : State) :
    Errors ErrPublicKeyTooBig = VMError.coded 33 "public key must be less than 100 bytes" ∧
    (s.PublicKey.length > 100 →
      InitializeState storage (InitializerData.minerState s) =
        (some (Errors ErrPublicKeyTooBig), none)) ∧
    (s.PublicKey.length ≤ 100 →
      (InitializeState storage (InitializerData.minerState s)).1 ≠
        some (Errors ErrPublicKeyTooBig)) ∧
    (s.PublicKey.length = 100 →
      storage.DumpObject s = none → storage.Put s = none → storage.Commit s = none →
      InitializeState storage (InitializerData.minerState s) = (none, some s)) := by
  refine ⟨by decide, fun h => ?_, fun h => ?_, fun h hd hp hc => ?_⟩
  · simp [InitializeState, MaximumPublicKeySize, h]
  · have h2 : ¬ (s.PublicKey.length > 100) := not_lt.mpr h
    unfold InitializeState
    simp only [MaximumPublicKeySize, h2, if_false]
    cases storage.DumpObject s with
    | some e => simp [Errors]
    | none =>
      cases storage.Put s with
      | some e => simp [Errors]
      | none =>
        cases storage.Commit s with
        | some e => simp [Errors]
        | none => simp
  · simp [InitializeState, MaximumPublicKeySize, h, hd, hp, hc]

/-- C29 on the code, at a key of exactly 100 bytes: the state is stored, no error. -/
theorem InitializeState_publicKey_limit_witness :
    InitializeState workingStorage
        (InitializerData.minerState (NewState (Address.other 1) (List.replicate 100 0) "peer" 1024)) =
      (none, some (NewState (Address.other 1) (List.replicate 100 0) "peer" 1024)) :=
  (InitializeState_publicKey_limit workingStorage
    (NewState (Address.other 1) (List.replicate 100 0) "peer" 1024)).2.2.2 (by decide) rfl rfl rfl

/-! ## Gas metering -/

/-- C30, on the code: when the gas charge fails with `e`, every exported method but
`IsBootstrapMiner` returns `exec.ErrInsufficientGas` with the wrapped error, no result,
no collaborator call and the state unchanged; `IsBootstrapMiner` charges no gas and
returns the bootstrap flag with code 0 and no error. -/
theorem insufficient_gas_outcomes (ma : Actor) (vf : Verifier) (ctx : VMContext) (st : State)
    (e : ExternalError) (price : AttoFIL) (expiry askid : Int) (sectorID : Nat)
    (commD commR commRStar proof commP : Bytes) (pid : peer_ID) (poStProofs : List Bytes)
    (hgas : ctx.Charge = some e) :
    AddAsk ctx st price expiry = insufficientGas st e ∧
    GetAsks ctx st = insufficientGas st e ∧
    GetAsk ctx st askid = insufficientGas st e ∧
    GetOwner ctx st = insufficientGas st e ∧
    GetLastUsedSectorID ctx st = insufficientGas st e ∧
    CommitSector ma vf ctx st sectorID commD commR commRStar proof = insufficientGas st e ∧
    GetKey ctx st = insufficientGas st e ∧
    GetPeerID ctx st = insufficientGas st e ∧
    UpdatePeerID ctx st pid = insufficientGas st e ∧
    GetPower ctx st = insufficientGas st e ∧
    SubmitPoSt ma vf ctx st poStProofs = insufficientGas st e ∧
    VerifyPieceInclusion ctx st commP sectorID proof = insufficientGas st e ∧
    GetProvingPeriodStart ctx st = insufficientGas st e ∧
    GetSectorCommitments ctx st = insufficientGas st e ∧
    GetSectorSize ctx st = insufficientGas st e ∧
    (∀ {α : Type}, (insufficientGas st e : Outcome α).code = ExitCode.ErrInsufficientGas ∧
      (insufficientGas st e : Outcome α).err = some (VMError.revertWrap e "Insufficient gas") ∧
      (insufficientGas st e : Outcome α).ret = none ∧
      (insufficientGas st e : Outcome α).state = st ∧
      (insufficientGas st e : Outcome α).events = []) ∧
    (IsBootstrapMiner ma ctx st).ret = some ma.Bootstrap ∧
    (IsBootstrapMiner ma ctx st).code = ExitCode.num 0 ∧
    (IsBootstrapMiner ma ctx st).err = none := by
  refine ⟨?_, ?_, ?_, ?_, ?_, ?_, ?_, ?_, ?_, ?_, ?_, ?_, ?_, ?_, ?_, ?_, rfl, rfl, rfl⟩
  · simp [AddAsk, hgas]
  · simp [GetAsks, hgas]
  · simp [GetAsk, hgas]
  · simp [GetOwner, readField, hgas]
  · simp [GetLastUsedSectorID, readField, hgas]
  · simp [CommitSector, hgas]
  · simp [GetKey, readField, hgas]
  · simp [GetPeerID, hgas]
  · simp [UpdatePeerID, hgas]
  · simp [GetPower, readField, hgas]
  · simp [SubmitPoSt, hgas]
  · simp [VerifyPieceInclusion, hgas]
  · simp [GetProvingPeriodStart, hgas]
  · simp [GetSectorCommitments, readField, hgas]
  · simp [GetSectorSize, readField, hgas]
  · intro α
    exact ⟨rfl, rfl, rfl, rfl, rfl⟩

/-- C30 on the code, for `IsBootstrapMiner` called without gas: code 0, no error. -/
theorem insufficient_gas_outcomes_witness :
    (IsBootstrapMiner ⟨true⟩ (exampleCtxNoGas (Address.other 2)) exampleState).code = ExitCode.num 0 ∧
    (GetOwner (exampleCtxNoGas (Address.other 2)) exampleState).code = ExitCode.ErrInsufficientGas :=
  ⟨(insufficient_gas_outcomes ⟨true⟩ acceptingVerifier (exampleCtxNoGas (Address.other 2)) exampleState
      { code := 1, msg := "out of gas" } 0 0 0 0 [] [] [] [] [] "p" [] rfl).2.2.2.2.2.2.2.2.2.2.2.2.2.2.2.2.2.1,
    by
      rw [(insufficient_gas_outcomes ⟨true⟩ acceptingVerifier (exampleCtxNoGas (Address.other 2))
        exampleState { code := 1, msg := "out of gas" } 0 0 0 0 [] [] [] [] [] "p" [] rfl).2.2.2.1]
      rfl⟩

/-! ## The fee at the bounds of the grace window -/

theorem grace_deadline_eq (st : State) (p : BlockHeight) :
    p + (ProvingPeriodDuration st.SectorSize : Int) + GenerationAttackTime st.SectorSize = p + 20100 := by
  simp only [ProvingPeriodDuration, GenerationAttackTime, LargestSectorSizeProvingPeriodBlocks,
    LargestSectorGenerationAttackThresholdBlocks]
  push_cast
  ring

/-- An owner's `SubmitPoSt` with gas, within the grace deadline, with the fee covered,
transfers that go through and a proof check that passes: the call succeeds. -/
theorem SubmitPoSt_accepted (ma : Actor) (vf : Verifier) (ctx : VMContext) (st : State)
    (poStProofs : List Bytes) (p : BlockHeight)
    (hgas : ctx.Charge = none) (hown : ctx.Message.From = st.Owner)
    (hp : st.ProvingPeriodStart = some p)
    (hwithin : ctx.BlockHeight ≤ p + 20100)
    (hfee : requiredFee ctx st p ≤ ctx.Message.Value)
    (hburn : (ctx.Send 0 Address.BurntFundsAddress "" (requiredFee ctx st p) []).err = none)
    (hrefund : ctx.Message.Value > requiredFee ctx st p →
      (ctx.Send 1 ctx.Message.From "" (ctx.Message.Value - requiredFee ctx st p) []).err = none)
    (hproof : ma.Bootstrap = true ∨
      ∃ seed, ctx.SampleChainRandomness (some p) = Except.ok seed ∧
        vf.VerifyPoST (postRequest st seed poStProofs) = Except.ok true) :
    (SubmitPoSt ma vf ctx st poStProofs).err = none ∧
    (SubmitPoSt ma vf ctx st poStProofs).code = ExitCode.num 0 ∧
    (SubmitPoSt ma vf ctx st poStProofs).state = nextPeriodState ctx st p := by
  have h3 : ¬ (ctx.BlockHeight >
      p + (ProvingPeriodDuration st.SectorSize : Int) + GenerationAttackTime st.SectorSize) := by
    rw [grace_deadline_eq]
    exact not_lt.mpr hwithin
  have hchk : (postCheck ma vf ctx st poStProofs).2 = none := by
    apply postCheck_passed
    rw [hp]
    exact hproof
  obtain ⟨herr, hcode, hst, _⟩ :=
    (SubmitPoSt_paid ma vf ctx st poStProofs p hgas hown hp h3 (not_lt.mpr hfee) hburn hrefund).1 hchk
  exact ⟨herr, hcode, hst⟩

/-- C37: for an owner's `SubmitPoSt` with gas at height exactly `p + 20100`, the last
height that is not too late (100 rounds late), the required fee is the whole
`ActiveCollateral`: a message value below it is rejected with no transfer and no state
change, and with a proof that is accepted (or on a bootstrap actor) and transfers that go
through, a value of at least `ActiveCollateral` makes the call succeed. -/
theorem SubmitPoSt_at_deadline (ma : Actor) (vf : Verifier) (ctx : VMContext) (st : State)
    (poStProofs : List Bytes) (p : BlockHeight)
    (hgas : ctx.Charge = none) (hown : ctx.Message.From = st.Owner)
    (hp : st.ProvingPeriodStart = some p)
    (hh : ctx.BlockHeight = p + 20100) :
    LatePoStFee st.ActiveCollateral (p + 20000) ctx.BlockHeight 100 = st.ActiveCollateral ∧
    (ctx.Message.Value < st.ActiveCollateral →
      (SubmitPoSt ma vf ctx st poStProofs).err =
        some (VMError.revert "PoSt message requires value to cover fees") ∧
      (SubmitPoSt ma vf ctx st poStProofs).state = st ∧
      (SubmitPoSt ma vf ctx st poStProofs).events = []) ∧
    (st.ActiveCollateral ≤ ctx.Message.Value →
      (ctx.Send 0 Address.BurntFundsAddress "" st.ActiveCollateral []).err = none →
      (ctx.Message.Value > st.ActiveCollateral →
        (ctx.Send 1 ctx.Message.From "" (ctx.Message.Value - st.ActiveCollateral) []).err = none) →
      (ma.Bootstrap = true ∨
        ∃ seed, ctx.SampleChainRandomness (some p) = Except.ok seed ∧
          vf.VerifyPoST (postRequest st seed poStProofs) = Except.ok true) →
      (SubmitPoSt ma vf ctx st poStProofs).err = none ∧
      (SubmitPoSt ma vf ctx st poStProofs).state.ProvingPeriodStart = some (p + 20000) ∧
      (SubmitPoSt ma vf ctx st poStProofs).state.LastPoSt = some (p + 20100)) := by
  have hfee0 : LatePoStFee st.ActiveCollateral (p + 20000) ctx.BlockHeight 100 =
      st.ActiveCollateral := by
    have h1 : ctx.BlockHeight - (p + 20000) ≥ 100 := by
      rw [hh]
      linarith
    unfold LatePoStFee
    simp only [h1, if_true]
  have hfee : requiredFee ctx st p = st.ActiveCollateral := by
    rw [requiredFee_eq]
    exact hfee0
  have hwithin : ctx.BlockHeight ≤ p + 20100 := le_of_eq hh
  refine ⟨hfee0, fun hlow => ?_, fun hcov hburn hrefund hproof => ?_⟩
  · have h3 : ¬ (ctx.BlockHeight >
        p + (ProvingPeriodDuration st.SectorSize : Int) + GenerationAttackTime st.SectorSize) := by
      rw [grace_deadline_eq]
      exact not_lt.mpr hwithin
    have h4 : ctx.Message.Value <
        LatePoStFee st.ActiveCollateral (p + (ProvingPeriodDuration st.SectorSize : Int))
          ctx.BlockHeight (GenerationAttackTime st.SectorSize) := by
      have := hfee
      unfold requiredFee at this
      rw [this]
      exact hlow
    simp [SubmitPoSt, submitPoStBody, WithState, finish, hgas, hown, hp, h3, h4]
  · have hacc := SubmitPoSt_accepted ma vf ctx st poStProofs p hgas hown hp hwithin
      (by rw [hfee]; exact hcov) (by rw [hfee]; exact hburn) (by rw [hfee]; exact hrefund) hproof
    refine ⟨hacc.1, ?_, ?_⟩
    · rw [hacc.2.2]
      rfl
    · rw [hacc.2.2, ← hh]
      rfl

/-- C37, at height 20105 for a proving period that started at 5, with exactly the
collateral as message value. -/
theorem SubmitPoSt_at_deadline_witness :
    (SubmitPoSt ⟨false⟩ acceptingVerifier
      (exampleCtx (Address.other 1) MinimumCollateralPerSector 20105 (2 * MinimumCollateralPerSector))
      exampleCommitted [[1]]).err = none :=
  ((SubmitPoSt_at_deadline ⟨false⟩ acceptingVerifier
    (exampleCtx (Address.other 1) MinimumCollateralPerSector 20105 (2 * MinimumCollateralPerSector))
    exampleCommitted [[1]] 5 rfl (by decide) (by decide) (by decide)).2.2
      (by decide) rfl (fun _ => rfl) (Or.inr ⟨[], rfl, rfl⟩)).1

/-- C38: for every non-negative pledge collateral and all other arguments, the fee of
`LatePoStFee` lies between 0 and the pledge, and whenever the dividing branch is taken
(`roundsLate < maxRoundsLate` and `roundsLate > 0`) the divisor `maxRoundsLate` is
positive, so no division by zero takes place. -/
theorem LatePoStFee_bounds (c provingPeriodEnd chainHeight maxRoundsLate : Int) (hc : 0 ≤ c) :
    0 ≤ LatePoStFee c provingPeriodEnd chainHeight maxRoundsLate ∧
    LatePoStFee c provingPeriodEnd chainHeight maxRoundsLate ≤ c ∧
    (¬ (chainHeight - provingPeriodEnd ≥ maxRoundsLate) → chainHeight - provingPeriodEnd > 0 →
      0 < maxRoundsLate ∧ maxRoundsLate ≠ 0 ∧
      LatePoStFee c provingPeriodEnd chainHeight maxRoundsLate =
        c * (chainHeight - provingPeriodEnd) / maxRoundsLate) := by
  have hdiv : ¬ (chainHeight - provingPeriodEnd ≥ maxRoundsLate) →
      chainHeight - provingPeriodEnd > 0 → 0 < maxRoundsLate := by
    intro a b
    linarith
  unfold LatePoStFee
  simp only []
  by_cases a : chainHeight - provingPeriodEnd ≥ maxRoundsLate
  · rw [if_pos a]
    exact ⟨hc, le_refl _, fun h => absurd a h⟩
  · rw [if_neg a]
    by_cases b : chainHeight - provingPeriodEnd > 0
    · rw [if_pos b]
      have hm := hdiv a b
      refine ⟨Int.ediv_nonneg (mul_nonneg hc (le_of_lt b)) (le_of_lt hm), ?_, fun _ _ =>
        ⟨hm, ne_of_gt hm, rfl⟩⟩
      apply Int.ediv_le_of_le_mul hm
      have : chainHeight - provingPeriodEnd ≤ maxRoundsLate := by linarith
      exact mul_le_mul_of_nonneg_left this hc
    · rw [if_neg b]
      exact ⟨le_refl _, hc, fun _ h => absurd h b⟩

/-- C38, 33 rounds late with a pledge of 1000 and a grace window of 100. -/
theorem LatePoStFee_bounds_witness :
    (0 : Int) ≤ LatePoStFee 1000 20000 20033 100 ∧ LatePoStFee 1000 20000 20033 100 ≤ 1000 :=
  ⟨(LatePoStFee_bounds 1000 20000 20033 100 (by decide)).1,
    (LatePoStFee_bounds 1000 20000 20033 100 (by decide)).2.1⟩

/-- A submission no later than the end of the proving period owes no fee. -/
theorem requiredFee_on_time (ctx : VMContext) (st : State) (p : BlockHeight)
    (hh : ctx.BlockHeight ≤ p + 20000) : requiredFee ctx st p = 0 := by
  have h1 : ¬ (ctx.BlockHeight - (p + 20000) ≥ 100) := by
    intro h
    linarith
  have h2 : ¬ (ctx.BlockHeight - (p + 20000) > 0) := by
    intro h
    linarith
  rw [requiredFee_eq]
  unfold LatePoStFee
  simp only [h1, h2, if_false]

/-- C39: `SubmitPoSt` has no lower bound on the height. For an owner's call with gas at any
height `h ≤ p + 20000`, also below the start `p` of the proving period, the required fee
is zero and, with a proof that is accepted (or on a bootstrap actor), a message value from
zero up and transfers that go through, the call succeeds and moves `ProvingPeriodStart` to
`p + 20000`. A second such call at the same height on the resulting state succeeds as well
and leaves `ProvingPeriodStart` at `p + 40000`, two full proving periods later. -/
theorem SubmitPoSt_no_lower_bound (ma : Actor) (vf vf2 : Verifier) (ctx ctx2 : VMContext)
    (st : State) (poStProofs poStProofs2 : List Bytes) (p : BlockHeight)
    (hgas : ctx.Charge = none) (hown : ctx.Message.From = st.Owner)
    (hp : st.ProvingPeriodStart = some p)
    (hh : ctx.BlockHeight ≤ p + 20000)
    (hv : 0 ≤ ctx.Message.Value)
    (hburn : (ctx.Send 0 Address.BurntFundsAddress "" 0 []).err = none)
    (hrefund : 0 < ctx.Message.Value →
      (ctx.Send 1 ctx.Message.From "" ctx.Message.Value []).err = none)
    (hproof : ma.Bootstrap = true ∨
      ∃ seed, ctx.SampleChainRandomness (some p) = Except.ok seed ∧
        vf.VerifyPoST (postRequest st seed poStProofs) = Except.ok true) :
    requiredFee ctx st p = 0 ∧
    (SubmitPoSt ma vf ctx st poStProofs).err = none ∧
    (SubmitPoSt ma vf ctx st poStProofs).code = ExitCode.num 0 ∧
    (SubmitPoSt ma vf ctx st poStProofs).state.ProvingPeriodStart = some (p + 20000) ∧
    (ctx2.Charge = none → ctx2.Message.From = st.Owner →
      ctx2.BlockHeight = ctx.BlockHeight → 0 ≤ ctx2.Message.Value →
      (ctx2.Send 0 Address.BurntFundsAddress "" 0 []).err = none →
      (0 < ctx2.Message.Value →
        (ctx2.Send 1 ctx2.Message.From "" ctx2.Message.Value []).err = none) →
      (ma.Bootstrap = true ∨
        ∃ seed, ctx2.SampleChainRandomness (some (p + 20000)) = Except.ok seed ∧
          vf2.VerifyPoST (postRequest (SubmitPoSt ma vf ctx st poStProofs).state seed poStProofs2) =
            Except.ok true) →
      requiredFee ctx2 (SubmitPoSt ma vf ctx st poStProofs).state (p + 20000) = 0 ∧
      (SubmitPoSt ma vf2 ctx2 (SubmitPoSt ma vf ctx st poStProofs).state poStProofs2).err = none ∧
      (SubmitPoSt ma vf2 ctx2 (SubmitPoSt ma vf ctx st poStProofs).state poStProofs2).code =
        ExitCode.num 0 ∧
      (SubmitPoSt ma vf2 ctx2
        (SubmitPoSt ma vf ctx st poStProofs).state poStProofs2).state.ProvingPeriodStart =
          some (p + 40000)) := by
  have hfee : requiredFee ctx st p = 0 := requiredFee_on_time ctx st p hh
  have hacc := SubmitPoSt_accepted ma vf ctx st poStProofs p hgas hown hp (by linarith)
    (by rw [hfee]; exact hv) (by rw [hfee]; exact hburn)
    (by rw [hfee, sub_zero]; exact hrefund) hproof
  refine ⟨hfee, hacc.1, hacc.2.1, ?_, ?_⟩
  · rw [hacc.2.2]
    rfl
  · rw [hacc.2.2]
    intro hgas2 hown2 hh2 hv2 hburn2 hrefund2 hproof2
    have hp2 : (nextPeriodState ctx st p).ProvingPeriodStart = some (p + 20000) := rfl
    have hle2 : ctx2.BlockHeight ≤ (p + 20000) + 20000 := by
      rw [hh2]
      linarith
    have hfee2 : requiredFee ctx2 (nextPeriodState ctx st p) (p + 20000) = 0 :=
      requiredFee_on_time ctx2 (nextPeriodState ctx st p) (p + 20000) hle2
    have hacc2 := SubmitPoSt_accepted ma vf2 ctx2 (nextPeriodState ctx st p) poStProofs2
      (p + 20000) hgas2 hown2 hp2 (by linarith)
      (by rw [hfee2]; exact hv2) (by rw [hfee2]; exact hburn2)
      (by rw [hfee2, sub_zero]; exact hrefund2) hproof2
    refine ⟨hfee2, hacc2.1, hacc2.2.1, ?_⟩
    rw [hacc2.2.2]
    show some (p + 20000 + ((ProvingPeriodDuration (nextPeriodState ctx st p).SectorSize : Nat) : Int)) = _
    simp only [ProvingPeriodDuration, LargestSectorSizeProvingPeriodBlocks]
    push_cast
    congr 1
    ring

/-- C39, two proofs sent at height 3, below the start 5 of the proving period. -/
theorem SubmitPoSt_no_lower_bound_witness :
    (SubmitPoSt ⟨false⟩ acceptingVerifier
      (exampleCtx (Address.other 1) 0 3 MinimumCollateralPerSector)
      exampleCommitted [[1]]).state.ProvingPeriodStart = some (5 + 20000) ∧
    (SubmitPoSt ⟨false⟩ acceptingVerifier
      (exampleCtx (Address.other 1) 0 3 MinimumCollateralPerSector)
      (SubmitPoSt ⟨false⟩ acceptingVerifier
        (exampleCtx (Address.other 1) 0 3 MinimumCollateralPerSector)
        exampleCommitted [[1]]).state [[1]]).state.ProvingPeriodStart = some (5 + 40000) :=
  ⟨(SubmitPoSt_no_lower_bound ⟨false⟩ acceptingVerifier acceptingVerifier
      (exampleCtx (Address.other 1) 0 3 MinimumCollateralPerSector)
      (exampleCtx (Address.other 1) 0 3 MinimumCollateralPerSector) exampleCommitted [[1]] [[1]] 5
      rfl (by decide) (by decide) (by decide) (by decide) rfl (fun _ => rfl)
      (Or.inr ⟨[], rfl, rfl⟩)).2.2.2.1,
    ((SubmitPoSt_no_lower_bound ⟨false⟩ acceptingVerifier acceptingVerifier
      (exampleCtx (Address.other 1) 0 3 MinimumCollateralPerSector)
      (exampleCtx (Address.other 1) 0 3 MinimumCollateralPerSector) exampleCommitted [[1]] [[1]] 5
      rfl (by decide) (by decide) (by decide) (by decide) rfl (fun _ => rfl)
      (Or.inr ⟨[], rfl, rfl⟩)).2.2.2.2
      rfl (by decide) rfl (by decide) rfl (fun _ => rfl) (Or.inr ⟨[], rfl, rfl⟩)).2.2.2⟩

end Miner

/-! # Theorems on the mining worker -/

namespace Mining

/-- The run of Mine on a defined base with a state tree, a live context, a challenge
seed, a ticket and a winning draw: it calls `Generate` with the nil proof, sends what
`Generate` returned and returns true. -/
theorem Mine_winner (cs : Consensus) (w : DefaultWorker) (ctx : Context) (base : TipSet)
    (nullBlkCount : Int) (st : StateTree) (challenge ticket : Bytes)
    (hbase : base.Defined = true) (hst : w.getStateTree base = Except.ok st)
    (hctx : ctx.Err = false)
    (hseed : cs.CreateChallengeSeed base (uint64 nullBlkCount) = Except.ok challenge)
    (hsel : ctx.DoneFirst = false)
    (hticket : cs.CreateTicket challenge w.minerPubKey = Except.ok ticket)
    (hwin : cs.IsWinningTicket st ticket w.minerAddr = Except.ok true) :
    Mine cs w ctx base nullBlkCount =
      { ret := true
        outputs := [NewOutput (w.Generate base ticket [] (uint64 nullBlkCount)).next
          (w.Generate base ticket [] (uint64 nullBlkCount)).err]
        events := [Event.createTicket challenge w.minerPubKey,
          Event.isWinningTicket st ticket w.minerAddr,
          Event.generate base ticket [] (uint64 nullBlkCount)] } := by
  simp [Mine, hbase, hst, hctx, hseed, hsel, createProof, Chan.recv, hticket, hwin]

/-- Mine returns true only on a winning draw, Mine sends at most one output, and every
proof it hands to `Generate` is the nil slice. -/
theorem Mine_cases (cs : Consensus) (w : DefaultWorker) (ctx : Context) (base : TipSet)
    (nullBlkCount : Int) :
    ((Mine cs w ctx base nullBlkCount).ret = false ∧
      (∀ o ∈ (Mine cs w ctx base nullBlkCount).outputs, o.NewBlock = none ∧ o.Err ≠ none) ∧
      generateProofs (Mine cs w ctx base nullBlkCount).events = []) ∨
    (∃ st challenge ticket, base.Defined = true ∧ w.getStateTree base = Except.ok st ∧
      ctx.Err = false ∧
      cs.CreateChallengeSeed base (uint64 nullBlkCount) = Except.ok challenge ∧
      ctx.DoneFirst = false ∧
      cs.CreateTicket challenge w.minerPubKey = Except.ok ticket ∧
      cs.IsWinningTicket st ticket w.minerAddr = Except.ok true) := by
  unfold Mine
  cases hb : base.Defined
  · left
    simp [generateProofs]
  · cases hst : w.getStateTree base with
    | error err => left; simp [generateProofs]
    | ok st =>
      cases hc : ctx.Err
      · cases hs : cs.CreateChallengeSeed base (uint64 nullBlkCount) with
        | error err => left; simp [generateProofs]
        | ok challenge =>
          cases hd : ctx.DoneFirst
          · cases ht : cs.CreateTicket challenge w.minerPubKey with
            | error err => left; simp [createProof, Chan.recv, ht, generateProofs]
            | ok ticket =>
              cases hw : cs.IsWinningTicket st ticket w.minerAddr with
              | error err => left; simp [createProof, Chan.recv, ht, hw, generateProofs]
              | ok win =>
                cases win
                · left; simp [createProof, Chan.recv, ht, hw, generateProofs]
                · right
                  exact ⟨st, challenge, ticket, rfl, rfl, rfl, rfl, rfl, ht, hw⟩
          · left; simp [generateProofs]
      · left; simp [generateProofs]

/-- C31: the bool returned by `Mine` against the documented meaning "this miner created
a new block". One direction holds: whenever Mine sent an output carrying a new block
(`NewBlock` set, `Err` nil) it returned true. The other fails: on a winning ticket Mine
returns true whatever `Generate` returned, so when `Generate` fails with error `e` Mine
sends the single output with `Err = e`, no output carrying a block, and still returns
true. -/
theorem Mine_true_without_block (cs : Consensus) (w : DefaultWorker) (ctx : Context)
    (base : TipSet) (nullBlkCount : Int) :
    ((Mine cs w ctx base nullBlkCount).sentBlock = true →
      (Mine cs w ctx base nullBlkCount).ret = true) ∧
    (∀ (st : StateTree) (challenge ticket : Bytes) (e : Error),
      base.Defined = true → w.getStateTree base = Except.ok st → ctx.Err = false →
      cs.CreateChallengeSeed base (uint64 nullBlkCount) = Except.ok challenge →
      ctx.DoneFirst = false →
      cs.CreateTicket challenge w.minerPubKey = Except.ok ticket →
      cs.IsWinningTicket st ticket w.minerAddr = Except.ok true →
      (w.Generate base ticket [] (uint64 nullBlkCount)).err = some e →
      (Mine cs w ctx base nullBlkCount).ret = true ∧
      (Mine cs w ctx base nullBlkCount).outputs =
        [{ NewBlock := (w.Generate base ticket [] (uint64 nullBlkCount)).next, Err := some e }] ∧
      (Mine cs w ctx base nullBlkCount).sentBlock = false) := by
  constructor
  · intro hsent
    rcases Mine_cases cs w ctx base nullBlkCount with ⟨_, hout, _⟩ | ⟨st, challenge, ticket, h⟩
    · exfalso
      simp only [Run.sentBlock, List.any_eq_true] at hsent
      obtain ⟨o, ho, hc⟩ := hsent
      have := (hout o ho).1
      simp [Output.carriesBlock, this] at hc
    · obtain ⟨h1, h2, h3, h4, h5, h6, h7⟩ := h
      rw [Mine_winner cs w ctx base nullBlkCount st challenge ticket h1 h2 h3 h4 h5 h6 h7]
  · intro st challenge ticket e h1 h2 h3 h4 h5 h6 h7 he
    rw [Mine_winner cs w ctx base nullBlkCount st challenge ticket h1 h2 h3 h4 h5 h6 h7]
    simp [Run.sentBlock, Output.carriesBlock, NewOutput, he]

/-- C31, on a worker whose `Generate` fails after a winning draw: Mine returns true and
sends only the error. -/
theorem Mine_true_without_block_witness :
    (Mine alwaysWinning failingWorker liveContext exampleBase 0).ret = true ∧
    (Mine alwaysWinning failingWorker liveContext exampleBase 0).outputs =
      [{ NewBlock := none, Err := some "generate failed" }] ∧
    (Mine alwaysWinning failingWorker liveContext exampleBase 0).sentBlock = false :=
  (Mine_true_without_block alwaysWinning failingWorker liveContext exampleBase 0).2
    0 (List.replicate 32 7) (List.replicate 32 7) "generate failed"
    rfl rfl rfl rfl rfl rfl rfl rfl

/-- C40: the proof `Mine` passes to `Generate` against the proof the ticket was created
from. In every run each proof handed to `Generate` is the nil slice. On a winning draw
the ticket is created from the bytes of the challenge seed delivered by `createProof`,
and `Generate` is called once, with the nil proof: the two differ whenever the seed is
not empty (a seed has 32 bytes). -/
theorem Mine_generate_proof (cs : Consensus) (w : DefaultWorker) (ctx : Context)
    (base : TipSet) (nullBlkCount : Int) :
    (∀ p ∈ generateProofs (Mine cs w ctx base nullBlkCount).events, p = []) ∧
    ((createProof (List.replicate PoStChallengeSeedBytesLen 0)).recv =
      (List.replicate PoStChallengeSeedBytesLen 0, true)) ∧
    (∀ (st : StateTree) (challenge ticket : Bytes),
      base.Defined = true → w.getStateTree base = Except.ok st → ctx.Err = false →
      cs.CreateChallengeSeed base (uint64 nullBlkCount) = Except.ok challenge →
      ctx.DoneFirst = false →
      cs.CreateTicket challenge w.minerPubKey = Except.ok ticket →
      cs.IsWinningTicket st ticket w.minerAddr = Except.ok true →
      ticketProofs (Mine cs w ctx base nullBlkCount).events = [challenge] ∧
      generateProofs (Mine cs w ctx base nullBlkCount).events = [[]] ∧
      (challenge ≠ [] →
        generateProofs (Mine cs w ctx base nullBlkCount).events ≠
          ticketProofs (Mine cs w ctx base nullBlkCount).events)) := by
  refine ⟨?_, rfl, ?_⟩
  · intro p hp
    rcases Mine_cases cs w ctx base nullBlkCount with ⟨_, _, hgen⟩ | ⟨st, challenge, ticket, h⟩
    · rw [hgen] at hp
      exact absurd hp (List.not_mem_nil p)
    · obtain ⟨h1, h2, h3, h4, h5, h6, h7⟩ := h
      rw [Mine_winner cs w ctx base nullBlkCount st challenge ticket h1 h2 h3 h4 h5 h6 h7] at hp
      simpa [generateProofs] using hp
  · intro st challenge ticket h1 h2 h3 h4 h5 h6 h7
    rw [Mine_winner cs w ctx base nullBlkCount st challenge ticket h1 h2 h3 h4 h5 h6 h7]
    refine ⟨by simp [ticketProofs], by simp [generateProofs], ?_⟩
    intro hne
    simp only [ticketProofs, generateProofs]
    intro heq
    exact hne (List.cons.inj heq).1.symm

/-- C40, on a worker that generates a block after a winning draw: the ticket comes from
the 32 seed bytes, `Generate` gets the empty proof. -/
theorem Mine_generate_proof_witness :
    ticketProofs (Mine alwaysWinning workingWorker liveContext exampleBase 0).events =
      [List.replicate 32 7] ∧
    generateProofs (Mine alwaysWinning workingWorker liveContext exampleBase 0).events = [[]] ∧
    generateProofs (Mine alwaysWinning workingWorker liveContext exampleBase 0).events ≠
      ticketProofs (Mine alwaysWinning workingWorker liveContext exampleBase 0).events :=
  ⟨((Mine_generate_proof alwaysWinning workingWorker liveContext exampleBase 0).2.2
      0 (List.replicate 32 7) (List.replicate 32 7) rfl rfl rfl rfl rfl rfl rfl).1,
    ((Mine_generate_proof alwaysWinning workingWorker liveContext exampleBase 0).2.2
      0 (List.replicate 32 7) (List.replicate 32 7) rfl rfl rfl rfl rfl rfl rfl).2.1,
    ((Mine_generate_proof alwaysWinning workingWorker liveContext exampleBase 0).2.2
      0 (List.replicate 32 7) (List.replicate 32 7) rfl rfl rfl rfl rfl rfl rfl).2.2
      (by decide)⟩

end Mining

/-! # Theorems on the ancestry functions -/

namespace Chain

/-! ## Iterators over a walk -/

theorem walk_Walks (store : Store) (fuel : Nat) (t : TipSet) (ts : List TipSet)
    (h : walk store fuel t = some ts) : Walks store ts ∧ ∃ rest, ts = t :: rest := by
  induction fuel generalizing t ts with
  | zero => simp [walk] at h
  | succ fuel ih =>
    unfold walk at h
    cases hp : t.parents with
    | none =>
      rw [hp] at h
      simp only [Option.some.injEq] at h
      subst h
      exact ⟨Walks.genesis t hp, [], rfl⟩
    | some parent =>
      rw [hp] at h
      simp only at h
      cases hs : store parent with
      | none => rw [hs] at h; simp at h
      | some p =>
        rw [hs] at h
        simp only at h
        cases hw : walk store fuel p with
        | none => rw [hw] at h; simp at h
        | some rest =>
          rw [hw] at h
          simp only [Option.some.injEq] at h
          subst h
          obtain ⟨hr, rest2, hrest⟩ := ih p rest hw
          subst hrest
          exact ⟨Walks.step t p parent rest2 hp hs hr, p :: rest2, rfl⟩

theorem Walks_tail (store : Store) (t : TipSet) (rest : List TipSet)
    (h : Walks store (t :: rest)) : Walks store rest := by
  cases h with
  | genesis _ _ => exact Walks.nil
  | step _ _ _ _ _ _ hr => exact hr

theorem Next_iterAt (store : Store) (t : TipSet) (rest : List TipSet)
    (h : Walks store (t :: rest)) :
    (iterAt store (t :: rest)).Next = Except.ok (iterAt store rest) := by
  cases h with
  | genesis _ hp => simp [TipsetIterator.Next, iterAt, hp]
  | step _ p parent rest2 hp hs hr => simp [TipsetIterator.Next, iterAt, hp, hs]

theorem CollectAtMostNTipSets_iterAt (store : Store) (l : List TipSet) (n : Nat)
    (h : Walks store l) :
    CollectAtMostNTipSets (iterAt store l) n = Except.ok (l.take n) := by
  induction n generalizing l with
  | zero => simp [CollectAtMostNTipSets]
  | succ n ih =>
    cases l with
    | nil => simp [CollectAtMostNTipSets, iterAt]
    | cons t rest =>
      have hn := Next_iterAt store t rest h
      have hr := ih rest (Walks_tail store t rest h)
      unfold CollectAtMostNTipSets
      have hv : (iterAt store (t :: rest)).value = some t := rfl
      simp only [hv, hn, hr, List.take_succ_cons]

theorem CollectTipSetsOfHeightAtLeast_iterAt (store : Store) (l : List TipSet) (fuel : Nat)
    (minHeight : Int) (h : Walks store l) (hfuel : l.length < fuel) :
    CollectTipSetsOfHeightAtLeast fuel (iterAt store l) minHeight =
      Except.ok (l.takeWhile (heightAtLeast minHeight),
        iterAt store (l.dropWhile (heightAtLeast minHeight))) := by
  induction fuel generalizing l with
  | zero => exact absurd hfuel (Nat.not_lt_zero _)
  | succ fuel ih =>
    cases l with
    | nil => simp [CollectTipSetsOfHeightAtLeast, iterAt]
    | cons t rest =>
      have hv : (iterAt store (t :: rest)).value = some t := rfl
      unfold CollectTipSetsOfHeightAtLeast
      simp only [hv]
      by_cases hlow : (t.height : Int) < minHeight
      · have hp : heightAtLeast minHeight t = false := by
          simp [heightAtLeast, hlow]
        simp [hlow, List.takeWhile_cons, List.dropWhile_cons, hp]
      · have hp : heightAtLeast minHeight t = true := by
          simp only [heightAtLeast, decide_eq_true_eq]
          exact not_lt.mp hlow
        have hn := Next_iterAt store t rest h
        have hr := ih rest (Walks_tail store t rest h)
          (by simp only [List.length_cons] at hfuel; omega)
        simp only [hlow, if_false, hn, hr, List.takeWhile_cons, List.dropWhile_cons, hp, if_true]

theorem Walks_dropWhile (store : Store) (p : TipSet → Bool) (l : List TipSet)
    (h : Walks store l) : Walks store (l.dropWhile p) := by
  induction l with
  | nil => exact Walks.nil
  | cons t rest ih =>
    rw [List.dropWhile_cons]
    split
    · exact ih (Walks_tail store t rest h)
    · exact h

theorem GetRecentAncestors_iterAt (store : Store) (t : TipSet) (rest : List TipSet)
    (fuel : Nat) (currentHeight lookbackEpochs : Int) (lookbackExtra : Nat)
    (h : Walks store (t :: rest)) (hfuel : (t :: rest).length < fuel) :
    GetRecentAncestors fuel t store currentHeight lookbackEpochs lookbackExtra =
      Except.ok ((t :: rest).takeWhile (heightAtLeast (currentHeight - lookbackEpochs)) ++
        ((t :: rest).dropWhile (heightAtLeast (currentHeight - lookbackEpochs))).take
          lookbackExtra) := by
  have h1 := CollectTipSetsOfHeightAtLeast_iterAt store (t :: rest) fuel
    (currentHeight - lookbackEpochs) h hfuel
  have hw : Walks store ((t :: rest).dropWhile (heightAtLeast (currentHeight - lookbackEpochs))) :=
    Walks_dropWhile store _ _ h
  have h2 := CollectAtMostNTipSets_iterAt store
    ((t :: rest).dropWhile (heightAtLeast (currentHeight - lookbackEpochs))) lookbackExtra hw
  have hi : IterAncestors store t = iterAt store (t :: rest) := rfl
  unfold GetRecentAncestors
  rw [hi, h1]
  simp only [h2]

/-! ## The co-walk of `FindCommonAncestor` -/

theorem Descending_cons (a : TipSet) (l : List TipSet) :
    Descending (a :: l) ↔ (∀ y ∈ l, y.height < a.height) ∧ Descending l := by
  unfold Descending
  exact List.pairwise_cons

theorem Descending_head_max (a c : TipSet) (l : List TipSet) (h : Descending (a :: l))
    (hc : c ∈ a :: l) (hle : a.height ≤ c.height) : c = a := by
  rcases List.mem_cons.mp hc with h1 | h1
  · exact h1
  · have := ((Descending_cons a l).mp h).1 c h1
    omega

theorem FindCommonAncestor_iterAt (store : Store) (fuel : Nat) (la lb : List TipSet)
    (hfuel : la.length + lb.length ≤ fuel)
    (hwa : Walks store la) (hwb : Walks store lb)
    (hda : Descending la) (hdb : Descending lb)
    (hg : ∃ g, g ∈ la ∧ g ∈ lb) :
    ∃ c, FindCommonAncestor fuel (iterAt store la) (iterAt store lb) = Except.ok c ∧
      c ∈ la ∧ c ∈ lb ∧ ∀ d, d ∈ la → d ∈ lb → d.height ≤ c.height := by
  induction fuel generalizing la lb with
  | zero =>
    obtain ⟨g, hga, _⟩ := hg
    have : 0 < la.length := List.length_pos_of_mem hga
    omega
  | succ fuel ih =>
    obtain ⟨g, hga, hgb⟩ := hg
    cases la with
    | nil => exact absurd hga (List.not_mem_nil g)
    | cons a ra =>
      cases lb with
      | nil => exact absurd hgb (List.not_mem_nil g)
      | cons b rb =>
        have hva : (iterAt store (a :: ra)).value = some a := rfl
        have hvb : (iterAt store (b :: rb)).value = some b := rfl
        have hna := Next_iterAt store a ra hwa
        have hnb := Next_iterAt store b rb hwb
        have hda2 := (Descending_cons a ra).mp hda
        have hdb2 := (Descending_cons b rb).mp hdb
        simp only [List.length_cons] at hfuel
        unfold FindCommonAncestor
        simp only [hva, hvb]
        by_cases hab : a = b
        · subst hab
          refine ⟨a, by simp, List.mem_cons_self _ _, List.mem_cons_self _ _, ?_⟩
          intro d hd _
          rcases List.mem_cons.mp hd with h1 | h1
          · rw [h1]
          · exact le_of_lt (hda2.1 d h1)
        · rw [if_neg hab]
          rcases Nat.lt_trichotomy a.height b.height with hlt | heq | hgt
          · -- the right side is higher: only it moves
            have hnot : ¬ (b.height ≤ a.height) := by omega
            have hle : a.height ≤ b.height := by omega
            have hbnot : b ∉ a :: ra := by
              intro hm
              rcases List.mem_cons.mp hm with h1 | h1
              · exact hab h1.symm
              · have := hda2.1 b h1
                omega
            have hgne : g ≠ b := fun h => hbnot (h ▸ hga)
            have hgrb : g ∈ rb := (List.mem_cons.mp hgb).resolve_left hgne
            obtain ⟨c, hc, hca, hcb, hmax⟩ := ih (a :: ra) rb
              (by simp only [List.length_cons]; omega) hwa (Walks_tail store b rb hwb) hda hdb2.2
              ⟨g, hga, hgrb⟩
            refine ⟨c, ?_, hca, List.mem_cons_of_mem _ hcb, ?_⟩
            · simp only [hnot, hle, if_false, if_true, hnb]
              exact hc
            · intro d hd hdb3
              rcases List.mem_cons.mp hdb3 with h1 | h1
              · exact absurd (h1 ▸ hd) hbnot
              · exact hmax d hd h1
          · -- a tie between two different tipsets: both sides move
            have hle1 : b.height ≤ a.height := by omega
            have hle2 : a.height ≤ b.height := by omega
            have hanot : a ∉ b :: rb := by
              intro hm
              rcases List.mem_cons.mp hm with h1 | h1
              · exact hab h1
              · have := hdb2.1 a h1
                omega
            have hbnot : b ∉ a :: ra := by
              intro hm
              rcases List.mem_cons.mp hm with h1 | h1
              · exact hab h1.symm
              · have := hda2.1 b h1
                omega
            have hgra : g ∈ ra :=
              (List.mem_cons.mp hga).resolve_left (fun h => hanot (h ▸ hgb))
            have hgrb : g ∈ rb :=
              (List.mem_cons.mp hgb).resolve_left (fun h => hbnot (h ▸ hga))
            obtain ⟨c, hc, hca, hcb, hmax⟩ := ih ra rb (by omega)
              (Walks_tail store a ra hwa) (Walks_tail store b rb hwb) hda2.2 hdb2.2
              ⟨g, hgra, hgrb⟩
            refine ⟨c, ?_, List.mem_cons_of_mem _ hca, List.mem_cons_of_mem _ hcb, ?_⟩
            · simp only [hle1, hle2, if_true, hna, hnb]
              exact hc
            · intro d hd hdb3
              rcases List.mem_cons.mp hd with h1 | h1
              · exact absurd (h1 ▸ hdb3) hanot
              · rcases List.mem_cons.mp hdb3 with h2 | h2
                · exact absurd (h2 ▸ hd) hbnot
                · exact hmax d h1 h2
          · -- the left side is higher: only it moves
            have hnot : ¬ (a.height ≤ b.height) := by omega
            have hle : b.height ≤ a.height := by omega
            have hanot : a ∉ b :: rb := by
              intro hm
              rcases List.mem_cons.mp hm with h1 | h1
              · exact hab h1
              · have := hdb2.1 a h1
                omega
            have hgra : g ∈ ra :=
              (List.mem_cons.mp hga).resolve_left (fun h => hanot (h ▸ hgb))
            obtain ⟨c, hc, hca, hcb, hmax⟩ := ih ra (b :: rb)
              (by simp only [List.length_cons]; omega) (Walks_tail store a ra hwa) hwb hda2.2 hdb
              ⟨g, hgra, hgb⟩
            refine ⟨c, ?_, List.mem_cons_of_mem _ hca, hcb, ?_⟩
            · simp only [hnot, hle, if_false, if_true, hna]
              exact hc
            · intro d hd hdb3
              rcases List.mem_cons.mp hd with h1 | h1
              · exact absurd (h1 ▸ hdb3) hanot
              · exact hmax d h1 hdb3

/-! ## Lists of tipsets -/

theorem heightAtLeast_max (m : Int) : heightAtLeast (max 0 m) = heightAtLeast m := by
  funext t
  simp only [heightAtLeast]
  have h0 : (0 : Int) ≤ (t.height : Int) := Int.ofNat_nonneg _
  by_cases h : m ≤ (t.height : Int)
  · simp [h, h0]
  · simp [h]

theorem heightAtLeast_of_nonpos (m : Int) (hm : m ≤ 0) (l : List TipSet) :
    l.takeWhile (heightAtLeast m) = l := by
  induction l with
  | nil => rfl
  | cons t rest ih =>
    have hp : heightAtLeast m t = true := by
      simp only [heightAtLeast, decide_eq_true_eq]
      have h0 : (0 : Int) ≤ (t.height : Int) := Int.ofNat_nonneg _
      omega
    rw [List.takeWhile_cons, hp, if_pos rfl, ih]

theorem dropWhile_head_low (m : Int) (l : List TipSet) (t : TipSet)
    (h : (l.dropWhile (heightAtLeast m)).head? = some t) : (t.height : Int) < m := by
  induction l with
  | nil => simp at h
  | cons x rest ih =>
    rw [List.dropWhile_cons] at h
    by_cases hp : heightAtLeast m x = true
    · rw [if_pos hp] at h
      exact ih h
    · rw [if_neg hp] at h
      simp only [List.head?_cons, Option.some.injEq] at h
      subst h
      simp only [heightAtLeast, decide_eq_true_eq] at hp
      omega

theorem takeWhile_append_left (p : TipSet → Bool) (pre suf : List TipSet)
    (h : ∀ t ∈ pre, p t = true) :
    (pre ++ suf).takeWhile p = pre ++ suf.takeWhile p := by
  induction pre with
  | nil => rfl
  | cons x rest ih =>
    have hx : p x = true := h x (List.mem_cons_self _ _)
    rw [List.cons_append, List.takeWhile_cons, hx, if_pos rfl,
      ih (fun t ht => h t (List.mem_cons_of_mem _ ht)), List.cons_append]

theorem takeWhile_eq_filter_of_Descending (m : Int) (l : List TipSet) (h : Descending l) :
    l.takeWhile (heightAtLeast m) = l.filter (heightAtLeast m) := by
  induction l with
  | nil => rfl
  | cons x rest ih =>
    have hd := (Descending_cons x rest).mp h
    by_cases hp : heightAtLeast m x = true
    · rw [List.takeWhile_cons, if_pos hp, List.filter_cons, if_pos hp, ih hd.2]
    · rw [List.takeWhile_cons, if_neg hp, List.filter_cons, if_neg hp]
      symm
      rw [List.filter_eq_nil_iff]
      intro y hy
      have hlt := hd.1 y hy
      simp only [heightAtLeast, decide_eq_true_eq] at hp ⊢
      omega

theorem takeWhile_noNullRounds (m : Int) (l : List TipSet) (h : noNullRounds l = true) :
    (l.takeWhile (heightAtLeast m)).length = l.length - m.toNat := by
  induction l with
  | nil => simp
  | cons x rest ih =>
    simp only [noNullRounds, Bool.and_eq_true, decide_eq_true_eq] at h
    by_cases hp : heightAtLeast m x = true
    · rw [List.takeWhile_cons, if_pos hp, List.length_cons, ih h.2, List.length_cons]
      simp only [heightAtLeast, decide_eq_true_eq] at hp
      omega
    · rw [List.takeWhile_cons, if_neg hp, List.length_cons, List.length_nil]
      simp only [heightAtLeast, decide_eq_true_eq] at hp
      omega

theorem append_take (a b : List TipSet) (n : Nat) :
    a ++ b.take n = (a ++ b).take (a.length + min n b.length) := by
  rw [List.take_append]
  congr 1
  rw [List.take_eq_take]
  omega

/-! ## The collectors on a chain that reaches genesis -/

/-- C32: on a chain whose traversal from `start` to genesis is `ts`, for every `n`
`CollectAtMostNTipSets(IterAncestors(store, start), n)` returns without error the first
`n` tipsets of the traversal, head first: `min n L` tipsets for a traversal of length `L`,
and all of it when `L ≤ n`. -/
theorem CollectAtMostNTipSets_take (store : Store) (fuel : Nat) (start : TipSet)
    (ts : List TipSet) (n : Nat) (hwalk : walk store fuel start = some ts) :
    CollectAtMostNTipSets (IterAncestors store start) n = Except.ok (ts.take n) ∧
    (ts.take n).length = min n ts.length ∧
    (ts.length ≤ n → ts.take n = ts) := by
  obtain ⟨hw, rest, hts⟩ := walk_Walks store fuel start ts hwalk
  subst hts
  exact ⟨CollectAtMostNTipSets_iterAt store (start :: rest) n hw, List.length_take _ _,
    List.take_of_length_le⟩

/-- C32, on the chain of 25 tipsets: 10 asked gives the first 10, 400 asked gives
all 25. -/
theorem CollectAtMostNTipSets_take_witness :
    CollectAtMostNTipSets (IterAncestors linearStore (tip 24)) 10 =
      Except.ok ((linearChain 25).take 10) ∧
    ((linearChain 25).take 10).length = min 10 (linearChain 25).length ∧
    CollectAtMostNTipSets (IterAncestors linearStore (tip 24)) 400 =
      Except.ok ((linearChain 25).take 400) ∧
    (linearChain 25).take 400 = linearChain 25 :=
  ⟨(CollectAtMostNTipSets_take linearStore 25 (tip 24) (linearChain 25) 10 (by decide)).1,
    (CollectAtMostNTipSets_take linearStore 25 (tip 24) (linearChain 25) 10 (by decide)).2.1,
    (CollectAtMostNTipSets_take linearStore 25 (tip 24) (linearChain 25) 400 (by decide)).1,
    (CollectAtMostNTipSets_take linearStore 25 (tip 24) (linearChain 25) 400 (by decide)).2.2
      (by decide)⟩

/-- C33: on a chain whose traversal from `start` to genesis is `ts`, with or without
null rounds, and with fuel above its length, `CollectTipSetsOfHeightAtLeast(IterAncestors(
store, start), minHeight)` returns the longest prefix of `ts` all of whose tipsets have
height at least `minHeight`, head first: every tipset returned has such a height, every
prefix of `ts` with that property is no longer, the traversal is the result followed by
the tipsets left out, the first of which (where the iterator stops) is below `minHeight`,
and with `minHeight ≤ 0` the result is the whole traversal. -/
theorem CollectTipSetsOfHeightAtLeast_longest (store : Store) (fuel fuel2 : Nat) (start : TipSet)
    (ts : List TipSet) (minHeight : Int) (hwalk : walk store fuel start = some ts)
    (hfuel : ts.length < fuel2) :
    ∃ it, CollectTipSetsOfHeightAtLeast fuel2 (IterAncestors store start) minHeight =
        Except.ok (ts.takeWhile (heightAtLeast minHeight), it) ∧
      it.value = (ts.dropWhile (heightAtLeast minHeight)).head? ∧
      ts = ts.takeWhile (heightAtLeast minHeight) ++ ts.dropWhile (heightAtLeast minHeight) ∧
      (∀ t ∈ ts.takeWhile (heightAtLeast minHeight), minHeight ≤ (t.height : Int)) ∧
      (∀ t, (ts.dropWhile (heightAtLeast minHeight)).head? = some t →
        (t.height : Int) < minHeight) ∧
      (∀ pre suf, ts = pre ++ suf → (∀ t ∈ pre, minHeight ≤ (t.height : Int)) →
        pre.length ≤ (ts.takeWhile (heightAtLeast minHeight)).length) ∧
      (minHeight ≤ 0 → ts.takeWhile (heightAtLeast minHeight) = ts) := by
  obtain ⟨hw, rest, hts⟩ := walk_Walks store fuel start ts hwalk
  refine ⟨iterAt store (ts.dropWhile (heightAtLeast minHeight)), ?_, rfl,
    (List.takeWhile_append_dropWhile _ _).symm, ?_, ?_, ?_, ?_⟩
  · have := CollectTipSetsOfHeightAtLeast_iterAt store ts fuel2 minHeight hw hfuel
    rw [hts] at this ⊢
    exact this
  · intro t ht
    have := List.mem_takeWhile_imp ht
    simpa [heightAtLeast] using this
  · intro t ht
    exact dropWhile_head_low minHeight ts t ht
  · intro pre suf hsplit hall
    have hp : ∀ t ∈ pre, heightAtLeast minHeight t = true := by
      intro t ht
      simp only [heightAtLeast, decide_eq_true_eq]
      exact hall t ht
    rw [hsplit, takeWhile_append_left _ pre suf hp, List.length_append]
    omega
  · intro hm
    exact heightAtLeast_of_nonpos minHeight hm ts

/-- C33, on the branch of `forkStore` with null rounds at heights 2 to 4, for minimum
height 3: only the head, at height 5, is returned. -/
theorem CollectTipSetsOfHeightAtLeast_longest_witness :
    ∃ it, CollectTipSetsOfHeightAtLeast 4 (IterAncestors forkStore ⟨20, 5, some 1⟩) 3 =
      Except.ok ([⟨20, 5, some 1⟩], it) :=
  (CollectTipSetsOfHeightAtLeast_longest forkStore 3 4 ⟨20, 5, some 1⟩
    [⟨20, 5, some 1⟩, ⟨1, 1, some 0⟩, ⟨0, 0, none⟩] 3 (by decide) (by decide)).imp
    (fun _ h => h.1)

/-! ## The expectations of `get_ancestors_test.go` on the model -/

theorem test_CollectTipSetsOfHeightAtLeast :
    ((CollectTipSetsOfHeightAtLeast 16 (IterAncestors linearStore (tip 14)) 4).toOption.map
      (fun r => (r.1.length, r.1.head?.map TipSet.height, r.1.getLast?.map TipSet.height))) =
      some (11, some 14, some 4) := by
  decide

theorem test_CollectTipSetsOfHeightAtLeastZero :
    ((CollectTipSetsOfHeightAtLeast 26 (IterAncestors linearStore (tip 24)) 0).toOption.map
      (fun r => (r.1.length, r.1.head?.map TipSet.height, r.1.getLast?.map TipSet.height))) =
      some (25, some 24, some 0) := by
  decide

theorem test_CollectTipSetsOfHeightAtLeastStartingEpochIsNull :
    ((CollectTipSetsOfHeightAtLeast 52 (IterAncestors nullRoundStore nullRoundHead) 35).toOption.map
      (fun r => (r.1.length, r.1.head?.map TipSet.height, r.1.getLast?.map TipSet.height))) =
      some (20, some 60, some 41) := by
  decide

theorem test_GetRecentAncestorsStartingEpochIsNull :
    ((GetRecentAncestors 52 nullRoundHead nullRoundStore (60 + 1) 28 6).toOption.map
      (fun r => (r.length, r.getLast?.map TipSet.height))) = some (26, some 25) := by
  decide

/-- C34, counterexample: the chain of `TestGetRecentAncestorsStartingEpochIsNull`, 51
tipsets with null rounds at heights 31 to 40 and the head at height 60. With 28 epochs and
a lookback of 6, `GetRecentAncestors(head, store, 61, 28, 6)` returns 26 tipsets, as the
test expects, not `min(51, 28 + 6) = 34`. Likewise on the branch of `forkStore` with head
at height 5 above null rounds at 2 to 4: 3 tipsets to genesis, and 3 epochs with a
lookback of 1 give 2 tipsets, not `min(3, 3 + 1) = 3`. -/
theorem GetRecentAncestors_size_counterexample :
    (walk nullRoundStore 51 nullRoundHead).map List.length = some 51 ∧
    (GetRecentAncestors 52 nullRoundHead nullRoundStore (60 + 1) 28 6).toOption.map List.length =
      some 26 ∧
    26 ≠ min 51 (28 + 6) ∧
    walk forkStore 3 ⟨20, 5, some 1⟩ =
      some [⟨20, 5, some 1⟩, ⟨1, 1, some 0⟩, ⟨0, 0, none⟩] ∧
    GetRecentAncestors 4 ⟨20, 5, some 1⟩ forkStore (5 + 1) 3 1 =
      Except.ok [⟨20, 5, some 1⟩, ⟨1, 1, some 0⟩] ∧
    ([⟨20, 5, some 1⟩, ⟨1, 1, some 0⟩] : List TipSet).length ≠ min 3 (3 + 1) :=
  ⟨by decide, by decide, by decide, by decide, rfl, by decide⟩

/-- C34, amended: on a chain whose traversal from `head` to genesis is `ts`, of length
`L`, with fuel above `L`, `GetRecentAncestors(head, store, height(head) + 1, epochs,
lookback)` returns without error `w + min(lookback, L − w)` tipsets, where `w` is the
number of leading tipsets of height at least `height(head) + 1 − epochs`. On a chain
without null rounds that is `min(L, epochs + lookback)`. The first element is `head`
whenever `epochs + lookback > 0`. -/
theorem GetRecentAncestors_size (store : Store) (fuel fuel2 : Nat) (head : TipSet)
    (ts : List TipSet) (epochs lookback : Nat) (hwalk : walk store fuel head = some ts)
    (hfuel : ts.length < fuel2) :
    ∃ r, GetRecentAncestors fuel2 head store ((head.height : Int) + 1) (epochs : Int) lookback =
        Except.ok r ∧
      r.length = (ts.takeWhile (heightAtLeast ((head.height : Int) + 1 - epochs))).length +
        min lookback
          (ts.length - (ts.takeWhile (heightAtLeast ((head.height : Int) + 1 - epochs))).length) ∧
      (noNullRounds ts = true → r.length = min ts.length (epochs + lookback)) ∧
      (0 < epochs + lookback → r.head? = some head) := by
  obtain ⟨hw, rest, hts⟩ := walk_Walks store fuel head ts hwalk
  subst hts
  have hres := GetRecentAncestors_iterAt store head rest fuel2 ((head.height : Int) + 1)
    (epochs : Int) lookback hw hfuel
  have hlen : ((head :: rest).dropWhile (heightAtLeast ((head.height : Int) + 1 - epochs))).length =
      (head :: rest).length -
        ((head :: rest).takeWhile (heightAtLeast ((head.height : Int) + 1 - epochs))).length := by
    have h1 := congrArg List.length
      (List.takeWhile_append_dropWhile (heightAtLeast ((head.height : Int) + 1 - epochs))
        (head :: rest))
    rw [List.length_append] at h1
    omega
  have hsize : ((head :: rest).takeWhile (heightAtLeast ((head.height : Int) + 1 - epochs)) ++
      ((head :: rest).dropWhile (heightAtLeast ((head.height : Int) + 1 - epochs))).take
        lookback).length =
      ((head :: rest).takeWhile (heightAtLeast ((head.height : Int) + 1 - epochs))).length +
        min lookback ((head :: rest).length -
          ((head :: rest).takeWhile (heightAtLeast ((head.height : Int) + 1 - epochs))).length) := by
    rw [List.length_append, List.length_take, hlen]
  refine ⟨_, hres, hsize, ?_, ?_⟩
  · intro hnn
    rw [hsize, takeWhile_noNullRounds _ _ hnn]
    have hh : head.height = rest.length := by
      simp only [noNullRounds, Bool.and_eq_true, decide_eq_true_eq] at hnn
      exact hnn.1
    simp only [List.length_cons, hh]
    omega
  · intro hpos
    by_cases he : 0 < epochs
    · have hp : heightAtLeast ((head.height : Int) + 1 - epochs) head = true := by
        simp only [heightAtLeast, decide_eq_true_eq]
        omega
      rw [List.takeWhile_cons, if_pos hp]
      rfl
    · have hp : ¬ heightAtLeast ((head.height : Int) + 1 - epochs) head = true := by
        simp only [heightAtLeast, decide_eq_true_eq]
        omega
      have hl : lookback = (lookback - 1) + 1 := by omega
      rw [List.takeWhile_cons, if_neg hp, List.dropWhile_cons, if_neg hp, List.nil_append, hl,
        List.take_succ_cons]
      rfl

/-- C34, amended, on the chain of 25 tipsets without null rounds with 10 epochs and a
lookback of 5: 15 tipsets starting at the head. -/
theorem GetRecentAncestors_size_witness :
    ∃ r, GetRecentAncestors 26 (tip 24) linearStore (((tip 24).height : Int) + 1) (10 : Nat) 5 =
        Except.ok r ∧
      r.length = min (linearChain 25).length (10 + 5) ∧ r.head? = some (tip 24) :=
  (GetRecentAncestors_size linearStore 25 26 (tip 24) (linearChain 25) 10 5 (by decide)
    (by decide)).imp (fun _ h => ⟨h.1, h.2.2.1 (by decide), h.2.2.2 (by decide)⟩)

/-- C35: on a chain whose traversal from `head` to genesis is `ts`, with or without null
rounds, and with fuel above its length, `GetRecentAncestors(head, store, currentHeight,
lookbackEpochs, lookbackExtra)` returns without error a prefix of `ts`: the leading
tipsets of height at least `max(0, currentHeight − lookbackEpochs)`, which on a chain of
falling heights are all tipsets of such height, followed by the next `min(lookbackExtra,
remaining)` tipsets. When the chain is no longer than that window plus `lookbackExtra`,
in particular when `lookbackEpochs ≥ currentHeight`, the result is the whole traversal. -/
theorem GetRecentAncestors_window (store : Store) (fuel fuel2 : Nat) (head : TipSet)
    (ts : List TipSet) (currentHeight lookbackEpochs : Int) (lookbackExtra : Nat)
    (hwalk : walk store fuel head = some ts) (hfuel : ts.length < fuel2) :
    GetRecentAncestors fuel2 head store currentHeight lookbackEpochs lookbackExtra =
      Except.ok (ts.takeWhile (heightAtLeast (max 0 (currentHeight - lookbackEpochs))) ++
        (ts.dropWhile (heightAtLeast (max 0 (currentHeight - lookbackEpochs)))).take
          lookbackExtra) ∧
    ts.takeWhile (heightAtLeast (max 0 (currentHeight - lookbackEpochs))) ++
        (ts.dropWhile (heightAtLeast (max 0 (currentHeight - lookbackEpochs)))).take
          lookbackExtra =
      ts.take ((ts.takeWhile (heightAtLeast (max 0 (currentHeight - lookbackEpochs)))).length +
        min lookbackExtra
          (ts.dropWhile (heightAtLeast (max 0 (currentHeight - lookbackEpochs)))).length) ∧
    (Descending ts →
      ts.takeWhile (heightAtLeast (max 0 (currentHeight - lookbackEpochs))) =
        ts.filter (fun t => decide (max 0 (currentHeight - lookbackEpochs) ≤ (t.height : Int)))) ∧
    (ts.length ≤
        (ts.takeWhile (heightAtLeast (max 0 (currentHeight - lookbackEpochs)))).length +
          lookbackExtra →
      GetRecentAncestors fuel2 head store currentHeight lookbackEpochs lookbackExtra =
        Except.ok ts) ∧
    (currentHeight ≤ lookbackEpochs →
      GetRecentAncestors fuel2 head store currentHeight lookbackEpochs lookbackExtra =
        Except.ok ts) := by
  obtain ⟨hw, rest, hts⟩ := walk_Walks store fuel head ts hwalk
  have hres : GetRecentAncestors fuel2 head store currentHeight lookbackEpochs lookbackExtra =
      Except.ok (ts.takeWhile (heightAtLeast (max 0 (currentHeight - lookbackEpochs))) ++
        (ts.dropWhile (heightAtLeast (max 0 (currentHeight - lookbackEpochs)))).take
          lookbackExtra) := by
    rw [heightAtLeast_max]
    subst hts
    exact GetRecentAncestors_iterAt store head rest fuel2 currentHeight lookbackEpochs
      lookbackExtra hw hfuel
  have hfull : currentHeight ≤ lookbackEpochs →
      ts.takeWhile (heightAtLeast (max 0 (currentHeight - lookbackEpochs))) = ts := by
    intro hle
    apply heightAtLeast_of_nonpos
    have : currentHeight - lookbackEpochs ≤ 0 := by omega
    exact max_le (le_refl 0) this
  generalize max 0 (currentHeight - lookbackEpochs) = m at hres hfull ⊢
  have hsplit := List.takeWhile_append_dropWhile (heightAtLeast m) ts
  have hlen := congrArg List.length hsplit
  rw [List.length_append] at hlen
  have hprefix : ts.takeWhile (heightAtLeast m) ++ (ts.dropWhile (heightAtLeast m)).take lookbackExtra =
      ts.take ((ts.takeWhile (heightAtLeast m)).length +
        min lookbackExtra (ts.dropWhile (heightAtLeast m)).length) := by
    have h := append_take (ts.takeWhile (heightAtLeast m)) (ts.dropWhile (heightAtLeast m))
      lookbackExtra
    rw [hsplit] at h
    exact h
  refine ⟨hres, hprefix, ?_, ?_, ?_⟩
  · intro hd
    exact takeWhile_eq_filter_of_Descending m ts hd
  · intro hshort
    rw [hres, hprefix]
    congr 1
    apply List.take_of_length_le
    omega
  · intro hle
    rw [hres, hprefix]
    congr 1
    apply List.take_of_length_le
    rw [hfull hle]
    omega

/-- C35, on the branch of `forkStore` with null rounds (one tipset in the window, one more
for the lookback) and on the chain of 25 tipsets with 60 epochs asked (the whole chain). -/
theorem GetRecentAncestors_window_witness :
    GetRecentAncestors 4 ⟨20, 5, some 1⟩ forkStore 6 3 1 =
      Except.ok [⟨20, 5, some 1⟩, ⟨1, 1, some 0⟩] ∧
    GetRecentAncestors 26 (tip 24) linearStore 25 60 50 = Except.ok (linearChain 25) :=
  ⟨(GetRecentAncestors_window forkStore 3 4 ⟨20, 5, some 1⟩
      [⟨20, 5, some 1⟩, ⟨1, 1, some 0⟩, ⟨0, 0, none⟩] 6 3 1 (by decide) (by decide)).1.trans rfl,
    (GetRecentAncestors_window linearStore 25 26 (tip 24) (linearChain 25) 25 60 50 (by decide)
      (by decide)).2.2.2.2 (by decide)⟩

/-! ## The common ancestor of two traversals -/

theorem Descending_of_append (pa common : List TipSet) (h : Descending (pa ++ common)) :
    Descending common := by
  unfold Descending at h ⊢
  exact (List.pairwise_append.mp h).2.1

/-- C36: for two traversals `tsA` and `tsB` over the same store, from `a` and from `b` to
the same genesis, with heights falling along each and fuel of at least the sum of their
lengths, `FindCommonAncestor` returns without error a tipset `c` that occurs in both
traversals and is at least as high as every tipset occurring in both. It is the head when
both start at the same head, the lower head when one head is an ancestor of the other,
and for two branches `pa` and `pb` without a common tipset on top of a common part, the
first tipset of the common part, wherever the heights of the branches lie. -/
theorem FindCommonAncestor_highest (store : Store) (fuelA fuelB fuel : Nat) (a b : TipSet)
    (tsA tsB : List TipSet)
    (hA : walk store fuelA a = some tsA) (hB : walk store fuelB b = some tsB)
    (hdA : Descending tsA) (hdB : Descending tsB)
    (hgen : tsA.getLast? = tsB.getLast?)
    (hfuel : tsA.length + tsB.length ≤ fuel) :
    ∃ c, FindCommonAncestor fuel (IterAncestors store a) (IterAncestors store b) = Except.ok c ∧
      c ∈ tsA ∧ c ∈ tsB ∧ (∀ d, d ∈ tsA → d ∈ tsB → d.height ≤ c.height) ∧
      (a = b → c = a) ∧ (b ∈ tsA → c = b) ∧ (a ∈ tsB → c = a) ∧
      (∀ pa pb common, tsA = pa ++ common → tsB = pb ++ common → (∀ x ∈ pa, x ∉ pb) →
        common.head? = some c) := by
  obtain ⟨hwA, restA, htsA⟩ := walk_Walks store fuelA a tsA hA
  obtain ⟨hwB, restB, htsB⟩ := walk_Walks store fuelB b tsB hB
  have hcommon : ∃ g, g ∈ tsA ∧ g ∈ tsB := by
    cases hl : tsA.getLast? with
    | none =>
      rw [List.getLast?_eq_none_iff] at hl
      rw [hl] at htsA
      exact absurd htsA (List.noConfusion)
    | some g =>
      exact ⟨g, List.mem_of_getLast?_eq_some hl, List.mem_of_getLast?_eq_some (hgen ▸ hl)⟩
  obtain ⟨c, hc, hcA, hcB, hmax⟩ :=
    FindCommonAncestor_iterAt store fuel tsA tsB hfuel hwA hwB hdA hdB hcommon
  have haA : a ∈ tsA := by rw [htsA]; exact List.mem_cons_self _ _
  have hbB : b ∈ tsB := by rw [htsB]; exact List.mem_cons_self _ _
  refine ⟨c, ?_, hcA, hcB, hmax, ?_, ?_, ?_, ?_⟩
  · have h1 : IterAncestors store a = iterAt store tsA := by rw [htsA]; rfl
    have h2 : IterAncestors store b = iterAt store tsB := by rw [htsB]; rfl
    rw [h1, h2]
    exact hc
  · intro hab
    have hle := hmax a haA (hab ▸ hbB)
    rw [htsA] at hdA hcA
    exact Descending_head_max a c restA hdA hcA hle
  · intro hb
    have hle := hmax b hb hbB
    rw [htsB] at hdB hcB
    exact Descending_head_max b c restB hdB hcB hle
  · intro ha
    have hle := hmax a haA ha
    rw [htsA] at hdA hcA
    exact Descending_head_max a c restA hdA hcA hle
  · intro pa pb common hsA hsB hdisj
    have hcc : c ∈ common := by
      rw [hsA] at hcA
      rw [hsB] at hcB
      rcases List.mem_append.mp hcA with h1 | h1
      · rcases List.mem_append.mp hcB with h2 | h2
        · exact absurd h2 (hdisj c h1)
        · exact h2
      · exact h1
    cases common with
    | nil => exact absurd hcc (List.not_mem_nil c)
    | cons d rest =>
      have hdA2 : d ∈ tsA := by rw [hsA]; exact List.mem_append_right _ (List.mem_cons_self _ _)
      have hdB2 : d ∈ tsB := by rw [hsB]; exact List.mem_append_right _ (List.mem_cons_self _ _)
      have hle := hmax d hdA2 hdB2
      have hdc : Descending (d :: rest) := by
        rw [hsA] at hdA
        exact Descending_of_append pa (d :: rest) hdA
      rw [Descending_head_max d c rest hdc hcc hle]
      rfl

/-- C36, on `forkStore`: the main chain from tipset 3 and the branch from tipset 11, which
has null rounds at heights 2 and 3, meet at tipset 1, where the branch forks off. -/
theorem FindCommonAncestor_highest_witness :
    ∃ c, FindCommonAncestor 8 (IterAncestors forkStore ⟨3, 3, some 2⟩)
        (IterAncestors forkStore ⟨11, 5, some 10⟩) = Except.ok c ∧
      c = ⟨1, 1, some 0⟩ :=
  (FindCommonAncestor_highest forkStore 4 4 8 ⟨3, 3, some 2⟩ ⟨11, 5, some 10⟩
    [⟨3, 3, some 2⟩, ⟨2, 2, some 1⟩, ⟨1, 1, some 0⟩, ⟨0, 0, none⟩]
    [⟨11, 5, some 10⟩, ⟨10, 4, some 1⟩, ⟨1, 1, some 0⟩, ⟨0, 0, none⟩]
    (by decide) (by decide) (by decide) (by decide) (by decide) (by decide)).imp
    (fun _ h => ⟨h.1, (Option.some.inj (h.2.2.2.2.2.2.2
      [⟨3, 3, some 2⟩, ⟨2, 2, some 1⟩] [⟨11, 5, some 10⟩, ⟨10, 4, some 1⟩]
      [⟨1, 1, some 0⟩, ⟨0, 0, none⟩] rfl rfl (by decide))).symm⟩)

/-- The hypothesis of falling heights is used: on `skewStore` the traversals from tipsets
3 and 4 both pass through tipset 2 at height 5, and the co-walk steps past it on one side
while the other still waits below, so that genesis is returned. -/
theorem FindCommonAncestor_on_skewStore :
    walk skewStore 3 ⟨3, 3, some 2⟩ = some [⟨3, 3, some 2⟩, ⟨2, 5, some 0⟩, ⟨0, 0, none⟩] ∧
    walk skewStore 3 ⟨4, 4, some 2⟩ = some [⟨4, 4, some 2⟩, ⟨2, 5, some 0⟩, ⟨0, 0, none⟩] ∧
    FindCommonAncestor 6 (IterAncestors skewStore ⟨3, 3, some 2⟩)
      (IterAncestors skewStore ⟨4, 4, some 2⟩) = Except.ok ⟨0, 0, none⟩ :=
  ⟨by decide, by decide, rfl⟩

end Chain
